import Mathlib

/-!
# gotak: transports, flow-tag relay and certificate loading

A shallow embedding of the four transports of gotak (pkg/tak: TCP, TLS, UDP and
multicast), of the flow-tag layer of the multicast transport (pkg/cot/flow_tags.go)
and of the certificate loader (pkg/util/tls.go).  Go values become Lean values, a
method with a pointer receiver becomes a function that returns the updated receiver
next to its results, and the state outside the receiver is passed explicitly:

* `GlobalSequence` (a package-level `uint64`) is a `Nat` threaded through every
  function that can reach `NewFlowTags`; the atomic add wraps modulo `2^64`;
* the wall clock read by `NewFlowTags` is the argument `nowUnixNano`;
* the network (`NetEnv`) and the file system with the certificate libraries
  (`CertEnv`) are records of functions, one per call of the standard library, and
  every loader returns the list of files it has read next to its result.

`encoding/xml` is outside the repository, so the codec (`parser.XMLParser`) is a
record of two functions and every statement quantifies over it.
-/

namespace Gotak

/-! ## Data model -/

/-- A Go byte slice; every element is a byte value. -/
abbrev Bytes := List Nat

/-- The Go error values that the multicast client creates or passes on. -/
inductive GoError where
  /-- The package variable ErrMessageSkipped. -/
  | ErrMessageSkipped
  /-- The value of errors.New("client is not connected"). -/
  | notConnected
  /-- The value of errors.New("client is already connected"). -/
  | alreadyConnected
  /-- An error wrapped by fmt.Errorf with the given text in front. -/
  | wrapped (msg : String) (inner : GoError)
  /-- An error that comes from the socket or from the codec. -/
  | other (msg : String)
  /-- The value of errors.New(msg) for any other message written in the repository. -/
  | errorsNew (msg : String)
  /-- Not an error value: the call does not return, because a method is called
  through a nil pointer and the goroutine panics. -/
  | nilPointerPanic
  deriving DecidableEq, Repr

/-- The uint64 modulus. -/
def uint64Mod : Nat := 2 ^ 64

/-- FlowTags of pkg/cot/flow_tags.go.  Version is a float64 that the code never
reads; it is kept as the bit pattern of the value (zero value 0).  A nil slice and
an empty slice of hops are both the empty list. -/
structure FlowTags where
  Version : Nat := 0
  From : String
  MessageID : Nat
  Timestamp : Int
  Hops : List String := []
  deriving DecidableEq, Repr

/-- Detail of pkg/cot/details.go, reduced to the optional flow tags and the raw
inner XML; the other optional elements travel in the event's remainder. -/
structure Detail where
  FlowTags : Option FlowTags := none
  RawXML : Bytes := []
  deriving DecidableEq, Repr

/-- Event of pkg/cot/event.go.  The attributes and the point, which the transport
neither reads nor writes, are gathered in one field of an arbitrary type. -/
structure Event (R : Type) where
  Detail : Detail
  remainder : R

/-- The codec, parser.XMLParser: ParseCoT and SerializeCoT are thin wrappers
around encoding/xml, so both are taken as given functions.  The instance
xmlDetailCodec further down is the codec with what encoding/xml does to the two
fields of Detail. -/
structure XMLParser (R : Type) where
  ParseCoT : Bytes → Except GoError (Event R)
  SerializeCoT : Event R → Except GoError Bytes

/-- A parsed x509 certificate, known by its DER bytes. -/
structure X509Cert where
  Raw : Bytes
  deriving DecidableEq, Repr

/-- A tls.Certificate: the certificate chain, the private key and the parsed leaf. -/
structure Certificate where
  Chain : List Bytes := []
  PrivateKey : Bytes := []
  Leaf : Option X509Cert := none
  deriving DecidableEq, Repr

/-- An x509.CertPool: the certificates in the order in which they were added. -/
abbrev CertPool := List X509Cert

/-- The fields of tls.Config that the repository sets. -/
structure TLSConfig where
  InsecureSkipVerify : Bool := false
  Certificates : List Certificate := []
  RootCAs : Option CertPool := none
  deriving DecidableEq, Repr

/-- ClientConfig of client.go without the logger.  Durations are int64 nanosecond
counts.  KeepAlive and TCPUserTimeout are read by tcp_client.go and tls_client.go. -/
structure ClientConfig where
  Address : String := ""
  Port : Int := 0
  ClientID : String := ""
  ConnectionType : String := ""
  TLSConfig : Option TLSConfig := none
  KeepAlive : Int := 0
  TCPUserTimeout : Int := 0
  CertFile : String := ""
  KeyFile : String := ""
  CAFile : String := ""
  P12Password : String := ""
  SkipTLSVerify : Bool := false
  DialTimeout : Int := 0
  ReadTimeout : Int := 0
  WriteTimeout : Int := 0
  MulticastAddr : String := ""
  MulticastPort : Int := 0
  deriving DecidableEq, Repr

/-- A resolved UDP address. -/
structure UDPAddr where
  IP : String
  Port : Int
  deriving DecidableEq, Repr

/-- The connection used behind udpConnInterface, as written in
multicast_client_test.go: what the next read delivers and which errors the socket
returns are fields, and every write is recorded. -/
structure mockUDPConn where
  closed : Bool := false
  readData : Bytes := []
  readError : Option GoError := none
  writeError : Option GoError := none
  deadlineError : Option GoError := none
  writtenData : List Bytes := []
  writeAddresses : List UDPAddr := []
  deriving DecidableEq, Repr

/-- The method Close: marks the connection closed and returns nil. -/
def mockUDPConn.Close (m : mockUDPConn) : Option GoError × mockUDPConn :=
  (none, { m with closed := true })

/-- The method ReadFromUDP on a buffer of bufLen bytes: the error, or the bytes
b[:n] that copy(b, readData) placed in the buffer. -/
def mockUDPConn.ReadFromUDP (m : mockUDPConn) (bufLen : Nat) : Except GoError Bytes :=
  match m.readError with
  | some e => .error e
  | none => .ok (m.readData.take bufLen)

/-- The method WriteTo: the error, or the connection with b and addr recorded. -/
def mockUDPConn.WriteTo (m : mockUDPConn) (b : Bytes) (addr : UDPAddr) :
    Option GoError × mockUDPConn :=
  match m.writeError with
  | some e => (some e, m)
  | none => (none, { m with writtenData := m.writtenData ++ [b],
                            writeAddresses := m.writeAddresses ++ [addr] })

/-- The method SetReadDeadline. -/
def mockUDPConn.SetReadDeadline (m : mockUDPConn) : Option GoError := m.deadlineError

/-- The method SetWriteDeadline. -/
def mockUDPConn.SetWriteDeadline (m : mockUDPConn) : Option GoError := m.deadlineError

/-! ## The seen-message registry: a Go map[string]uint64 -/

/-- A Go map from string to uint64 as an association list; a key is bound to the
value of its first entry. -/
abbrev SeenMessages := List (String × Nat)

/-- The lookup m[key] with its exists flag: none when the key is absent. -/
def SeenMessages.get : SeenMessages → String → Option Nat
  | [], _ => none
  | (k, v) :: rest, key => if k = key then some v else SeenMessages.get rest key

/-- The assignment m[key] = value. -/
def SeenMessages.set : SeenMessages → String → Nat → SeenMessages
  | [], key, value => [(key, value)]
  | (k, v) :: rest, key, value =>
    if k = key then (key, value) :: rest else (k, v) :: SeenMessages.set rest key value

/-- The builtin len on the map. -/
def SeenMessages.len (m : SeenMessages) : Nat := m.length

/-- A list is a map when no key occurs twice. -/
def SeenMessages.WellFormed (m : SeenMessages) : Prop := (m.map Prod.fst).Nodup

/-- MulticastClient of multicast_client.go; the mutex and the context are not
state of a sequential run.  The field conn has an interface type: it is none when
the interface is nil and some when it holds a connection.  When Connect stores the
nil pointer that a failed ListenMulticastUDP returns, the interface is not nil and
holds no connection: conn is none and connTypedNil is true. -/
structure MulticastClient where
  config : ClientConfig
  conn : Option mockUDPConn := none
  multicastAddr : Option UDPAddr := none
  seenMessages : SeenMessages := []
  connTypedNil : Bool := false
  deriving DecidableEq, Repr

/-! ## pkg/cot/flow_tags.go -/

/-- NewFlowTags: atomic.AddUint64 adds one to GlobalSequence modulo 2^64 and
yields the new value; the timestamp is UnixNano divided by 10^6 (Go division
truncates).  Returns the tag and the new GlobalSequence. -/
def NewFlowTags (globalSequence : Nat) (nowUnixNano : Int) (clientID : String) :
    FlowTags × Nat :=
  let next := (globalSequence + 1) % uint64Mod
  ({ From := clientID, MessageID := next, Timestamp := Int.tdiv nowUnixNano 1000000 }, next)

/-- The map key fmt.Sprintf("%s:%d", from, messageID). -/
def registryKey (origin : String) (messageID : Nat) : String :=
  origin ++ ":" ++ Nat.repr messageID

/-- ShouldProcess of flow_tags.go: the decision and the map after the call. -/
def ShouldProcess (flowTags : Option FlowTags) (clientID : String)
    (seenMessages : SeenMessages) : Bool × SeenMessages :=
  match flowTags with
  | none => (true, seenMessages)
  | some ft =>
    if ft.From = clientID then (false, seenMessages)
    else
      let key := registryKey ft.From ft.MessageID
      match seenMessages.get key with
      | some lastSeen =>
        if lastSeen ≥ ft.MessageID then (false, seenMessages)
        else (true, seenMessages.set key ft.MessageID)
      | none => (true, seenMessages.set key ft.MessageID)

/-- The method AddHop: append the client to the hop list. -/
def FlowTags.AddHop (f : FlowTags) (clientID : String) : FlowTags :=
  { f with Hops := f.Hops ++ [clientID] }

/-- Detail.AddFlowTags of details.go: mint a tag and store it. -/
def Detail.AddFlowTags (d : Detail) (globalSequence : Nat) (nowUnixNano : Int)
    (clientID : String) : Detail × Nat :=
  let r := NewFlowTags globalSequence nowUnixNano clientID
  ({ d with FlowTags := some r.1 }, r.2)

/-! ## pkg/tak/multicast_client.go -/

/-- The method handleMessage: (shouldProcess, err) and the client afterwards. -/
def MulticastClient.handleMessage {R : Type} (p : XMLParser R) (c : MulticastClient)
    (data : Bytes) : (Bool × Option GoError) × MulticastClient :=
  match p.ParseCoT data with
  | .error err => ((true, some err), c)
  | .ok event =>
    match event.Detail.FlowTags with
    | none => ((true, none), c)
    | some ft =>
      if ft.From = c.config.ClientID then ((false, none), c)
      else
        let key := registryKey ft.From ft.MessageID
        match c.seenMessages.get key with
        | some lastSeen =>
          if lastSeen ≥ ft.MessageID then ((false, none), c)
          else ((true, none), { c with seenMessages := c.seenMessages.set key ft.MessageID })
        | none => ((true, none), { c with seenMessages := c.seenMessages.set key ft.MessageID })

/-- The size of the receive buffer. -/
def receiveBufferSize : Nat := 8192

/-- The method Receive: (data, err) and the client afterwards. -/
def MulticastClient.Receive {R : Type} (p : XMLParser R) (c : MulticastClient) :
    (Option Bytes × Option GoError) × MulticastClient :=
  match c.conn with
  | none =>
    if c.connTypedNil then ((none, some .nilPointerPanic), c)
    else ((none, some .notConnected), c)
  | some conn =>
    match (if c.config.ReadTimeout > 0 then conn.SetReadDeadline else none) with
    | some err => ((none, some err), c)
    | none =>
      match conn.ReadFromUDP receiveBufferSize with
      | .error err => ((none, some err), c)
      | .ok data =>
        match c.handleMessage p data with
        | ((_, some _), c1) => ((some data, none), c1)
        | ((false, none), c1) => ((none, some .ErrMessageSkipped), c1)
        | ((true, none), c1) => ((some data, none), c1)

/-- The method sendRaw, called by Send once conn and multicastAddr are known to
be set: the error and the client afterwards. -/
def MulticastClient.sendRaw (c : MulticastClient) (conn : mockUDPConn) (addr : UDPAddr)
    (data : Bytes) : Option GoError × MulticastClient :=
  match (if c.config.WriteTimeout > 0 then conn.SetWriteDeadline else none) with
  | some err => (some err, c)
  | none =>
    let r := conn.WriteTo data addr
    (r.1, { c with conn := some r.2 })

/-- The event that enrichWithFlowTags hands to the serializer, and the value of
GlobalSequence afterwards. -/
def enrichEvent {R : Type} (clientID : String) (globalSequence : Nat) (nowUnixNano : Int)
    (event : Event R) : Event R × Nat :=
  match event.Detail.FlowTags with
  | none =>
    let r := event.Detail.AddFlowTags globalSequence nowUnixNano clientID
    ({ event with Detail := r.1 }, r.2)
  | some ft =>
    if ft.From ≠ clientID then
      ({ event with Detail := { event.Detail with FlowTags := some (ft.AddHop clientID) } },
        globalSequence)
    else (event, globalSequence)

/-- The method enrichWithFlowTags: the enriched bytes or the error, and the value
of GlobalSequence afterwards. -/
def MulticastClient.enrichWithFlowTags {R : Type} (p : XMLParser R) (c : MulticastClient)
    (globalSequence : Nat) (nowUnixNano : Int) (data : Bytes) : Except GoError Bytes × Nat :=
  match p.ParseCoT data with
  | .error err => (.error (.wrapped "not valid CoT XML" err), globalSequence)
  | .ok event =>
    let r := enrichEvent c.config.ClientID globalSequence nowUnixNano event
    match p.SerializeCoT r.1 with
    | .error err => (.error (.wrapped "failed to serialize enriched XML" err), r.2)
    | .ok enrichedData => (.ok enrichedData, r.2)

/-- The method Send: the error, the client afterwards and the value of
GlobalSequence afterwards. -/
def MulticastClient.Send {R : Type} (p : XMLParser R) (c : MulticastClient)
    (globalSequence : Nat) (nowUnixNano : Int) (data : Bytes) :
    Option GoError × MulticastClient × Nat :=
  match c.conn, c.multicastAddr with
  | some conn, some addr =>
    match c.enrichWithFlowTags p globalSequence nowUnixNano data with
    | (.error _, g) =>
      let r := c.sendRaw conn addr data
      (r.1, r.2, g)
    | (.ok enrichedData, g) =>
      let r := c.sendRaw conn addr enrichedData
      (r.1, r.2, g)
  | none, some _ =>
    if c.connTypedNil then
      (some .nilPointerPanic, c, (c.enrichWithFlowTags p globalSequence nowUnixNano data).2)
    else (some .notConnected, c, globalSequence)
  | _, none => (some .notConnected, c, globalSequence)

/-- The method IsConnected: conn != nil && multicastAddr != nil. -/
def MulticastClient.IsConnected (c : MulticastClient) : Bool :=
  (c.conn.isSome || c.connTypedNil) && c.multicastAddr.isSome

/-- The threshold above which the pruning task resets the registry. -/
def pruneThreshold : Nat := 1000

/-- One firing of the ticker inside pruneSeenMessages. -/
def MulticastClient.pruneTick (c : MulticastClient) : MulticastClient :=
  if c.seenMessages.len > pruneThreshold then { c with seenMessages := [] } else c

/-! ## Runs of calls -/

/-- Pass a list of received datagrams through handleMessage, one after the other,
with no pruning in between. -/
def MulticastClient.handleAll {R : Type} (p : XMLParser R) (c : MulticastClient) :
    List Bytes → MulticastClient
  | [] => c
  | d :: ds => MulticastClient.handleAll p (c.handleMessage p d).2 ds

/-- A run of NewFlowTags calls, one per (clock reading, client identifier) pair,
from a given value of GlobalSequence: the tags in the order minted and the value of
GlobalSequence at the end. -/
def mintAll : Nat → List (Int × String) → List FlowTags × Nat
  | g, [] => ([], g)
  | g, (nowUnixNano, clientID) :: rest =>
    let r := NewFlowTags g nowUnixNano clientID
    let rs := mintAll r.2 rest
    (r.1 :: rs.1, rs.2)

/-- The registry holds the tag's own key with a value at least the tag's sequence
number: the test that makes handleMessage suppress a foreign message. -/
def SeenMessages.covers (m : SeenMessages) (ft : FlowTags) : Prop :=
  ∃ lastSeen, m.get (registryKey ft.From ft.MessageID) = some lastSeen ∧
    ft.MessageID ≤ lastSeen

/-! ## Decimal digits -/

/-- The value of a decimal digit character. -/
def digitValue (c : Char) : Nat := c.toNat - 48

/-- Read a list of decimal digits, most significant first, on top of acc. -/
def decodeDigits (acc : Nat) (ds : List Char) : Nat :=
  ds.foldl (fun a c => 10 * a + digitValue c) acc

/-! ## A small codec and client for concrete runs -/

/-- Three client identifiers. -/
def testOrigin : Nat → String
  | 0 => "test-client"
  | 1 => "other-client"
  | _ => "third-client"

/-- The flow tag with origin testOrigin o, sequence number s and timestamp 1000. -/
def testTag (o s : Nat) : FlowTags :=
  { From := testOrigin o, MessageID := s, Timestamp := 1000 }

/-- The event that carries testTag o s and nothing else. -/
def testEvent (o s : Nat) : Event Unit :=
  { Detail := { FlowTags := some (testTag o s) }, remainder := () }

/-- A codec on a toy wire format: [0] is an event without flow tags, [1, o, s] is
an event whose flow tag has origin testOrigin o, sequence number s and timestamp
1000, and anything else does not parse.  Serializing writes the length of the
origin, the sequence number and the length of every hop. -/
def testCodec : XMLParser Unit where
  ParseCoT
    | [0] => .ok { Detail := {}, remainder := () }
    | [1, o, s] => .ok (testEvent o s)
    | _ => .error (.other "EOF")
  SerializeCoT ev :=
    match ev.Detail.FlowTags with
    | none => .ok [0]
    | some ft => .ok ([1, ft.From.length, ft.MessageID] ++ ft.Hops.map String.length)

/-- The connected client of TestMulticastClient_FlowTagHandling, whose socket
delivers the given datagram on the next read. -/
def testClient (readData : Bytes) (seen : SeenMessages) : MulticastClient :=
  { config := { ClientID := "test-client", MulticastAddr := "239.2.3.1",
                MulticastPort := 6969, ConnectionType := "multicast" },
    conn := some { readData := readData },
    multicastAddr := some ⟨"239.2.3.1", 6969⟩,
    seenMessages := seen }

/-! ## Sockets, interfaces and the network outside the process -/

/-- A connection of the standard library (net.Conn, *tls.Conn, *net.UDPConn) as the
clients see it.  readData holds the bytes that have arrived and are not read yet:
for a stream (TCP, TLS) the bytes of the stream in order, for a UDP socket the next
datagram.  A Read on a stream returns what the transport has at hand, one segment
or one TLS record, which can be less than what has arrived: readAvail is that
number of bytes when it is given, and everything that has arrived otherwise.
The other fields are the errors that the methods return and a record of every
write. -/
structure netConn where
  closed : Bool := false
  readData : Bytes := []
  readAvail : Option Nat := none
  readError : Option GoError := none
  writeError : Option GoError := none
  deadlineError : Option GoError := none
  closeError : Option GoError := none
  writtenData : List Bytes := []
  deriving DecidableEq, Repr

/-- The method Close: the error of the close, and the connection afterwards. -/
def netConn.Close (m : netConn) : Option GoError × netConn :=
  (m.closeError, { m with closed := true })

/-- The number n that one Read on a stream reports for a buffer of bufLen bytes: at
most the size of the buffer, at most what the transport has at hand. -/
def netConn.readCount (m : netConn) (bufLen : Nat) : Nat :=
  match m.readAvail with
  | none => min bufLen m.readData.length
  | some avail => min bufLen (min avail m.readData.length)

/-- The method Read of a stream on a buffer of bufLen bytes: the error, or the bytes
b[:n] and the connection afterwards, on which the bytes after the first n are still
to be read. -/
def netConn.Read (m : netConn) (bufLen : Nat) : Except GoError (Bytes × netConn) :=
  match m.readError with
  | some e => .error e
  | none =>
    .ok (m.readData.take (m.readCount bufLen),
      { m with readData := m.readData.drop (m.readCount bufLen), readAvail := none })

/-- The method ReadFromUDP of a UDP socket on a buffer of bufLen bytes: the error,
or the bytes b[:n] of the next datagram and the connection afterwards; what of the
datagram does not fit into the buffer is discarded. -/
def netConn.ReadFromUDP (m : netConn) (bufLen : Nat) : Except GoError (Bytes × netConn) :=
  match m.readError with
  | some e => .error e
  | none => .ok (m.readData.take bufLen, { m with readData := [], readAvail := none })

/-- The method Write: the error, or the connection with b recorded. -/
def netConn.Write (m : netConn) (b : Bytes) : Option GoError × netConn :=
  match m.writeError with
  | some e => (some e, m)
  | none => (none, { m with writtenData := m.writtenData ++ [b] })

/-- The method SetReadDeadline. -/
def netConn.SetReadDeadline (m : netConn) : Option GoError := m.deadlineError

/-- The method SetWriteDeadline. -/
def netConn.SetWriteDeadline (m : netConn) : Option GoError := m.deadlineError

/-- A net.Interface: its name and its flags (a bit set). -/
structure Interface where
  Name : String
  Flags : Nat
  deriving DecidableEq, Repr

/-- The constant net.FlagUp, 1 << 0. -/
def FlagUp : Nat := 1

/-- The constant net.FlagLoopback, 1 << 2. -/
def FlagLoopback : Nat := 4

/-- The constant net.FlagMulticast, 1 << 4. -/
def FlagMulticast : Nat := 16

/-- The calls into package net and crypto/tls that Connect makes, as functions of
their arguments: each yields the error or the value the call returns. -/
structure NetEnv where
  /-- The call dialer.DialContext(ctx, "tcp", address) with the dialer's Timeout and KeepAlive. -/
  DialContext : Int → Int → String → Except GoError netConn
  /-- The call tls.DialWithDialer(dialer, "tcp", address, config). -/
  DialWithDialer : Int → Int → String → Option TLSConfig → Except GoError netConn
  /-- The system calls behind setTCPUserTimeout on Linux; always nil elsewhere. -/
  userTimeoutSyscalls : netConn → Int → Option GoError
  /-- The call net.ResolveUDPAddr("udp", address). -/
  ResolveUDPAddr : String → Except GoError UDPAddr
  /-- The call net.DialUDP("udp", localAddr, serverAddr). -/
  DialUDP : UDPAddr → UDPAddr → Except GoError netConn
  /-- The call net.Interfaces(). -/
  Interfaces : Except GoError (List Interface)
  /-- The call net.ListenMulticastUDP("udp", iface, addr). -/
  ListenMulticastUDP : Interface → UDPAddr → Except GoError mockUDPConn

/-- The function setTCPUserTimeout (and setTCPUserTimeoutTLS) of sockopts_linux.go
and sockopts_other.go: nothing to do for a timeout that is not positive. -/
def setTCPUserTimeout (env : NetEnv) (conn : netConn) (timeout : Int) : Option GoError :=
  if timeout ≤ 0 then none else env.userTimeoutSyscalls conn timeout

/-- The address net.JoinHostPort(host, strconv.Itoa(port)): a host that contains
a colon is put in brackets. -/
def joinHostPort (host : String) (port : Int) : String :=
  if ':' ∈ host.data then "[" ++ host ++ "]:" ++ toString port
  else host ++ ":" ++ toString port

/-! ## pkg/tak/tcp_client.go -/

/-- TCPClient of tcp_client.go. -/
structure TCPClient where
  config : ClientConfig
  conn : Option netConn := none
  deriving DecidableEq, Repr

/-- NewTCPClient: always a client, with no connection. -/
def NewTCPClient (config : ClientConfig) : Except GoError TCPClient :=
  .ok { config := config }

/-- The method Connect: the error and the client afterwards.  The connection is
stored only after the dial and the kernel timeout succeeded. -/
def TCPClient.Connect (env : NetEnv) (c : TCPClient) : Option GoError × TCPClient :=
  match c.conn with
  | some _ => (some .alreadyConnected, c)
  | none =>
    match env.DialContext c.config.DialTimeout c.config.KeepAlive
        (joinHostPort c.config.Address c.config.Port) with
    | .error err => (some err, c)
    | .ok conn =>
      match (if c.config.TCPUserTimeout > 0 then
              setTCPUserTimeout env conn c.config.TCPUserTimeout else none) with
      | some err => (some (.wrapped "failed to set TCP_USER_TIMEOUT" err), c)
      | none => (none, { c with conn := some conn })

/-- The method Disconnect: the handle is cleared only when Close returns nil. -/
def TCPClient.Disconnect (c : TCPClient) : Option GoError × TCPClient :=
  match c.conn with
  | none => (some .notConnected, c)
  | some conn =>
    match conn.Close with
    | (none, _) => (none, { c with conn := none })
    | (some err, conn1) => (some err, { c with conn := some conn1 })

/-- The method Send. -/
def TCPClient.Send (c : TCPClient) (data : Bytes) : Option GoError × TCPClient :=
  match c.conn with
  | none => (some .notConnected, c)
  | some conn =>
    match (if c.config.WriteTimeout > 0 then conn.SetWriteDeadline else none) with
    | some err => (some err, c)
    | none =>
      let r := conn.Write data
      (r.1, { c with conn := some r.2 })

/-- The method Receive. -/
def TCPClient.Receive (c : TCPClient) : (Option Bytes × Option GoError) × TCPClient :=
  match c.conn with
  | none => ((none, some .notConnected), c)
  | some conn =>
    match (if c.config.ReadTimeout > 0 then conn.SetReadDeadline else none) with
    | some err => ((none, some err), c)
    | none =>
      match conn.Read receiveBufferSize with
      | .error err => ((none, some err), c)
      | .ok r => ((some r.1, none), { c with conn := some r.2 })

/-- The method IsConnected. -/
def TCPClient.IsConnected (c : TCPClient) : Bool := c.conn.isSome

/-! ## pkg/tak/udp_client.go -/

/-- UDPClient of udp_client.go. -/
structure UDPClient where
  config : ClientConfig
  conn : Option netConn := none
  serverAddr : Option UDPAddr := none
  deriving DecidableEq, Repr

/-- NewUDPClient: always a client, with no connection. -/
def NewUDPClient (config : ClientConfig) : Except GoError UDPClient :=
  .ok { config := config }

/-- The method Connect: serverAddr and conn are assigned as soon as the calls
return, before the deadlines are set. -/
def UDPClient.Connect (env : NetEnv) (c : UDPClient) : Option GoError × UDPClient :=
  match c.conn with
  | some _ => (some .alreadyConnected, c)
  | none =>
    match env.ResolveUDPAddr (joinHostPort c.config.Address c.config.Port) with
    | .error err => (some err, { c with serverAddr := none })
    | .ok serverAddr =>
      match env.ResolveUDPAddr "0.0.0.0:0" with
      | .error err => (some err, { c with serverAddr := some serverAddr })
      | .ok localAddr =>
        match env.DialUDP localAddr serverAddr with
        | .error err => (some err, { c with serverAddr := some serverAddr, conn := none })
        | .ok conn =>
          match (if c.config.ReadTimeout > 0 then conn.SetReadDeadline else none) with
          | some err => (some err, { c with serverAddr := some serverAddr, conn := some conn })
          | none =>
            match (if c.config.WriteTimeout > 0 then conn.SetWriteDeadline else none) with
            | some err => (some err, { c with serverAddr := some serverAddr, conn := some conn })
            | none => (none, { c with serverAddr := some serverAddr, conn := some conn })

/-- The method Disconnect. -/
def UDPClient.Disconnect (c : UDPClient) : Option GoError × UDPClient :=
  match c.conn with
  | none => (some .notConnected, c)
  | some conn =>
    match conn.Close with
    | (none, _) => (none, { c with conn := none, serverAddr := none })
    | (some err, conn1) => (some err, { c with conn := some conn1 })

/-- The method Send. -/
def UDPClient.Send (c : UDPClient) (data : Bytes) : Option GoError × UDPClient :=
  match c.conn, c.serverAddr with
  | some conn, some _ =>
    match (if c.config.WriteTimeout > 0 then conn.SetWriteDeadline else none) with
    | some err => (some err, c)
    | none =>
      let r := conn.Write data
      (r.1, { c with conn := some r.2 })
  | _, _ => (some .notConnected, c)

/-- The method Receive. -/
def UDPClient.Receive (c : UDPClient) : (Option Bytes × Option GoError) × UDPClient :=
  match c.conn with
  | none => ((none, some .notConnected), c)
  | some conn =>
    match (if c.config.ReadTimeout > 0 then conn.SetReadDeadline else none) with
    | some err => ((none, some err), c)
    | none =>
      match conn.ReadFromUDP receiveBufferSize with
      | .error err => ((none, some err), c)
      | .ok r => ((some r.1, none), { c with conn := some r.2 })

/-- The method IsConnected. -/
def UDPClient.IsConnected (c : UDPClient) : Bool := c.conn.isSome && c.serverAddr.isSome

/-! ## pkg/tak/multicast_client.go: construction and connection -/

/-- The constant DefaultMulticastAddr of protocol.go. -/
def DefaultMulticastAddr : String := "239.2.3.1"

/-- The constant DefaultMulticastPort of protocol.go. -/
def DefaultMulticastPort : Int := 6969

/-- NewMulticastClient: fills in the default group and port and starts with an
empty registry and no connection. -/
def NewMulticastClient (config : ClientConfig) : Except GoError MulticastClient :=
  let config1 := if config.MulticastAddr = "" then
    { config with MulticastAddr := DefaultMulticastAddr } else config
  let config2 := if config1.MulticastPort = 0 then
    { config1 with MulticastPort := DefaultMulticastPort } else config1
  .ok { config := config2, seenMessages := [] }

/-- The test of the interface loop in Connect: up, multicast, not loopback. -/
def Interface.suitable (i : Interface) : Bool :=
  (i.Flags &&& FlagUp != 0) && (i.Flags &&& FlagMulticast != 0) &&
    (i.Flags &&& FlagLoopback == 0)

/-- The interface loop in Connect: the first interface that passes the test. -/
def selectInterface : List Interface → Option Interface
  | [] => none
  | i :: rest => if i.suitable then some i else selectInterface rest

/-- The value of errors.New("no suitable multicast interface found"). -/
def errNoSuitableInterface : GoError := .errorsNew "no suitable multicast interface found"

/-- What Connect does once the socket exists: set the deadlines. -/
def MulticastClient.setDeadlines (c : MulticastClient) (conn : mockUDPConn) :
    Option GoError × MulticastClient :=
  match (if c.config.ReadTimeout > 0 then conn.SetReadDeadline else none) with
  | some err => (some err, c)
  | none =>
    match (if c.config.WriteTimeout > 0 then conn.SetWriteDeadline else none) with
    | some err => (some err, c)
    | none => (none, c)

/-- The method Connect.  multicastAddr and conn are assigned as soon as the calls
return.  ListenMulticastUDP returns a *net.UDPConn, and on failure a nil one; stored
in the interface field conn it makes conn != nil true. -/
def MulticastClient.Connect (env : NetEnv) (c : MulticastClient) :
    Option GoError × MulticastClient :=
  if c.conn.isSome || c.connTypedNil then (some .alreadyConnected, c)
  else
    match env.ResolveUDPAddr
        (c.config.MulticastAddr ++ ":" ++ toString c.config.MulticastPort) with
    | .error err => (some err, { c with multicastAddr := none })
    | .ok addr =>
      match env.Interfaces with
      | .error err => (some err, { c with multicastAddr := some addr })
      | .ok interfaces =>
        match selectInterface interfaces with
        | none => (some errNoSuitableInterface, { c with multicastAddr := some addr })
        | some iface =>
          match env.ListenMulticastUDP iface addr with
          | .error err =>
            (some err, { c with multicastAddr := some addr, conn := none, connTypedNil := true })
          | .ok conn =>
            MulticastClient.setDeadlines
              { c with multicastAddr := some addr, conn := some conn, connTypedNil := false } conn

/-- The method Disconnect. -/
def MulticastClient.Disconnect (c : MulticastClient) : Option GoError × MulticastClient :=
  match c.conn with
  | none =>
    if c.connTypedNil then (some .nilPointerPanic, c) else (some .notConnected, c)
  | some conn =>
    match conn.Close with
    | (none, _) => (none, { c with conn := none, connTypedNil := false, multicastAddr := none })
    | (some err, conn1) => (some err, { c with conn := some conn1 })

/-! ## pkg/util/tls.go -/

/-- A pem.Block: its type and its DER bytes.  A block decoded by pkcs12.ToPEM always
carries bytes (the raw certificate or the marshalled key), so a nil Bytes field does
not occur. -/
structure PemBlock where
  blockType : String
  Bytes : Bytes
  deriving DecidableEq, Repr

/-- The file system and the certificate libraries (os, crypto/tls, crypto/x509,
encoding/pem, pkcs12) as functions of their arguments. -/
structure CertEnv where
  /-- The call os.ReadFile(name). -/
  ReadFile : String → Except GoError Bytes
  /-- The call tls.X509KeyPair(certPEM, keyPEM). -/
  X509KeyPair : Bytes → Bytes → Except GoError Certificate
  /-- The call x509.ParseCertificate(der). -/
  ParseCertificate : Bytes → Except GoError X509Cert
  /-- The certificates that AppendCertsFromPEM finds in a PEM bundle. -/
  CertsFromPEM : Bytes → List X509Cert
  /-- The call pkcs12.ToPEM(data, password). -/
  ToPEM : Bytes → String → Except GoError (List PemBlock)
  /-- The call pem.EncodeToMemory(block). -/
  EncodeToMemory : PemBlock → Bytes

/-- The method AddCert of x509.CertPool: a certificate already in the pool is not
added again. -/
def CertPool.AddCert (pool : CertPool) (cert : X509Cert) : CertPool :=
  if cert ∈ pool then pool else pool ++ [cert]

/-- The method AppendCertsFromPEM: whether a certificate was found, and the pool. -/
def CertPool.AppendCertsFromPEM (env : CertEnv) (pool : CertPool) (pemCerts : Bytes) :
    Bool × CertPool :=
  (!(env.CertsFromPEM pemCerts).isEmpty, (env.CertsFromPEM pemCerts).foldl CertPool.AddCert pool)

/-- The call tls.LoadX509KeyPair(certFile, keyFile): read both files, then pair
them.  Every loader returns its result next to the list of files it has read. -/
def LoadX509KeyPair (env : CertEnv) (certFile keyFile : String) :
    Except GoError Certificate × List String :=
  match env.ReadFile certFile with
  | .error err => (.error err, [certFile])
  | .ok certPEM =>
    match env.ReadFile keyFile with
    | .error err => (.error err, [certFile, keyFile])
    | .ok keyPEM => (env.X509KeyPair certPEM keyPEM, [certFile, keyFile])

/-- LoadTLSConfig of tls.go. -/
def LoadTLSConfig (env : CertEnv) (certFile keyFile caFile : String) (skipVerify : Bool) :
    Except GoError TLSConfig × List String :=
  if keyFile = "" then
    (.error (.errorsNew "PEM certificate format requires a key file"), [])
  else
    let loaded : Except GoError (List Certificate) × List String :=
      if certFile ≠ "" ∧ keyFile ≠ "" then
        match LoadX509KeyPair env certFile keyFile with
        | (.error err, reads) => (.error (.wrapped "failed to load client certificate" err), reads)
        | (.ok cert, reads) => (.ok [cert], reads)
      else (.ok [], [])
    match loaded with
    | (.error err, reads) => (.error err, reads)
    | (.ok certs, reads) =>
      if caFile ≠ "" then
        match env.ReadFile caFile with
        | .error err => (.error (.wrapped "failed to read CA certificate" err), reads ++ [caFile])
        | .ok caCert =>
          let r := CertPool.AppendCertsFromPEM env [] caCert
          if r.1 then
            (.ok { InsecureSkipVerify := skipVerify, Certificates := certs, RootCAs := some r.2 },
              reads ++ [caFile])
          else
            (.error (.errorsNew "failed to append CA certificate to pool"), reads ++ [caFile])
      else (.ok { InsecureSkipVerify := skipVerify, Certificates := certs }, reads)

/-- The three block types that the P12 loop takes as a private key. -/
def isPrivateKeyType (t : String) : Bool :=
  t = "PRIVATE KEY" || t = "RSA PRIVATE KEY" || t = "EC PRIVATE KEY"

/-- The variables of the P12 loop: certDERBlock, keyDERBlock, caCertDERBlocks. -/
structure P12Parts where
  certDERBlock : Option Bytes := none
  keyDERBlock : Option Bytes := none
  caCertDERBlocks : List Bytes := []
  deriving DecidableEq, Repr

/-- One round of the P12 loop. -/
def p12Step (acc : P12Parts) (block : PemBlock) : P12Parts :=
  if block.blockType = "CERTIFICATE" then
    match acc.certDERBlock with
    | none => { acc with certDERBlock := some block.Bytes }
    | some _ => { acc with caCertDERBlocks := acc.caCertDERBlocks ++ [block.Bytes] }
  else if isPrivateKeyType block.blockType then
    { acc with keyDERBlock := some block.Bytes }
  else acc

/-- The P12 loop over the decoded blocks, in order. -/
def extractP12Parts (blocks : List PemBlock) : P12Parts :=
  blocks.foldl p12Step {}

/-- The loop that parses the CA blocks and adds them to the pool; it stops at the
first block that does not parse. -/
def addCACerts (env : CertEnv) : CertPool → List Bytes → Except GoError CertPool
  | pool, [] => .ok pool
  | pool, der :: rest =>
    match env.ParseCertificate der with
    | .error err => .error (.wrapped "failed to parse CA certificate" err)
    | .ok caCert => addCACerts env (CertPool.AddCert pool caCert) rest

/-- LoadTLSConfigFromP12 of tls.go, after the file has been read and decoded:
from the decoded blocks to the configuration. -/
def configFromP12Blocks (env : CertEnv) (blocks : List PemBlock) (caFile : String)
    (skipVerify : Bool) : Except GoError TLSConfig × List String :=
  if blocks.length = 0 then
    (.error (.errorsNew "no certificates or keys found in P12 file"), [])
  else
    match (extractP12Parts blocks).certDERBlock, (extractP12Parts blocks).keyDERBlock with
    | some certDER, some keyDER =>
      match env.X509KeyPair (env.EncodeToMemory ⟨"CERTIFICATE", certDER⟩)
          (env.EncodeToMemory ⟨"PRIVATE KEY", keyDER⟩) with
      | .error err => (.error (.wrapped "failed to create X509 key pair" err), [])
      | .ok cert =>
        match env.ParseCertificate certDER with
        | .error err => (.error (.wrapped "failed to parse client certificate" err), [])
        | .ok clientCert =>
          match addCACerts env (CertPool.AddCert [] clientCert)
              (extractP12Parts blocks).caCertDERBlocks with
          | .error err => (.error err, [])
          | .ok certPool =>
            if caFile ≠ "" then
              match env.ReadFile caFile with
              | .error err => (.error (.wrapped "failed to read CA certificate" err), [caFile])
              | .ok caCert =>
                let r := CertPool.AppendCertsFromPEM env certPool caCert
                if r.1 then
                  (.ok { InsecureSkipVerify := skipVerify,
                         Certificates := [{ cert with Leaf := some clientCert }],
                         RootCAs := some r.2 }, [caFile])
                else (.error (.errorsNew "failed to append CA certificate to pool"), [caFile])
            else
              (.ok { InsecureSkipVerify := skipVerify,
                     Certificates := [{ cert with Leaf := some clientCert }],
                     RootCAs := some certPool }, [])
    | _, _ =>
      (.error (.errorsNew "P12 file must contain both a certificate and a private key"), [])

/-- LoadTLSConfigFromP12 of tls.go. -/
def LoadTLSConfigFromP12 (env : CertEnv) (p12File password caFile : String)
    (skipVerify : Bool) : Except GoError TLSConfig × List String :=
  match env.ReadFile p12File with
  | .error err => (.error (.wrapped "failed to read P12 file" err), [p12File])
  | .ok p12Data =>
    match env.ToPEM p12Data password with
    | .error err => (.error (.wrapped "failed to decode P12 data" err), [p12File])
    | .ok blocks =>
      let r := configFromP12Blocks env blocks caFile skipVerify
      (r.1, p12File :: r.2)

/-- The last four characters of a path that is longer than four characters: the Go
expression certFile[len(certFile)-4:].  Paths are taken as sequences of characters;
for the ASCII extensions tested here bytes and characters agree. -/
def lastFour (path : String) : String :=
  String.mk (path.data.drop (path.data.length - 4))

/-- The test at the head of LoadTLSConfigAuto: the extension is compared as it is
written. -/
def autoIsP12 (certFile : String) : Bool :=
  decide (certFile.data.length > 4) && (lastFour certFile = ".p12" || lastFour certFile = ".pfx")

/-- LoadTLSConfigAuto of tls.go. -/
def LoadTLSConfigAuto (env : CertEnv) (certFile keyFile password caFile : String)
    (skipVerify : Bool) : Except GoError TLSConfig × List String :=
  if autoIsP12 certFile then LoadTLSConfigFromP12 env certFile password caFile skipVerify
  else LoadTLSConfig env certFile keyFile caFile skipVerify

/-! ## pkg/tak/tls_client.go -/

/-- TLSClient of tls_client.go. -/
structure TLSClient where
  config : ClientConfig
  conn : Option netConn := none
  deriving DecidableEq, Repr

/-- NewTLSClient: the client or the error, and the files read on the way. -/
def NewTLSClient (env : CertEnv) (config : ClientConfig) :
    Except GoError TLSClient × List String :=
  match config.TLSConfig with
  | some _ => (.ok { config := config }, [])
  | none =>
    if !config.SkipTLSVerify && !decide (config.CertFile ≠ "") then
      (.error (.errorsNew "TLS connection requires either a certificate or skip-verify option"), [])
    else if config.CertFile ≠ "" then
      match LoadTLSConfigAuto env config.CertFile config.KeyFile config.P12Password
          config.CAFile config.SkipTLSVerify with
      | (.error err, reads) => (.error (.wrapped "failed to load TLS configuration" err), reads)
      | (.ok tlsConfig, reads) =>
        (.ok { config := { config with TLSConfig := some tlsConfig } }, reads)
    else if config.SkipTLSVerify then
      (.ok { config := { config with TLSConfig := some { InsecureSkipVerify := true } } }, [])
    else (.error (.errorsNew "failed to create TLS configuration"), [])

/-- The method Connect. -/
def TLSClient.Connect (env : NetEnv) (c : TLSClient) : Option GoError × TLSClient :=
  match c.conn with
  | some _ => (some .alreadyConnected, c)
  | none =>
    match env.DialWithDialer c.config.DialTimeout c.config.KeepAlive
        (joinHostPort c.config.Address c.config.Port) c.config.TLSConfig with
    | .error err => (some err, c)
    | .ok conn =>
      match (if c.config.TCPUserTimeout > 0 then
              setTCPUserTimeout env conn c.config.TCPUserTimeout else none) with
      | some err => (some (.wrapped "failed to set TCP_USER_TIMEOUT" err), c)
      | none => (none, { c with conn := some conn })

/-- The method Disconnect: nil when there is no connection; otherwise the handle is
cleared only when Close returns nil. -/
def TLSClient.Disconnect (c : TLSClient) : Option GoError × TLSClient :=
  match c.conn with
  | none => (none, c)
  | some conn =>
    match conn.Close with
    | (none, _) => (none, { c with conn := none })
    | (some err, conn1) => (some err, { c with conn := some conn1 })

/-- The method Send. -/
def TLSClient.Send (c : TLSClient) (data : Bytes) : Option GoError × TLSClient :=
  match c.conn with
  | none => (some .notConnected, c)
  | some conn =>
    match (if c.config.WriteTimeout > 0 then conn.SetWriteDeadline else none) with
    | some err => (some err, c)
    | none =>
      let r := conn.Write data
      (r.1, { c with conn := some r.2 })

/-- The method Receive. -/
def TLSClient.Receive (c : TLSClient) : (Option Bytes × Option GoError) × TLSClient :=
  match c.conn with
  | none => ((none, some .notConnected), c)
  | some conn =>
    match (if c.config.ReadTimeout > 0 then conn.SetReadDeadline else none) with
    | some err => ((none, some err), c)
    | none =>
      match conn.Read receiveBufferSize with
      | .error err => ((none, some err), c)
      | .ok r => ((some r.1, none), { c with conn := some r.2 })

/-- The method IsConnected. -/
def TLSClient.IsConnected (c : TLSClient) : Bool := c.conn.isSome

/-! ## pkg/tak/client.go -/

/-- A value of the interface Client: one of the four transports. -/
inductive Client where
  | tcp (c : TCPClient)
  | tls (c : TLSClient)
  | udp (c : UDPClient)
  | multicast (c : MulticastClient)
  deriving DecidableEq, Repr

/-- The lower-case form of an ASCII letter, as strings.ToLower gives it. -/
def lowerChar (c : Char) : Char :=
  if 'A' ≤ c ∧ c ≤ 'Z' then Char.ofNat (c.toNat + 32) else c

/-- The certificate format check inside NewClient: the extension is compared in
lower case. -/
def clientIsPKCS12 (certFile : String) : Bool :=
  if certFile.data.length > 4 then
    let ext := String.mk ((lastFour certFile).data.map lowerChar)
    ext = ".p12" || ext = ".pfx"
  else false

/-- NewClient of client.go: the client or the error, and the files read on the way. -/
def NewClient (env : CertEnv) (config : ClientConfig) : Except GoError Client × List String :=
  if config.ConnectionType = "tcp" then
    ((NewTCPClient config).map Client.tcp, [])
  else if config.ConnectionType = "tls" then
    if config.CertFile = "" then
      if !config.SkipTLSVerify then
        (.error (.errorsNew
          "TLS connection requires either a certificate file or skip-verify option"), [])
      else ((NewTLSClient env config).1.map Client.tls, (NewTLSClient env config).2)
    else if clientIsPKCS12 config.CertFile then
      ((NewTLSClient env config).1.map Client.tls, (NewTLSClient env config).2)
    else if config.KeyFile = "" then
      (.error (.errorsNew "PEM certificate format requires a key file"), [])
    else ((NewTLSClient env config).1.map Client.tls, (NewTLSClient env config).2)
  else if config.ConnectionType = "udp" then
    ((NewUDPClient config).map Client.udp, [])
  else if config.ConnectionType = "multicast" then
    ((NewMulticastClient config).map Client.multicast, [])
  else (.error (.errorsNew ("unsupported connection type: " ++ config.ConnectionType)), [])

/-! ## Environments and clients for concrete runs -/

/-- A file system with a PKCS#12 bundle, a CA bundle and a PEM pair, and libraries
that succeed: the bundle client.p12 decodes to a certificate, a key and two more
certificates. -/
def testCertEnv : CertEnv where
  ReadFile name :=
    if name = "client.p12" then .ok [1, 2, 3]
    else if name = "ca.crt" then .ok [9]
    else if name = "client.crt" then .ok [5]
    else if name = "client.key" then .ok [6]
    else .error (.other "no such file")
  X509KeyPair certPEM keyPEM := .ok { Chain := [certPEM], PrivateKey := keyPEM }
  ParseCertificate der := .ok ⟨der⟩
  CertsFromPEM pemCerts := [⟨pemCerts⟩]
  ToPEM _ _ := .ok [⟨"CERTIFICATE", [10]⟩, ⟨"PRIVATE KEY", [20]⟩, ⟨"CERTIFICATE", [11]⟩,
                    ⟨"CERTIFICATE", [12]⟩]
  EncodeToMemory block := block.Bytes

/-- A network in which every call succeeds unless told otherwise: the sockets handed
out are the given ones, the interfaces are the given list, and the multicast socket
is the given result. -/
def testNetEnv (conn : netConn) (interfaces : List Interface)
    (listen : Except GoError mockUDPConn) : NetEnv where
  DialContext _ _ _ := .ok conn
  DialWithDialer _ _ _ _ := .ok conn
  userTimeoutSyscalls _ _ := none
  ResolveUDPAddr address := .ok ⟨address, 0⟩
  DialUDP _ _ := .ok conn
  Interfaces := .ok interfaces
  ListenMulticastUDP _ _ := listen

/-- Three interfaces: loopback (up, loopback, multicast), a link that is down, and
an ethernet link that is up and multicast capable. -/
def testInterfaces : List Interface :=
  [⟨"lo", 21⟩, ⟨"eth0", 18⟩, ⟨"eth1", 19⟩]

/-- A TLS configuration that asks for skip-verify and names no certificate. -/
def skipVerifyConfig : ClientConfig := { ConnectionType := "tls", SkipTLSVerify := true }

/-- The client that NewTLSClient builds from skipVerifyConfig. -/
def freshTLSClient : TLSClient :=
  { config := { skipVerifyConfig with TLSConfig := some { InsecureSkipVerify := true } } }

/-- The client that NewMulticastClient builds from skipVerifyConfig. -/
def freshMulticastClient : MulticastClient :=
  { config := { skipVerifyConfig with MulticastAddr := "239.2.3.1", MulticastPort := 6969 } }

/-! ## Runs of receives and pruning ticks -/

/-- One event in the life of the registry: a datagram goes through handleMessage,
or the ticker of pruneSeenMessages fires. -/
inductive RegistryStep where
  | receive (data : Bytes)
  | tick
  deriving DecidableEq, Repr

/-- A run of receives and pruning ticks, in order. -/
def MulticastClient.runSteps {R : Type} (p : XMLParser R) (c : MulticastClient) :
    List RegistryStep → MulticastClient
  | [] => c
  | .receive data :: rest => MulticastClient.runSteps p (c.handleMessage p data).2 rest
  | .tick :: rest => MulticastClient.runSteps p c.pruneTick rest

/-- Every entry of the registry has a key of the form origin:s and the value s. -/
def SeenMessages.keyed (m : SeenMessages) : Prop :=
  ∀ k v, (k, v) ∈ m → ∃ origin, k = registryKey origin v

/-! ## Point (pkg/cot/point.go)

The coordinates are float64 values; nothing below computes with them, so the type of
coordinates is a parameter F and the rendering of one value by the verb %f is the
parameter fmtF.  A pointer field *float64 is an Option: nil is none. -/

/-- The spatial information of an event: Lat and Lon are values, Hae, Ce and Le are
pointers. -/
structure Point (F : Type) where
  Lat : F
  Lon : F
  Hae : Option F := none
  Ce : Option F := none
  Le : Option F := none

/-- NewPoint sets Lat and Lon and leaves the three pointers nil. -/
def NewPoint {F : Type} (lat lon : F) : Point F :=
  { Lat := lat, Lon := lon }

/-- SetHae stores the address of a copy of the value. -/
def Point.SetHae {F : Type} (p : Point F) (hae : F) : Point F := { p with Hae := some hae }

/-- SetCe stores the address of a copy of the value. -/
def Point.SetCe {F : Type} (p : Point F) (ce : F) : Point F := { p with Ce := some ce }

/-- SetLe stores the address of a copy of the value. -/
def Point.SetLe {F : Type} (p : Point F) (le : F) : Point F := { p with Le := some le }

/-- The dereference *ptr: a nil pointer panics. -/
def derefPointer {F : Type} : Option F → Except GoError F
  | some x => .ok x
  | none => .error .nilPointerPanic

/-- Point.String: the arguments of Sprintf are evaluated from left to right, and
*p.Hae, *p.Ce and *p.Le are dereferenced without a nil check. -/
def Point.String {F : Type} (fmtF : F → String) (p : Point F) : Except GoError String :=
  match derefPointer p.Hae with
  | .error e => .error e
  | .ok hae =>
    match derefPointer p.Ce with
    | .error e => .error e
    | .ok ce =>
      match derefPointer p.Le with
      | .error e => .error e
      | .ok le =>
        .ok ("Lat: " ++ fmtF p.Lat ++ ", Lon: " ++ fmtF p.Lon ++ ", Hae: " ++ fmtF hae
          ++ ", Ce: " ++ fmtF ce ++ ", Le: " ++ fmtF le)

/-! ## Colours (pkg/util/colors.go)

A Go string is a sequence of bytes; the strings here are valid UTF-8 and are
Lean strings.  len is the number of bytes of the encoding, a byte loop that
compares with ASCII characters is a loop over the characters (every byte of a
character above 127 is above 127 as well), and an int is 64 bits wide. -/

/-- The built-in len of a string: its number of bytes. -/
def goLen (s : List Char) : Nat := (s.map Char.utf8Size).sum

/-- StandardColors: colour names and their AARRGGBB values. -/
def StandardColors : List (String × Nat) :=
  [("black", 0xFF000000), ("white", 0xFFFFFFFF), ("red", 0xFFFF0000), ("green", 0xFF00FF00),
   ("blue", 0xFF0000FF), ("yellow", 0xFFFFFF00), ("cyan", 0xFF00FFFF), ("magenta", 0xFFFF00FF),
   ("gray", 0xFF808080), ("grey", 0xFF808080), ("orange", 0xFFFFA500), ("purple", 0xFF800080),
   ("brown", 0xFFA52A2A), ("pink", 0xFFFFC0CB), ("lime", 0xFF00FF00), ("teal", 0xFF008080),
   ("navy", 0xFF000080), ("maroon", 0xFF800000), ("olive", 0xFF808000)]

/-- The error strconv.ErrSyntax. -/
def errInvalidNumber : GoError := .other "invalid syntax"

/-- The error strconv.ErrRange. -/
def errOutOfRange : GoError := .other "value out of range"

/-- The digit of one byte inside strconv.ParseUint: 0 to 9 for the decimal digits,
10 to 35 for a letter in either case (lower(c) is c | 0x20), nothing otherwise. -/
def parseUintDigit (c : Char) : Option Nat :=
  if 48 ≤ c.toNat ∧ c.toNat ≤ 57 then some (c.toNat - 48)
  else if 97 ≤ (c.toNat ||| 32) ∧ (c.toNat ||| 32) ≤ 122 then some ((c.toNat ||| 32) - 97 + 10)
  else none

/-- The digit loop of strconv.ParseUint for an explicit base: a byte that is no digit
of the base is an error, and so is a value above maxVal (n1 < n in the source is
the overflow of the 64-bit sum, which is above maxVal as well). -/
def parseUintLoop (base maxVal cutoff : Nat) : Nat → List Char → Except GoError Nat
  | n, [] => .ok n
  | n, c :: rest =>
    match parseUintDigit c with
    | none => .error errInvalidNumber
    | some d =>
      if d ≥ base then .error errInvalidNumber
      else if n ≥ cutoff then .error errOutOfRange
      else if n * base + d > maxVal then .error errOutOfRange
      else parseUintLoop base maxVal cutoff (n * base + d) rest

/-- The function strconv.ParseUint(s, base, bitSize) for base 10 or 16 and bitSize 32
or 64: no sign, no base prefix and no underscore is accepted. -/
def ParseUint (s : List Char) (base bitSize : Nat) : Except GoError Nat :=
  if s = [] then .error errInvalidNumber
  else parseUintLoop base (2 ^ bitSize - 1) ((2 ^ 64 - 1) / base + 1) 0 s

/-- The function strconv.ParseInt(s, base, bitSize): an optional sign, then ParseUint,
then the range of a signed integer of bitSize bits. -/
def ParseInt (s : List Char) (base bitSize : Nat) : Except GoError Int :=
  match s with
  | [] => .error errInvalidNumber
  | c :: rest =>
    let neg := decide (c = '-')
    let digits := if c = '+' ∨ c = '-' then rest else s
    match ParseUint digits base 64 with
    | .error e => .error e
    | .ok un =>
      if !neg && un ≥ 2 ^ (bitSize - 1) then .error errOutOfRange
      else if neg && un > 2 ^ (bitSize - 1) then .error errOutOfRange
      else .ok (if neg then -(un : Int) else (un : Int))

/-- The function strconv.Atoi: ParseInt(s, 10, 0) with the 64-bit int. -/
def Atoi (s : List Char) : Except GoError Int := ParseInt s 10 64

/-- The function unicode.IsSpace. -/
def isSpace (c : Char) : Bool :=
  let n := c.toNat
  (9 ≤ n && n ≤ 13) || n = 32 || n = 0x85 || n = 0xA0 || n = 0x1680 ||
  (0x2000 ≤ n && n ≤ 0x200A) || n = 0x2028 || n = 0x2029 || n = 0x202F || n = 0x205F ||
  n = 0x3000

/-- The function strings.TrimSpace. -/
def TrimSpace (s : List Char) : List Char :=
  ((s.dropWhile isSpace).reverse.dropWhile isSpace).reverse

/-- The mapping of strings.ToLower on one character, as far as a comparison with ASCII
text can tell: the ASCII capitals, and the two other characters whose lower case is
an ASCII letter (U+0130 gives i, U+212A gives k).  Any other character is left as
it is here; strings.ToLower maps a capital letter outside ASCII to its small letter,
which is outside ASCII as well, so the two agree on whether a text equals a colour
name or begins with rgb( and differ only in the name that the error of NameToInt
quotes for such a text. -/
def goToLower (c : Char) : Char :=
  if 65 ≤ c.toNat ∧ c.toNat ≤ 90 then Char.ofNat (c.toNat + 32)
  else if c.toNat = 0x130 then 'i'
  else if c.toNat = 0x212A then 'k'
  else c

/-- The function strings.ToLower. -/
def ToLower (s : List Char) : List Char := s.map goToLower

/-- The function strings.Split(s, ","). -/
def splitComma : List Char → List (List Char)
  | [] => [[]]
  | c :: rest =>
    if c = ',' then [] :: splitComma rest
    else
      match splitComma rest with
      | [] => [[c]]
      | part :: parts => (c :: part) :: parts

/-- The conversion uint8(v) of an int: the low eight bits. -/
def uint8 (v : Int) : Nat := (v % 256).toNat

/-- The conversion uint32(v) of an int or int32: the low 32 bits. -/
def uint32 (v : Int) : Nat := (v % 2 ^ 32).toNat

/-- The test inside isHexString for one character. -/
def isHexRune (c : Char) : Bool :=
  (48 ≤ c.toNat && c.toNat ≤ 57) || (97 ≤ c.toNat && c.toNat ≤ 102) ||
  (65 ≤ c.toNat && c.toNat ≤ 70)

/-- isHexString: six or eight bytes, every character a hexadecimal digit. -/
def isHexString (s : List Char) : Bool :=
  if goLen s ≠ 6 ∧ goLen s ≠ 8 then false else s.all isHexRune

/-- The function strings.TrimPrefix(s, "#"). -/
def trimHash : List Char → List Char
  | '#' :: rest => rest
  | s => s

/-- ColorConverter.HexToInt: one leading # is removed, six digits get the prefix FF,
eight digits stand as they are, any other length is an error; the digits are read by
strconv.ParseUint(fullColor, 16, 32). -/
def HexToInt (hexColor : String) : Nat × Option GoError :=
  let hex := trimHash hexColor.data
  let fullColor : Option (List Char) :=
    if goLen hex = 6 then some ('F' :: 'F' :: hex)
    else if goLen hex = 8 then some hex
    else none
  match fullColor with
  | none => (0, some (.errorsNew ("invalid hex color format: " ++ String.mk hex)))
  | some full =>
    match ParseUint full 16 32 with
    | .error e => (0, some (.wrapped "invalid hex value" e))
    | .ok colorInt => (colorInt % 2 ^ 32, none)

/-- ColorConverter.IntToHex: the verb %08X, eight upper-case hexadecimal digits. -/
def IntToHex (colorInt : Nat) : String :=
  let ds := (Nat.toDigits 16 colorInt).map Char.toUpper
  String.mk (List.replicate (8 - ds.length) '0' ++ ds)

/-- ColorConverter.RGBToInt on three uint8 values. -/
def RGBToInt (r g b : Nat) : Nat :=
  0xFF000000 ||| (r <<< 16) ||| (g <<< 8) ||| b

/-- ColorConverter.RGBAToInt on four uint8 values. -/
def RGBAToInt (r g b a : Nat) : Nat :=
  (a <<< 24) ||| (r <<< 16) ||| (g <<< 8) ||| b

/-- ColorConverter.NameToInt. -/
def NameToInt (colorName : String) : Nat × Option GoError :=
  let name := String.mk (ToLower (TrimSpace colorName.data))
  match StandardColors.lookup name with
  | some val => (val, none)
  | none => (0, some (.errorsNew ("unknown color name: " ++ name)))

/-- The block of ParseColor that tries the form rgb(r,g,b): the text between the
brackets is split at the commas, each of three parts is trimmed and read by Atoi,
and each value is converted to uint8. -/
def parseRGB (s : List Char) : Option Nat :=
  if (ToLower s).take 4 = ['r', 'g', 'b', '('] ∧ s.getLast? = some ')' then
    match splitComma (s.drop 4).dropLast with
    | [p0, p1, p2] =>
      match Atoi (TrimSpace p0), Atoi (TrimSpace p1), Atoi (TrimSpace p2) with
      | .ok r, .ok g, .ok b => some (RGBToInt (uint8 r) (uint8 g) (uint8 b))
      | _, _, _ => none
    | _ => none
  else none

/-- The block of ParseColor that tries the form rgba(r,g,b,a). -/
def parseRGBA (s : List Char) : Option Nat :=
  if (ToLower s).take 5 = ['r', 'g', 'b', 'a', '('] ∧ s.getLast? = some ')' then
    match splitComma (s.drop 5).dropLast with
    | [p0, p1, p2, p3] =>
      match Atoi (TrimSpace p0), Atoi (TrimSpace p1), Atoi (TrimSpace p2),
          Atoi (TrimSpace p3) with
      | .ok r, .ok g, .ok b, .ok a => some (RGBAToInt (uint8 r) (uint8 g) (uint8 b) (uint8 a))
      | _, _, _, _ => none
    | _ => none
  else none

/-- ColorConverter.ParseColor: a name, then a hexadecimal form, then rgb(...), then
rgba(...), else an error. -/
def ParseColor (colorStr : String) : Nat × Option GoError :=
  let s := TrimSpace colorStr.data
  if s = [] then (0, some (.errorsNew "empty color string"))
  else
    match NameToInt (String.mk s) with
    | (val, none) => (val, none)
    | (_, some _) =>
      if s.take 1 = ['#'] ∨ isHexString s = true then HexToInt (String.mk s)
      else
        match parseRGB s with
        | some val => (val, none)
        | none =>
          match parseRGBA s with
          | some val => (val, none)
          | none => (0, some (.errorsNew ("unable to parse color format: " ++ String.mk s)))

/-- ColorConverter.UintToInt: the conversion int32(v) of a uint32. -/
def UintToInt (uintColor : Nat) : Int :=
  if uintColor < 2 ^ 31 then (uintColor : Int) else (uintColor : Int) - 2 ^ 32

/-- The verb %d on a signed integer. -/
def formatDecimal (x : Int) : String :=
  if x < 0 then "-" ++ Nat.repr x.natAbs else Nat.repr x.natAbs

/-- The dynamic type and value of the argument of ConvertToCoTColor: the six types of
its type switch, and any other type under its name. -/
inductive ColorVal where
  | string (v : String)
  | uint32 (v : Nat)
  | int (v : Int)
  | int32 (v : Int)
  | RGBA (R G B A : Nat)
  | NRGBA (R G B A : Nat)
  | other (typeName : String)

/-- ColorConverter.ConvertToCoTColor: the value as a uint32, converted to int32 and
printed with the verb %d. -/
def ConvertToCoTColor (colorVal : ColorVal) : String × Option GoError :=
  let colorInt : Except GoError Nat :=
    match colorVal with
    | .string v =>
      match ParseColor v with
      | (_, some err) => .error err
      | (val, none) => .ok val
    | .uint32 v => .ok v
    | .int v => .ok (uint32 v)
    | .int32 v => .ok (uint32 v)
    | .RGBA r g b a => .ok (RGBAToInt r g b a)
    | .NRGBA r g b a => .ok (RGBAToInt r g b a)
    | .other typeName => .error (.errorsNew ("unsupported color type: " ++ typeName))
  match colorInt with
  | .error err => ("", some err)
  | .ok val => (formatDecimal (UintToInt val), none)

/-- The value of one hexadecimal digit in either case, and 0 for any other
character. -/
def hexDigitValue (c : Char) : Nat :=
  if 48 ≤ c.toNat ∧ c.toNat ≤ 57 then c.toNat - 48
  else if 97 ≤ c.toNat ∧ c.toNat ≤ 102 then c.toNat - 87
  else if 65 ≤ c.toNat ∧ c.toNat ≤ 70 then c.toNat - 55
  else 0

/-- The value of a string of hexadecimal digits, the most significant digit first. -/
def hexValue (ds : List Char) : Nat := ds.foldl (fun a c => a * 16 + hexDigitValue c) 0

/-- The decimal text of the AARRGGBB value read as a signed 32-bit integer: values
from 2^31 on stand for the negative number that is 2^32 less. -/
def signedDecimal (argb : Nat) : String :=
  if argb < 2 ^ 31 then Nat.repr argb else "-" ++ Nat.repr (2 ^ 32 - argb)

/-- The decimal text of an integer: a minus sign for a negative number, then the
digits without leading zeros. -/
def decimalText (x : Int) : List Char :=
  if x < 0 then '-' :: Nat.toDigits 10 x.natAbs else Nat.toDigits 10 x.natAbs

/-- The text rgb(r,g,b) with the three components in decimal. -/
def rgbText (r g b : Int) : String :=
  String.mk ('r' :: 'g' :: 'b' :: '(' ::
    (decimalText r ++ ',' :: (decimalText g ++ ',' :: (decimalText b ++ [')']))))

/-! ## CoT time (pkg/cot/cot_time.go)

A time.Time is an instant together with a location.  The instant is counted in
nanoseconds since the Unix epoch; of the location only the offset that it has at
that instant matters to Format, in seconds east of UTC.  Format and Parse of the
standard library are written out for the layouts of this package, which are
"2006-01-02T15:04:05", then a fraction element or nothing, then the literal Z. -/

/-- A time.Time value. -/
structure Time where
  unixNano : Int
  offset : Int := 0
  deriving DecidableEq, Repr

/-- The method Time.UTC: the same instant in the location UTC. -/
def Time.UTC (t : Time) : Time := { t with offset := 0 }

/-- The method Time.In for a location with the given offset at that instant. -/
def Time.In (t : Time) (offset : Int) : Time := { t with offset := offset }

/-- The year, month and day of the day with the given number, counted from
1970-01-01, in the proleptic Gregorian calendar. -/
def civilFromDays (days : Int) : Int × Nat × Nat :=
  let z := days + 719468
  let era := z / 146097
  let doe := (z - era * 146097).toNat
  let yoe := (doe - doe / 1460 + doe / 36524 - doe / 146096) / 365
  let doy := doe - (365 * yoe + yoe / 4 - yoe / 100)
  let mp := (5 * doy + 2) / 153
  let d := doy - (153 * mp + 2) / 5 + 1
  let m := if mp < 10 then mp + 3 else mp - 9
  let y := (yoe : Int) + era * 400
  (if m ≤ 2 then y + 1 else y, m, d)

/-- The number of the day, counted from 1970-01-01, of a year, month and day. -/
def daysFromCivil (year : Int) (month day : Nat) : Int :=
  let y := if month ≤ 2 then year - 1 else year
  let era := y / 400
  let yoe := (y - era * 400).toNat
  let doy := (153 * (if month > 2 then month - 3 else month + 9) + 2) / 5 + day - 1
  let doe := yoe * 365 + yoe / 4 - yoe / 100 + doy
  era * 146097 + (doe : Int) - 719468

/-- The decimal digits of n, padded with zeros on the left to the given width. -/
def padDigits (n width : Nat) : List Char :=
  List.replicate (width - (Nat.toDigits 10 n).length) '0' ++ Nat.toDigits 10 n

/-- The helper appendInt of package time: an integer with a minus sign if it is
negative, padded with zeros to the width. -/
def appendInt (x : Int) (width : Nat) : List Char :=
  if x < 0 then '-' :: padDigits x.natAbs width else padDigits x.natAbs width

/-- The fraction element of a layout: none, a point and n zeros, or a point and n
nines. -/
inductive FracLayout where
  | absent
  | zeros (n : Nat)
  | nines (n : Nat)
  deriving DecidableEq, Repr

/-- The helper appendNano of package time for a fraction element of n digits: the
nanoseconds as nine digits cut to the first n; for an element of nines (trim) the
trailing zeros are removed, and the point with them when no digit is left. -/
def appendNano (nanosec n : Nat) (trim : Bool) : List Char :=
  if trim && (n = 0 || nanosec = 0) then []
  else
    let b := '.' :: (padDigits nanosec 9).take n
    if trim then
      let b2 := (b.reverse.dropWhile (fun c => c = '0')).reverse
      if b2.getLast? = some '.' then b2.dropLast else b2
    else b

/-- The method Time.Format for the layout "2006-01-02T15:04:05" followed by the
fraction element and the literal Z: the fields are those of the wall clock in
the location of t, and Z is text of the layout, not a zone element. -/
def Time.Format (t : Time) (frac : FracLayout) : String :=
  let sec := t.unixNano / 1000000000 + t.offset
  let nanosec := (t.unixNano % 1000000000).toNat
  let date := civilFromDays (sec / 86400)
  let rem := (sec % 86400).toNat
  let fraction :=
    match frac with
    | .absent => []
    | .zeros n => appendNano nanosec n false
    | .nines n => appendNano nanosec n true
  String.mk (appendInt date.1 4 ++ ['-'] ++ padDigits date.2.1 2 ++ ['-'] ++ padDigits date.2.2 2
    ++ ['T'] ++ padDigits (rem / 3600) 2 ++ [':'] ++ padDigits (rem % 3600 / 60) 2 ++ [':']
    ++ padDigits (rem % 60) 2 ++ fraction ++ ['Z'])

/-- FormatCotTime: t.Format(CotTimeFormat), the layout with the fraction .000. -/
def FormatCotTime (t : Time) : String := t.Format (.zeros 3)

/-- FormatCotTimeWithPrecision: without fraction for a precision of at most 0, else
the layout with the first precision (at most 6) characters of "999999" as
fraction. -/
def FormatCotTimeWithPrecision (t : Time) (precision : Int) : String :=
  if precision ≤ 0 then t.Format .absent
  else
    let precision := if precision > 6 then 6 else precision
    t.Format (.nines precision.toNat)

/-- The test isDigit of package time on one character. -/
def isDigitChar (c : Char) : Bool := 48 ≤ c.toNat && c.toNat ≤ 57

/-- The helper getnum of package time: one or two digits, exactly two when fixed. -/
def getnum (value : List Char) (fixed : Bool) : Option (Nat × List Char) :=
  match value with
  | [] => none
  | [c0] =>
    if !isDigitChar c0 then none
    else if fixed then none
    else some (digitValue c0, [])
  | c0 :: c1 :: rest =>
    if !isDigitChar c0 then none
    else if !isDigitChar c1 then
      if fixed then none else some (digitValue c0, c1 :: rest)
    else some (digitValue c0 * 10 + digitValue c1, rest)

/-- The helper atoi of package time on at most nine characters: an optional sign and
then digits only. -/
def timeAtoi (s : List Char) : Option Int :=
  let neg := s.head? = some '-'
  let digits := if s.head? = some '-' ∨ s.head? = some '+' then s.drop 1 else s
  if digits.all isDigitChar then
    some (if neg then -(decodeDigits 0 digits : Int) else (decodeDigits 0 digits : Int))
  else none

/-- A literal character of the layout has to come next in the value. -/
def skipLiteral (c : Char) (value : List Char) : Option (List Char) :=
  match value with
  | d :: rest => if d = c then some rest else none
  | [] => none

/-- The helper parseNanoseconds of package time on the first nbytes characters of the
value, a point or comma and digits. -/
def parseNanoseconds (value : List Char) (nbytes : Nat) : Option Nat :=
  match value with
  | [] => none
  | c :: rest =>
    if c ≠ '.' ∧ c ≠ ',' then none
    else
      let nbytes := if nbytes > 10 then 10 else nbytes
      match timeAtoi (rest.take (nbytes - 1)) with
      | none => none
      | some ns => if ns < 0 then none else some (ns.toNat * 10 ^ (10 - nbytes))

/-- The helper isLeap of package time. -/
def isLeap (year : Int) : Bool := year % 4 = 0 && (year % 100 ≠ 0 || year % 400 = 0)

/-- The helper daysIn of package time. -/
def daysIn (month : Nat) (year : Int) : Nat :=
  if month = 2 then (if isLeap year then 29 else 28)
  else if month = 4 ∨ month = 6 ∨ month = 9 ∨ month = 11 then 30
  else 31

/-- The function time.Parse for the two layouts of this package, as an Option:
withFraction stands for CotTimeFormat, whose element .000 asks for exactly three
digits; without it the layout is CotTimeFormatNoFraction, after whose seconds a
fraction of any length is read all the same.  No element of these layouts names a
zone, so the fields are read as UTC. -/
def parseFields (withFraction : Bool) (value : List Char) : Option Time := do
  let year ← if value.length < 4 ∨ (value.take 1).all isDigitChar = false then none
    else timeAtoi (value.take 4)
  let value ← skipLiteral '-' (value.drop 4)
  let (month, value) ← getnum value true
  if month = 0 ∨ 12 < month then none
  let value ← skipLiteral '-' value
  let (day, value) ← getnum value true
  let value ← skipLiteral 'T' value
  let (hour, value) ← getnum value false
  if 24 ≤ hour then none
  let value ← skipLiteral ':' value
  let (min, value) ← getnum value true
  if 60 ≤ min then none
  let value ← skipLiteral ':' value
  let (sec, value) ← getnum value true
  if 60 ≤ sec then none
  let (nsec, value) ←
    if withFraction then
      if value.length < 4 then none
      else (parseNanoseconds value 4).map (fun ns => (ns, value.drop 4))
    else if value.length ≥ 2 ∧ (value.take 1 = ['.'] ∨ value.take 1 = [','])
        ∧ ((value.drop 1).take 1).all isDigitChar = true then
      let n := 1 + ((value.drop 1).takeWhile isDigitChar).length
      (parseNanoseconds value n).map (fun ns => (ns, value.drop n))
    else some (0, value)
  let value ← skipLiteral 'Z' value
  if value ≠ [] then none
  if day < 1 ∨ day > daysIn month year then none
  some { unixNano := ((daysFromCivil year month day * 86400 + (hour * 3600 + min * 60 + sec : Nat))
    * 1000000000 + (nsec : Nat) : Int), offset := 0 }

/-- The function time.Parse(layout, value) for the two layouts of this package. -/
def timeParse (withFraction : Bool) (value : String) : Except GoError Time :=
  match parseFields withFraction value.data with
  | some t => .ok t
  | none => .error (.other ("parsing time " ++ value))

/-- The body shared by CotTime.UnmarshalXML, UnmarshalXMLAttr and UnmarshalJSON:
time.Parse with CotTimeFormat and, if that fails, with CotTimeFormatNoFraction. -/
def UnmarshalCotTime (timeStr : String) : Except GoError Time :=
  match timeParse true timeStr with
  | .ok parsedTime => .ok parsedTime
  | .error _ => timeParse false timeStr

/-- The body shared by CotTime.MarshalXML, MarshalXMLAttr and String:
FormatCotTime(time.Time(t)). -/
def MarshalCotTime (t : Time) : String := FormatCotTime t

/-- The instant truncated to whole milliseconds. -/
def truncateMillis (unixNano : Int) : Int := unixNano / 1000000 * 1000000

/-- The time 2023-05-15 12:30:00.123456789 in Europe/Stockholm (two hours east of
UTC on that day), as NewEvent takes it from time.Now().In(loc). -/
def stockholmTime : Time := { unixNano := 1684146600123456789, offset := 7200 }

/-- A text on the wire: its length and the codes of its characters. -/
def writeText (s : String) : Bytes := s.length :: s.data.map Char.toNat

/-- Reads one text and returns it with the rest of the input. -/
def readText : Bytes → Option (String × Bytes)
  | [] => none
  | n :: rest =>
    if rest.length < n then none
    else some (String.mk ((rest.take n).map Char.ofNat), rest.drop n)

/-- The texts of a list, one after the other. -/
def writeTexts : List String → Bytes
  | [] => []
  | s :: ss => writeText s ++ writeTexts ss

/-- Reads the given number of texts. -/
def readTexts : Nat → Bytes → Option (List String × Bytes)
  | 0, bs => some ([], bs)
  | k + 1, bs =>
    match readText bs with
    | none => none
    | some (s, rest) =>
      match readTexts k rest with
      | none => none
      | some (ss, rest2) => some (s :: ss, rest2)

/-- The _flow-tags_ element that Marshal writes for a FlowTags value: one attribute
h for every hop. -/
def writeFlowTags (ft : FlowTags) : Bytes :=
  1 :: ft.Version :: (writeText ft.From
    ++ [ft.MessageID, if ft.Timestamp < 0 then 1 else 0, ft.Timestamp.natAbs, ft.Hops.length]
    ++ writeTexts ft.Hops)

/-- What Unmarshal does to the field FlowTags when it decodes one _flow-tags_
element: a nil field gets a new struct, a struct that is there is reused, so that
its hops stay and those of the element are appended. -/
def decodeFlowTags (field : Option FlowTags) (version : Nat) (f : String) (m : Nat) (t : Int)
    (hs : List String) : FlowTags :=
  match field with
  | none => { Version := version, From := f, MessageID := m, Timestamp := t, Hops := hs }
  | some old =>
    { Version := if version = 0 then old.Version else version, From := f, MessageID := m,
      Timestamp := t, Hops := old.Hops ++ hs }

/-- Unmarshal on the children of detail, one child per step: the field FlowTags
after the last child, or nothing when the input is malformed.  The first argument
bounds the number of steps; a datagram has fewer children than numbers. -/
def readChildren : Nat → Bytes → Option FlowTags → Option (Option FlowTags)
  | 0, _, _ => none
  | _ + 1, [], field => some field
  | fuel + 1, 1 :: version :: rest, field =>
    match readText rest with
    | some (f, m :: sign :: abs :: k :: rest2) =>
      if m ≥ 2 ^ 64 then none
      else
        match readTexts k rest2 with
        | some (hs, rest3) =>
          readChildren fuel rest3
            (some (decodeFlowTags field version f m (if sign = 1 then -(abs : Int) else abs) hs))
        | none => none
    | _ => none
  | fuel + 1, 2 :: n :: rest, field =>
    if rest.length < n then none else readChildren fuel (rest.drop n) field
  | _ + 1, _, _ => none

/-- The codec parser.XMLParser on this wire format. -/
def xmlDetailCodec : XMLParser Unit where
  ParseCoT data :=
    match readChildren (data.length + 1) data none with
    | none => .error (.other "XML syntax error")
    | some field => .ok { Detail := { FlowTags := field, RawXML := data }, remainder := () }
  SerializeCoT event :=
    .ok ((match event.Detail.FlowTags with
          | some ft => writeFlowTags ft
          | none => []) ++ event.Detail.RawXML)

/-- The flow tag that a receiver decodes from a datagram. -/
def decodedTag {R : Type} (p : XMLParser R) (data : Bytes) : Option FlowTags :=
  match p.ParseCoT data with
  | .ok event => event.Detail.FlowTags
  | .error _ => none

/-- The tag of a message from third-client that two relays have forwarded. -/
def relayedTag : FlowTags :=
  { From := "third-client", MessageID := 555, Timestamp := 1000, Hops := ["relay-a", "relay-b"] }

/-! ## Predicates and inputs used by the statements -/

/-- The DER bytes of the blocks of type CERTIFICATE, in the order of the list. -/
def certificateDERs (blocks : List PemBlock) : List Bytes :=
  (blocks.filter (fun b => decide (b.blockType = "CERTIFICATE"))).map PemBlock.Bytes

/-- Whether the list holds a block of one of the private-key types. -/
def hasPrivateKey (blocks : List PemBlock) : Bool :=
  blocks.any (fun b => isPrivateKeyType b.blockType)

/-- The flags of the interface have Up (bit 0) and Multicast (bit 4) set and
Loopback (bit 2) clear. -/
def Interface.upMulticastNotLoopback (i : Interface) : Bool :=
  i.Flags.testBit 0 && i.Flags.testBit 4 && !i.Flags.testBit 2

/-- The registry holds one entry for each foreign tagged datagram of the list and
nothing else, and no key twice. -/
def registryMatches {R : Type} (p : XMLParser R) (clientID : String) (m : SeenMessages)
    (received : List Bytes) : Prop :=
  m.WellFormed ∧
  (∀ k v, (k, v) ∈ m → ∃ d ∈ received, ∃ event ft, p.ParseCoT d = .ok event ∧
    event.Detail.FlowTags = some ft ∧ ft.From ≠ clientID ∧
    k = registryKey ft.From ft.MessageID ∧ v = ft.MessageID) ∧
  (∀ d ∈ received, ∀ event ft, p.ParseCoT d = .ok event →
    event.Detail.FlowTags = some ft → ft.From ≠ clientID →
    (registryKey ft.From ft.MessageID, ft.MessageID) ∈ m)

/-- A registry with one entry for each of the first n sequence numbers of
other-client. -/
def registryOfSize (n : Nat) : SeenMessages :=
  (List.range n).map (fun i => (registryKey "other-client" i, i))

/-! ## The registry as a map -/

theorem SeenMessages.get_set_self (m : SeenMessages) (key : String) (value : Nat) :
    (m.set key value).get key = some value := by
  induction m with
  | nil => simp [SeenMessages.set, SeenMessages.get]
  | cons e rest ih =>
    obtain ⟨k, v⟩ := e
    by_cases h : k = key
    · simp [SeenMessages.set, SeenMessages.get, h]
    · simp [SeenMessages.set, SeenMessages.get, h, ih]

theorem SeenMessages.get_set_ne (m : SeenMessages) (key other : String) (value : Nat)
    (hne : other ≠ key) : (m.set key value).get other = m.get other := by
  induction m with
  | nil => simp [SeenMessages.set, SeenMessages.get, Ne.symm hne]
  | cons e rest ih =>
    obtain ⟨k, v⟩ := e
    by_cases h : k = key
    · subst h
      simp [SeenMessages.set, SeenMessages.get, Ne.symm hne]
    · simp [SeenMessages.set, SeenMessages.get, h, ih]

/-! ## The key "origin:sequence" determines origin and sequence -/

theorem digitValue_digitChar (k : Nat) (hk : k < 10) : digitValue (Nat.digitChar k) = k := by
  interval_cases k <;> rfl

theorem digitChar_ne_colon (k : Nat) (hk : k < 10) : Nat.digitChar k ≠ ':' := by
  interval_cases k <;> decide

theorem decodeDigits_toDigitsCore (fuel : Nat) :
    ∀ (n : Nat) (ds : List Char), n < fuel →
      decodeDigits 0 (Nat.toDigitsCore 10 fuel n ds) = decodeDigits n ds := by
  induction fuel with
  | zero => intro n ds h; omega
  | succ fuel ih =>
    intro n ds h
    have hd : digitValue (Nat.digitChar (n % 10)) = n % 10 :=
      digitValue_digitChar _ (Nat.mod_lt _ (by decide))
    unfold Nat.toDigitsCore
    by_cases h0 : n / 10 = 0
    · simp only [h0, if_true]
      have hn : n % 10 = n := Nat.mod_eq_of_lt (by omega)
      rw [hn] at hd ⊢
      simp [decodeDigits, hd]
    · simp only [h0, if_false]
      rw [ih (n / 10) _ (by omega)]
      simp only [decodeDigits, List.foldl_cons, hd]
      congr 1
      omega

theorem decodeDigits_toDigits (n : Nat) : decodeDigits 0 (Nat.toDigits 10 n) = n := by
  unfold Nat.toDigits
  rw [decodeDigits_toDigitsCore (n + 1) n [] (by omega)]
  rfl

theorem colon_not_mem_toDigitsCore (fuel : Nat) :
    ∀ (n : Nat) (ds : List Char), ':' ∉ ds → ':' ∉ Nat.toDigitsCore 10 fuel n ds := by
  induction fuel with
  | zero => intro n ds h; simpa [Nat.toDigitsCore] using h
  | succ fuel ih =>
    intro n ds h
    have hc : ':' ∉ Nat.digitChar (n % 10) :: ds := by
      intro hm
      rcases List.mem_cons.mp hm with h1 | h1
      · exact digitChar_ne_colon _ (Nat.mod_lt _ (by decide)) h1.symm
      · exact h h1
    unfold Nat.toDigitsCore
    by_cases h0 : n / 10 = 0
    · simpa only [h0, if_true] using hc
    · simpa only [h0, if_false] using ih _ _ hc

theorem colon_not_mem_repr (n : Nat) : ':' ∉ (Nat.repr n).data := by
  show ':' ∉ (Nat.toDigits 10 n)
  exact colon_not_mem_toDigitsCore _ _ _ (by simp)

theorem repr_injective (a b : Nat) (h : Nat.repr a = Nat.repr b) : a = b := by
  have hd : Nat.toDigits 10 a = Nat.toDigits 10 b := by
    have := congrArg String.data h
    simpa [Nat.repr] using this
  have := congrArg (decodeDigits 0) hd
  simpa [decodeDigits_toDigits] using this

/-- Two lists that agree after splitting at the last occurrence of a separator. -/
theorem split_last_separator {α : Type} (a : α) :
    ∀ (l₁ l₂ r₁ r₂ : List α), a ∉ r₁ → a ∉ r₂ → l₁ ++ a :: r₁ = l₂ ++ a :: r₂ →
      l₁ = l₂ ∧ r₁ = r₂ := by
  intro l₁
  induction l₁ with
  | nil =>
    intro l₂ r₁ r₂ h1 h2 h
    cases l₂ with
    | nil => simpa using h
    | cons x t =>
      simp only [List.nil_append, List.cons_append, List.cons.injEq] at h
      exact absurd (by rw [h.2]; simp) h1
  | cons y s ih =>
    intro l₂ r₁ r₂ h1 h2 h
    cases l₂ with
    | nil =>
      simp only [List.nil_append, List.cons_append, List.cons.injEq] at h
      exact absurd (by rw [← h.2]; simp) h2
    | cons x t =>
      simp only [List.cons_append, List.cons.injEq] at h
      obtain ⟨h3, h4⟩ := ih t r₁ r₂ h1 h2 h.2
      exact ⟨by rw [h.1, h3], h4⟩

theorem registryKey_injective (o₁ o₂ : String) (s₁ s₂ : Nat)
    (h : registryKey o₁ s₁ = registryKey o₂ s₂) : o₁ = o₂ ∧ s₁ = s₂ := by
  have hd := congrArg String.data h
  simp only [registryKey, String.data_append] at hd
  have hd2 : o₁.data ++ ':' :: (Nat.repr s₁).data = o₂.data ++ ':' :: (Nat.repr s₂).data := by
    simpa using hd
  obtain ⟨h1, h2⟩ := split_last_separator ':' _ _ _ _ (colon_not_mem_repr s₁)
    (colon_not_mem_repr s₂) hd2
  exact ⟨String.ext h1, repr_injective _ _ (String.ext h2)⟩

/-! ## handleMessage and Receive, case by case -/

theorem handleMessage_self {R : Type} (p : XMLParser R) (c : MulticastClient) (data : Bytes)
    (event : Event R) (ft : FlowTags) (hp : p.ParseCoT data = .ok event)
    (ht : event.Detail.FlowTags = some ft) (hs : ft.From = c.config.ClientID) :
    c.handleMessage p data = ((false, none), c) := by
  simp [MulticastClient.handleMessage, hp, ht, hs]

theorem handleMessage_covered {R : Type} (p : XMLParser R) (c : MulticastClient) (data : Bytes)
    (event : Event R) (ft : FlowTags) (hp : p.ParseCoT data = .ok event)
    (ht : event.Detail.FlowTags = some ft) (hf : ft.From ≠ c.config.ClientID)
    (hc : c.seenMessages.covers ft) :
    c.handleMessage p data = ((false, none), c) := by
  obtain ⟨v, hv, hle⟩ := hc
  simp [MulticastClient.handleMessage, hp, ht, hf, hv, hle]

theorem handleMessage_fresh {R : Type} (p : XMLParser R) (c : MulticastClient) (data : Bytes)
    (event : Event R) (ft : FlowTags) (hp : p.ParseCoT data = .ok event)
    (ht : event.Detail.FlowTags = some ft) (hf : ft.From ≠ c.config.ClientID)
    (hc : ¬ c.seenMessages.covers ft) :
    c.handleMessage p data =
      ((true, none),
       { c with
         seenMessages := c.seenMessages.set (registryKey ft.From ft.MessageID) ft.MessageID }) := by
  cases hg : c.seenMessages.get (registryKey ft.From ft.MessageID) with
  | none => simp [MulticastClient.handleMessage, hp, ht, hf, hg]
  | some v =>
    have hlt : ¬ ft.MessageID ≤ v := fun hle => hc ⟨v, hg, hle⟩
    simp [MulticastClient.handleMessage, hp, ht, hf, hg, hlt]

theorem handleMessage_frame {R : Type} (p : XMLParser R) (c : MulticastClient) (data : Bytes) :
    (c.handleMessage p data).2.config = c.config ∧
    (c.handleMessage p data).2.conn = c.conn ∧
    (c.handleMessage p data).2.multicastAddr = c.multicastAddr := by
  cases hp : p.ParseCoT data with
  | error err => simp [MulticastClient.handleMessage, hp]
  | ok event =>
    cases ht : event.Detail.FlowTags with
    | none => simp [MulticastClient.handleMessage, hp, ht]
    | some ft =>
      by_cases hs : ft.From = c.config.ClientID
      · simp [handleMessage_self p c data event ft hp ht hs]
      · by_cases hc : c.seenMessages.covers ft
        · simp [handleMessage_covered p c data event ft hp ht hs hc]
        · simp [handleMessage_fresh p c data event ft hp ht hs hc]

theorem Receive_of_read {R : Type} (p : XMLParser R) (c : MulticastClient) (conn : mockUDPConn)
    (data : Bytes) (hconn : c.conn = some conn)
    (hdl : c.config.ReadTimeout > 0 → conn.SetReadDeadline = none)
    (hrd : conn.ReadFromUDP receiveBufferSize = .ok data) :
    c.Receive p =
      (match (c.handleMessage p data).1 with
        | (_, some _) => (some data, none)
        | (false, none) => (none, some .ErrMessageSkipped)
        | (true, none) => (some data, none),
       (c.handleMessage p data).2) := by
  have h1 : (if c.config.ReadTimeout > 0 then conn.SetReadDeadline else none) = none := by
    by_cases h : c.config.ReadTimeout > 0
    · simp [h, hdl h]
    · simp [h]
  unfold MulticastClient.Receive
  simp only [hconn, h1, hrd]
  rcases hm : c.handleMessage p data with ⟨⟨b, e⟩, c1⟩
  cases e with
  | some err => simp
  | none => cases b <;> simp

/-! ## What one call does to the registry -/

theorem handleMessage_get_other {R : Type} (p : XMLParser R) (c : MulticastClient)
    (data : Bytes) (key : String)
    (hkey : ∀ event ft, p.ParseCoT data = .ok event → event.Detail.FlowTags = some ft →
      registryKey ft.From ft.MessageID ≠ key) :
    (c.handleMessage p data).2.seenMessages.get key = c.seenMessages.get key := by
  cases hp : p.ParseCoT data with
  | error err => simp [MulticastClient.handleMessage, hp]
  | ok event =>
    cases ht : event.Detail.FlowTags with
    | none => simp [MulticastClient.handleMessage, hp, ht]
    | some ft =>
      by_cases hs : ft.From = c.config.ClientID
      · simp [handleMessage_self p c data event ft hp ht hs]
      · by_cases hc : c.seenMessages.covers ft
        · simp [handleMessage_covered p c data event ft hp ht hs hc]
        · rw [handleMessage_fresh p c data event ft hp ht hs hc]
          exact SeenMessages.get_set_ne _ _ _ _ (Ne.symm (hkey event ft hp ht))

theorem handleMessage_covers_self {R : Type} (p : XMLParser R) (c : MulticastClient)
    (data : Bytes) (event : Event R) (ft : FlowTags) (hp : p.ParseCoT data = .ok event)
    (ht : event.Detail.FlowTags = some ft) (hf : ft.From ≠ c.config.ClientID) :
    (c.handleMessage p data).2.seenMessages.covers ft := by
  by_cases hc : c.seenMessages.covers ft
  · rw [handleMessage_covered p c data event ft hp ht hf hc]
    exact hc
  · rw [handleMessage_fresh p c data event ft hp ht hf hc]
    exact ⟨ft.MessageID, SeenMessages.get_set_self _ _ _, le_refl _⟩

theorem handleMessage_covers_keep {R : Type} (p : XMLParser R) (c : MulticastClient)
    (data : Bytes) (ft : FlowTags) (hc : c.seenMessages.covers ft) :
    (c.handleMessage p data).2.seenMessages.covers ft := by
  cases hp : p.ParseCoT data with
  | error err => simpa [MulticastClient.handleMessage, hp] using hc
  | ok event =>
    cases ht : event.Detail.FlowTags with
    | none => simpa [MulticastClient.handleMessage, hp, ht] using hc
    | some ft2 =>
      by_cases hs : ft2.From = c.config.ClientID
      · rw [handleMessage_self p c data event ft2 hp ht hs]
        exact hc
      · by_cases hk : registryKey ft2.From ft2.MessageID = registryKey ft.From ft.MessageID
        · obtain ⟨_, hm⟩ := registryKey_injective _ _ _ _ hk
          have hc2 : c.seenMessages.covers ft2 := by
            obtain ⟨v, hv, hle⟩ := hc
            exact ⟨v, by rw [hk]; exact hv, by rw [hm]; exact hle⟩
          rw [handleMessage_covered p c data event ft2 hp ht hs hc2]
          exact hc
        · obtain ⟨v, hv, hle⟩ := hc
          refine ⟨v, ?_, hle⟩
          rw [handleMessage_get_other p c data _ (fun e f he hf => ?_)]
          · exact hv
          · rw [hp] at he
            cases he
            rw [ht] at hf
            cases hf
            exact hk

theorem handleAll_covers_keep {R : Type} (p : XMLParser R) (ds : List Bytes) :
    ∀ (c : MulticastClient) (ft : FlowTags), c.seenMessages.covers ft →
      (c.handleAll p ds).seenMessages.covers ft := by
  induction ds with
  | nil => intro c ft h; exact h
  | cons d rest ih =>
    intro c ft h
    exact ih _ ft (handleMessage_covers_keep p c d ft h)

theorem Receive_skipped_iff {R : Type} (p : XMLParser R) (c : MulticastClient)
    (conn : mockUDPConn) (data : Bytes) (hconn : c.conn = some conn)
    (hdl : c.config.ReadTimeout > 0 → conn.SetReadDeadline = none)
    (hrd : conn.ReadFromUDP receiveBufferSize = .ok data) :
    (c.Receive p).1 = (none, some .ErrMessageSkipped) ↔
      (c.handleMessage p data).1 = (false, none) := by
  rw [Receive_of_read p c conn data hconn hdl hrd]
  rcases hm : (c.handleMessage p data).1 with ⟨b, e⟩
  cases e with
  | some err => simp
  | none => cases b <;> simp

theorem Receive_data_of_accept {R : Type} (p : XMLParser R) (c : MulticastClient)
    (conn : mockUDPConn) (data : Bytes) (hconn : c.conn = some conn)
    (hdl : c.config.ReadTimeout > 0 → conn.SetReadDeadline = none)
    (hrd : conn.ReadFromUDP receiveBufferSize = .ok data)
    (hacc : (c.handleMessage p data).1 = (true, none)) :
    c.Receive p = ((some data, none), (c.handleMessage p data).2) := by
  rw [Receive_of_read p c conn data hconn hdl hrd, hacc]

/-! ## C1 -/

/-- C1: a received datagram that parses to a message whose flow-tag origin equals
the local client identifier is suppressed, whatever the registry holds and whatever
the sequence number is: handleMessage returns (false, nil) and leaves the client as
it was, and a Receive whose read delivers that datagram returns no data together
with ErrMessageSkipped. -/
theorem C1_self_origin_suppressed {R : Type} (p : XMLParser R) (c : MulticastClient)
    (data : Bytes) (event : Event R) (ft : FlowTags)
    (hparse : p.ParseCoT data = .ok event) (htag : event.Detail.FlowTags = some ft)
    (hself : ft.From = c.config.ClientID) :
    c.handleMessage p data = ((false, none), c) ∧
    ∀ conn : mockUDPConn, c.conn = some conn →
      (c.config.ReadTimeout > 0 → conn.SetReadDeadline = none) →
      conn.ReadFromUDP receiveBufferSize = .ok data →
      c.Receive p = ((none, some .ErrMessageSkipped), c) := by
  have h := handleMessage_self p c data event ft hparse htag hself
  refine ⟨h, ?_⟩
  intro conn hconn hdl hrd
  rw [Receive_of_read p c conn data hconn hdl hrd, h]

/-- C1 at the self-originated message of the flow-tag test, with a registry that
already holds an entry. -/
theorem C1_self_origin_suppressed_witness :
    (testClient [1, 0, 123] [("other-client:456", 456)]).handleMessage testCodec [1, 0, 123]
        = ((false, none), testClient [1, 0, 123] [("other-client:456", 456)]) ∧
    (testClient [1, 0, 123] [("other-client:456", 456)]).Receive testCodec
        = ((none, some .ErrMessageSkipped), testClient [1, 0, 123] [("other-client:456", 456)]) :=
  have h := C1_self_origin_suppressed testCodec
    (testClient [1, 0, 123] [("other-client:456", 456)]) [1, 0, 123]
    (testEvent 0 123)
    (testTag 0 123) rfl rfl rfl
  ⟨h.1, h.2 { readData := [1, 0, 123] } rfl (fun _ => rfl) rfl⟩

/-! ## C2 -/

/-- C2, as stated, fails: from the empty registry the client receives and records
(other-client, 5); the older message (other-client, 3), never received before, is
then accepted by handleMessage and returned by Receive instead of being
suppressed. -/
theorem C2_older_message_counterexample :
    (testClient [1, 1, 5] []).Receive testCodec
      = ((some [1, 1, 5], none), testClient [1, 1, 5] [("other-client:5", 5)]) ∧
    ((testClient [1, 1, 3] [("other-client:5", 5)]).handleMessage testCodec [1, 1, 3]).1
      = (true, none) ∧
    (testClient [1, 1, 3] [("other-client:5", 5)]).Receive testCodec
      = ((some [1, 1, 3], none),
         testClient [1, 1, 3] [("other-client:5", 5), ("other-client:3", 3)]) := by
  decide

/-- C2, amended: for a foreign origin o and s1 < s2, from any registry, receiving
(o, s2) does not change the fate of (o, s1).  After (o, s2) has been received, a
subsequently received (o, s1) is suppressed (handleMessage false, Receive
ErrMessageSkipped) exactly when the registry already held, before (o, s2) arrived,
an entry under the key of (o, s1) itself with a value at least s1; when it held no
such entry, (o, s1) is accepted and Receive returns its bytes. -/
theorem C2_older_message_suppressed_iff_recorded {R : Type} (p : XMLParser R)
    (c : MulticastClient) (d1 d2 : Bytes) (e1 e2 : Event R) (ft1 ft2 : FlowTags)
    (hp2 : p.ParseCoT d2 = .ok e2) (ht2 : e2.Detail.FlowTags = some ft2)
    (hp1 : p.ParseCoT d1 = .ok e1) (ht1 : e1.Detail.FlowTags = some ft1)
    (horigin : ft1.From = ft2.From) (hforeign : ft2.From ≠ c.config.ClientID)
    (hlt : ft1.MessageID < ft2.MessageID) :
    (((c.handleMessage p d2).2.handleMessage p d1).1 = (false, none) ↔
      c.seenMessages.covers ft1) ∧
    (¬ c.seenMessages.covers ft1 →
      ((c.handleMessage p d2).2.handleMessage p d1).1 = (true, none)) ∧
    ∀ conn : mockUDPConn, (c.handleMessage p d2).2.conn = some conn →
      (c.config.ReadTimeout > 0 → conn.SetReadDeadline = none) →
      conn.ReadFromUDP receiveBufferSize = .ok d1 →
      ((((c.handleMessage p d2).2.Receive p).1 = (none, some .ErrMessageSkipped) ↔
        c.seenMessages.covers ft1) ∧
       (¬ c.seenMessages.covers ft1 →
        ((c.handleMessage p d2).2.Receive p).1 = (some d1, none))) := by
  have hcfg : (c.handleMessage p d2).2.config = c.config := (handleMessage_frame p c d2).1
  have hf1 : ft1.From ≠ (c.handleMessage p d2).2.config.ClientID := by
    rw [hcfg, horigin]; exact hforeign
  have hkey : registryKey ft2.From ft2.MessageID ≠ registryKey ft1.From ft1.MessageID := by
    intro h
    have := (registryKey_injective _ _ _ _ h).2
    omega
  have hget : (c.handleMessage p d2).2.seenMessages.get (registryKey ft1.From ft1.MessageID)
      = c.seenMessages.get (registryKey ft1.From ft1.MessageID) := by
    apply handleMessage_get_other
    intro e f he hf
    rw [hp2] at he
    cases he
    rw [ht2] at hf
    cases hf
    exact hkey
  have hcov : (c.handleMessage p d2).2.seenMessages.covers ft1 ↔ c.seenMessages.covers ft1 := by
    unfold SeenMessages.covers
    rw [hget]
  have hyes : c.seenMessages.covers ft1 →
      ((c.handleMessage p d2).2.handleMessage p d1).1 = (false, none) := by
    intro h
    rw [handleMessage_covered p _ d1 e1 ft1 hp1 ht1 hf1 (hcov.mpr h)]
  have hno : ¬ c.seenMessages.covers ft1 →
      ((c.handleMessage p d2).2.handleMessage p d1).1 = (true, none) := by
    intro h
    rw [handleMessage_fresh p _ d1 e1 ft1 hp1 ht1 hf1 (fun h2 => h (hcov.mp h2))]
  have hiff : ((c.handleMessage p d2).2.handleMessage p d1).1 = (false, none) ↔
      c.seenMessages.covers ft1 := by
    constructor
    · intro h
      by_contra hn
      rw [hno hn] at h
      simp at h
    · exact hyes
  refine ⟨hiff, hno, ?_⟩
  intro conn hconn hdl hrd
  rw [← hcfg] at hdl
  refine ⟨?_, ?_⟩
  · rw [Receive_skipped_iff p _ conn d1 hconn hdl hrd]
    exact hiff
  · intro hn
    rw [Receive_data_of_accept p _ conn d1 hconn hdl hrd (hno hn)]

/-- C2 amended, at (other-client, 3) after (other-client, 5) from the empty
registry: the older message was never recorded, so it is accepted. -/
theorem C2_older_message_suppressed_iff_recorded_witness :
    (((testClient [1, 1, 3] []).handleMessage testCodec [1, 1, 5]).2.handleMessage
        testCodec [1, 1, 3]).1 = (true, none) ∧
    (((testClient [1, 1, 3] []).handleMessage testCodec [1, 1, 5]).2.Receive testCodec).1
      = (some [1, 1, 3], none) :=
  have hnot : ¬ SeenMessages.covers [] (testTag 1 3) := by
    rintro ⟨v, hv, _⟩
    simp [SeenMessages.get] at hv
  have h := C2_older_message_suppressed_iff_recorded testCodec (testClient [1, 1, 3] [])
    [1, 1, 3] [1, 1, 5]
    (testEvent 1 3)
    (testEvent 1 5)
    (testTag 1 3)
    (testTag 1 5)
    rfl rfl rfl rfl rfl (by decide) (by decide)
  ⟨h.2.1 hnot, (h.2.2 { readData := [1, 1, 3] } rfl (fun _ => rfl) rfl).2 hnot⟩

/-! ## C3 -/

/-- C3, as stated, fails: the registry holds (other-client, 9); the client then
receives and records (other-client, 5); the message (other-client, 9), whose
sequence number is greater than 5, is received afterwards and is suppressed. -/
theorem C3_newer_message_counterexample :
    (testClient [1, 1, 5] [("other-client:9", 9)]).Receive testCodec
      = ((some [1, 1, 5], none),
         testClient [1, 1, 5] [("other-client:9", 9), ("other-client:5", 5)]) ∧
    (testClient [1, 1, 9] [("other-client:9", 9), ("other-client:5", 5)]).handleMessage
        testCodec [1, 1, 9]
      = ((false, none), testClient [1, 1, 9] [("other-client:9", 9), ("other-client:5", 5)]) ∧
    ((testClient [1, 1, 9] [("other-client:9", 9), ("other-client:5", 5)]).Receive testCodec).1
      = (none, some .ErrMessageSkipped) := by
  decide

/-- C3, amended: for a foreign origin o and s2 < s3, after (o, s2) has been received
(it is then recorded), a subsequently received (o, s3) that has not itself been
recorded before (the registry held no entry under the key of (o, s3) with a value
at least s3) is accepted: handleMessage returns (true, nil), Receive returns the
datagram bytes unchanged with no error, and s3 is recorded under the key of
(o, s3). -/
theorem C3_newer_message_accepted_when_new {R : Type} (p : XMLParser R)
    (c : MulticastClient) (d2 d3 : Bytes) (e2 e3 : Event R) (ft2 ft3 : FlowTags)
    (hp2 : p.ParseCoT d2 = .ok e2) (ht2 : e2.Detail.FlowTags = some ft2)
    (hp3 : p.ParseCoT d3 = .ok e3) (ht3 : e3.Detail.FlowTags = some ft3)
    (horigin : ft3.From = ft2.From) (hforeign : ft2.From ≠ c.config.ClientID)
    (hlt : ft2.MessageID < ft3.MessageID) (hnew : ¬ c.seenMessages.covers ft3) :
    (c.handleMessage p d2).2.seenMessages.covers ft2 ∧
    ((c.handleMessage p d2).2.handleMessage p d3).1 = (true, none) ∧
    ((c.handleMessage p d2).2.handleMessage p d3).2.seenMessages.get
        (registryKey ft3.From ft3.MessageID) = some ft3.MessageID ∧
    ∀ conn : mockUDPConn, (c.handleMessage p d2).2.conn = some conn →
      (c.config.ReadTimeout > 0 → conn.SetReadDeadline = none) →
      conn.ReadFromUDP receiveBufferSize = .ok d3 →
      (((c.handleMessage p d2).2.Receive p).1 = (some d3, none) ∧
       ((c.handleMessage p d2).2.Receive p).2.seenMessages.get
          (registryKey ft3.From ft3.MessageID) = some ft3.MessageID) := by
  have hcfg : (c.handleMessage p d2).2.config = c.config := (handleMessage_frame p c d2).1
  have hf3 : ft3.From ≠ (c.handleMessage p d2).2.config.ClientID := by
    rw [hcfg, horigin]; exact hforeign
  have hkey : registryKey ft2.From ft2.MessageID ≠ registryKey ft3.From ft3.MessageID := by
    intro h
    have := (registryKey_injective _ _ _ _ h).2
    omega
  have hget : (c.handleMessage p d2).2.seenMessages.get (registryKey ft3.From ft3.MessageID)
      = c.seenMessages.get (registryKey ft3.From ft3.MessageID) := by
    apply handleMessage_get_other
    intro e f he hf
    rw [hp2] at he
    cases he
    rw [ht2] at hf
    cases hf
    exact hkey
  have hn : ¬ (c.handleMessage p d2).2.seenMessages.covers ft3 := by
    unfold SeenMessages.covers
    rw [hget]
    exact hnew
  have hstep := handleMessage_fresh p _ d3 e3 ft3 hp3 ht3 hf3 hn
  have hacc : ((c.handleMessage p d2).2.handleMessage p d3).1 = (true, none) := by rw [hstep]
  have hrec : ((c.handleMessage p d2).2.handleMessage p d3).2.seenMessages.get
      (registryKey ft3.From ft3.MessageID) = some ft3.MessageID := by
    rw [hstep]
    exact SeenMessages.get_set_self _ _ _
  refine ⟨handleMessage_covers_self p c d2 e2 ft2 hp2 ht2 hforeign, hacc, hrec, ?_⟩
  intro conn hconn hdl hrd
  rw [← hcfg] at hdl
  rw [Receive_data_of_accept p _ conn d3 hconn hdl hrd hacc]
  exact ⟨rfl, hrec⟩

/-- C3 amended, at the two foreign messages of the flow-tag test: (other-client,
456) is received from the empty registry and (other-client, 789) follows. -/
theorem C3_newer_message_accepted_when_new_witness :
    (((testClient [1, 1, 789] []).handleMessage testCodec [1, 1, 456]).2.handleMessage
        testCodec [1, 1, 789]).1 = (true, none) ∧
    (((testClient [1, 1, 789] []).handleMessage testCodec [1, 1, 456]).2.Receive testCodec).1
      = (some [1, 1, 789], none) :=
  have hnot : ¬ SeenMessages.covers [] (testTag 1 789) := by
    rintro ⟨v, hv, _⟩
    simp [SeenMessages.get] at hv
  have h := C3_newer_message_accepted_when_new testCodec (testClient [1, 1, 789] [])
    [1, 1, 456] [1, 1, 789]
    (testEvent 1 456)
    (testEvent 1 789)
    (testTag 1 456)
    (testTag 1 789)
    rfl rfl rfl rfl rfl (by decide) (by decide) hnot
  ⟨h.2.1, (h.2.2.2 { readData := [1, 1, 789] } rfl (fun _ => rfl) rfl).1⟩

/-! ## C4 -/

/-- C4: when a message (o, s) of a foreign origin is received and accepted, the
first Receive returns the datagram bytes unchanged, and receiving the same message
again is suppressed with ErrMessageSkipped and leaves the client as it is, both
straight away and after any further received datagrams, as long as no pruning
happens in between. -/
theorem C4_duplicate_suppressed {R : Type} (p : XMLParser R) (c : MulticastClient)
    (data : Bytes) (event : Event R) (ft : FlowTags)
    (hparse : p.ParseCoT data = .ok event) (htag : event.Detail.FlowTags = some ft)
    (hforeign : ft.From ≠ c.config.ClientID)
    (haccepted : (c.handleMessage p data).1 = (true, none)) :
    (∀ between : List Bytes,
      ((c.handleMessage p data).2.handleAll p between).handleMessage p data
        = ((false, none), (c.handleMessage p data).2.handleAll p between)) ∧
    ∀ conn : mockUDPConn, c.conn = some conn →
      (c.config.ReadTimeout > 0 → conn.SetReadDeadline = none) →
      conn.ReadFromUDP receiveBufferSize = .ok data →
      ((c.Receive p).1 = (some data, none) ∧
       (c.Receive p).2.Receive p = ((none, some .ErrMessageSkipped), (c.Receive p).2)) := by
  have hcov := handleMessage_covers_self p c data event ft hparse htag hforeign
  have hcfgAll : ∀ (ds : List Bytes) (c0 : MulticastClient),
      (c0.handleAll p ds).config = c0.config := by
    intro ds
    induction ds with
    | nil => intro c0; rfl
    | cons d rest ih =>
      intro c0
      show (MulticastClient.handleAll p (c0.handleMessage p d).2 rest).config = c0.config
      rw [ih, (handleMessage_frame p c0 d).1]
  have hframe := handleMessage_frame p c data
  refine ⟨?_, ?_⟩
  · intro between
    apply handleMessage_covered p _ data event ft hparse htag
    · rw [hcfgAll, hframe.1]; exact hforeign
    · exact handleAll_covers_keep p between _ ft hcov
  · intro conn hconn hdl hrd
    have hfirst := Receive_data_of_accept p c conn data hconn hdl hrd haccepted
    rw [hfirst]
    refine ⟨rfl, ?_⟩
    show (c.handleMessage p data).2.Receive p = _
    have hconn2 : (c.handleMessage p data).2.conn = some conn := by rw [hframe.2.1, hconn]
    have hdl2 : (c.handleMessage p data).2.config.ReadTimeout > 0 → conn.SetReadDeadline = none := by
      rw [hframe.1]; exact hdl
    rw [Receive_of_read p _ conn data hconn2 hdl2 hrd]
    rw [handleMessage_covered p _ data event ft hparse htag (by rw [hframe.1]; exact hforeign) hcov]

/-- C4 at the foreign message of the flow-tag test: (other-client, 456) is accepted
from the empty registry, and suppressed when it arrives again, also after
(other-client, 789) and a datagram that does not parse. -/
theorem C4_duplicate_suppressed_witness :
    ((testClient [1, 1, 456] []).Receive testCodec).1 = (some [1, 1, 456], none) ∧
    (((testClient [1, 1, 456] []).Receive testCodec).2.Receive testCodec).1
      = (none, some .ErrMessageSkipped) ∧
    (((((testClient [1, 1, 456] []).handleMessage testCodec [1, 1, 456]).2.handleAll testCodec
        [[1, 1, 789], [7]]).handleMessage testCodec [1, 1, 456]).1 = (false, none)) :=
  have h := C4_duplicate_suppressed testCodec (testClient [1, 1, 456] []) [1, 1, 456]
    (testEvent 1 456)
    (testTag 1 456)
    rfl rfl (by decide) (by decide)
  have h2 := h.2 { readData := [1, 1, 456] } rfl (fun _ => rfl) rfl
  ⟨h2.1, by rw [h2.2], by rw [h.1 [[1, 1, 789], [7]]]⟩

/-! ## C5 -/

theorem SeenMessages.mem_set (m : SeenMessages) (key : String) (value : Nat)
    (x : String × Nat) (hx : x ∈ m.set key value) : x ∈ m ∨ x = (key, value) := by
  induction m with
  | nil =>
    right
    simpa [SeenMessages.set] using hx
  | cons e rest ih =>
    obtain ⟨k, v⟩ := e
    by_cases h : k = key
    · simp only [SeenMessages.set, h, if_true, List.mem_cons] at hx
      rcases hx with hx | hx
      · right; exact hx
      · left; exact List.mem_cons_of_mem _ hx
    · simp only [SeenMessages.set, h, if_false, List.mem_cons] at hx
      rcases hx with hx | hx
      · left; rw [hx]; exact List.mem_cons_self _ _
      · rcases ih hx with h1 | h1
        · left; exact List.mem_cons_of_mem _ h1
        · right; exact h1

theorem SeenMessages.mem_set_self (m : SeenMessages) (key : String) (value : Nat) :
    (key, value) ∈ m.set key value := by
  induction m with
  | nil => simp [SeenMessages.set]
  | cons e rest ih =>
    obtain ⟨k, v⟩ := e
    by_cases h : k = key
    · simp [SeenMessages.set, h]
    · simp only [SeenMessages.set, h, if_false]
      exact List.mem_cons_of_mem _ ih

theorem SeenMessages.mem_set_of_ne (m : SeenMessages) (key : String) (value : Nat)
    (x : String × Nat) (hx : x ∈ m) (hne : x.1 ≠ key) : x ∈ m.set key value := by
  induction m with
  | nil => simp at hx
  | cons e rest ih =>
    obtain ⟨k, v⟩ := e
    rcases List.mem_cons.mp hx with h1 | h1
    · subst h1
      have hk : ¬ k = key := hne
      simp [SeenMessages.set, hk]
    · by_cases h : k = key
      · simp only [SeenMessages.set, h, if_true]
        exact List.mem_cons_of_mem _ h1
      · simp only [SeenMessages.set, h, if_false]
        exact List.mem_cons_of_mem _ (ih h1)

theorem SeenMessages.mem_of_get (m : SeenMessages) (key : String) (value : Nat)
    (h : m.get key = some value) : (key, value) ∈ m := by
  induction m with
  | nil => simp [SeenMessages.get] at h
  | cons e rest ih =>
    obtain ⟨k, v⟩ := e
    by_cases hk : k = key
    · simp only [SeenMessages.get, hk, if_true, Option.some.injEq] at h
      rw [hk, h]
      exact List.mem_cons_self _ _
    · simp only [SeenMessages.get, hk, if_false] at h
      exact List.mem_cons_of_mem _ (ih h)

theorem SeenMessages.keys_set (m : SeenMessages) (key : String) (value : Nat) :
    (m.set key value).map Prod.fst =
      if key ∈ m.map Prod.fst then m.map Prod.fst else m.map Prod.fst ++ [key] := by
  induction m with
  | nil => simp [SeenMessages.set]
  | cons e rest ih =>
    obtain ⟨k, v⟩ := e
    by_cases h : k = key
    · subst h
      simp [SeenMessages.set]
    · have h2 : ¬ key = k := fun h3 => h h3.symm
      simp only [SeenMessages.set, h, if_false, List.map_cons, ih, List.mem_cons, h2, false_or]
      split <;> simp

theorem SeenMessages.wellFormed_set (m : SeenMessages) (key : String) (value : Nat)
    (h : m.WellFormed) : (m.set key value).WellFormed := by
  unfold SeenMessages.WellFormed at *
  rw [SeenMessages.keys_set]
  split
  · exact h
  · rename_i hk
    rw [List.nodup_append]
    refine ⟨h, List.nodup_singleton _, ?_⟩
    intro a ha hb
    simp only [List.mem_singleton] at hb
    subst hb
    exact hk ha

theorem registryMatches_step {R : Type} (p : XMLParser R) (c : MulticastClient)
    (received : List Bytes) (d : Bytes)
    (h : registryMatches p c.config.ClientID c.seenMessages received) :
    registryMatches p c.config.ClientID (c.handleMessage p d).2.seenMessages
      (received ++ [d]) := by
  obtain ⟨hwf, hin, hall⟩ := h
  -- the registry is unchanged and d adds no obligation
  have keep : (c.handleMessage p d).2.seenMessages = c.seenMessages →
      (∀ event ft, p.ParseCoT d = .ok event → event.Detail.FlowTags = some ft →
        ft.From ≠ c.config.ClientID →
        (registryKey ft.From ft.MessageID, ft.MessageID) ∈ c.seenMessages) →
      registryMatches p c.config.ClientID (c.handleMessage p d).2.seenMessages
        (received ++ [d]) := by
    intro heq hd
    rw [heq]
    refine ⟨hwf, ?_, ?_⟩
    · intro k v hkv
      obtain ⟨d0, hd0, rest⟩ := hin k v hkv
      exact ⟨d0, List.mem_append_left _ hd0, rest⟩
    · intro d0 hd0 event ft hp ht hf
      rcases List.mem_append.mp hd0 with h1 | h1
      · exact hall d0 h1 event ft hp ht hf
      · simp only [List.mem_singleton] at h1
        subst h1
        exact hd event ft hp ht hf
  cases hp : p.ParseCoT d with
  | error err =>
    apply keep
    · simp [MulticastClient.handleMessage, hp]
    · intro event ft hp2; rw [hp] at hp2; cases hp2
  | ok event =>
    cases ht : event.Detail.FlowTags with
    | none =>
      apply keep
      · simp [MulticastClient.handleMessage, hp, ht]
      · intro e f he hf; rw [hp] at he; cases he; rw [ht] at hf; cases hf
    | some ft =>
      by_cases hs : ft.From = c.config.ClientID
      · apply keep
        · rw [handleMessage_self p c d event ft hp ht hs]
        · intro e f he hf hne
          rw [hp] at he; cases he; rw [ht] at hf; cases hf
          exact absurd hs hne
      · by_cases hc : c.seenMessages.covers ft
        · apply keep
          · rw [handleMessage_covered p c d event ft hp ht hs hc]
          · intro e f he hf _
            rw [hp] at he; cases he; rw [ht] at hf; cases hf
            obtain ⟨v, hv, _⟩ := hc
            have hmem : (registryKey ft.From ft.MessageID, v) ∈ c.seenMessages :=
              SeenMessages.mem_of_get _ _ _ hv
            obtain ⟨d0, _, e0, f0, _, _, _, hk0, hv0⟩ := hin _ _ hmem
            have := (registryKey_injective _ _ _ _ hk0).2
            rw [← this] at hv0
            rw [hv0] at hmem
            exact hmem
        · rw [handleMessage_fresh p c d event ft hp ht hs hc]
          refine ⟨SeenMessages.wellFormed_set _ _ _ hwf, ?_, ?_⟩
          · intro k v hkv
            rcases SeenMessages.mem_set _ _ _ _ hkv with h1 | h1
            · obtain ⟨d0, hd0, rest⟩ := hin k v h1
              exact ⟨d0, List.mem_append_left _ hd0, rest⟩
            · cases h1
              exact ⟨d, by simp, event, ft, hp, ht, hs, rfl, rfl⟩
          · intro d0 hd0 e0 f0 hp0 ht0 hf0
            by_cases hk : registryKey f0.From f0.MessageID = registryKey ft.From ft.MessageID
            · have hm := (registryKey_injective _ _ _ _ hk).2
              rw [hk, hm]
              exact SeenMessages.mem_set_self _ _ _
            · rcases List.mem_append.mp hd0 with h1 | h1
              · exact SeenMessages.mem_set_of_ne _ _ _ _ (hall d0 h1 e0 f0 hp0 ht0 hf0) hk
              · simp only [List.mem_singleton] at h1
                subst h1
                rw [hp] at hp0; cases hp0; rw [ht] at ht0; cases ht0
                exact absurd rfl hk

theorem registryMatches_handleAll {R : Type} (p : XMLParser R) (ds : List Bytes) :
    ∀ (c : MulticastClient) (received : List Bytes),
      registryMatches p c.config.ClientID c.seenMessages received →
      registryMatches p c.config.ClientID (c.handleAll p ds).seenMessages (received ++ ds) := by
  induction ds with
  | nil => intro c received h; simpa [MulticastClient.handleAll] using h
  | cons d rest ih =>
    intro c received h
    have hstep := registryMatches_step p c received d h
    rw [← (handleMessage_frame p c d).1] at hstep
    have := ih _ _ hstep
    rw [(handleMessage_frame p c d).1] at this
    simpa [MulticastClient.handleAll] using this

theorem SeenMessages.get_of_mem (m : SeenMessages) (key : String) (value : Nat)
    (hwf : m.WellFormed) (h : (key, value) ∈ m) : m.get key = some value := by
  induction m with
  | nil => simp at h
  | cons e rest ih =>
    obtain ⟨k, v⟩ := e
    unfold SeenMessages.WellFormed at hwf
    simp only [List.map_cons, List.nodup_cons] at hwf
    rcases List.mem_cons.mp h with h1 | h1
    · cases h1
      simp [SeenMessages.get]
    · have hk : k ≠ key := by
        intro hk
        apply hwf.1
        rw [hk]
        exact List.mem_map_of_mem Prod.fst h1
      simp only [SeenMessages.get, hk, if_false]
      exact ih hwf.2 h1

/-- C5, as stated, fails: a registry that holds only 456 for other-client holds,
after (other-client, 789) has been accepted, two entries for that origin, and the
entry for 456 is still there. -/
theorem C5_one_entry_per_origin_counterexample :
    (testClient [1, 1, 789] [("other-client:456", 456)]).handleMessage testCodec [1, 1, 789]
      = ((true, none),
         testClient [1, 1, 789] [("other-client:456", 456), ("other-client:789", 789)]) ∧
    SeenMessages.len [("other-client:456", 456), ("other-client:789", 789)] = 2 ∧
    SeenMessages.get [("other-client:456", 456), ("other-client:789", 789)]
      "other-client:456" = some 456 := by
  decide

/-- C5, amended: the seen-message registry is a map from the key
"origin:sequence" to that sequence number, with one entry per message.  Starting
from the empty registry, after any sequence of received datagrams without pruning:
no key occurs twice; every entry has the key of a received message with a foreign
flow tag and that message's sequence number as its value; and every received
message with a foreign flow tag has its own entry, so the entries of earlier
sequence numbers of an origin stay next to the later ones. -/
theorem C5_registry_one_entry_per_message {R : Type} (p : XMLParser R)
    (c : MulticastClient) (received : List Bytes) (hempty : c.seenMessages = []) :
    (c.handleAll p received).seenMessages.WellFormed ∧
    (∀ k v, (k, v) ∈ (c.handleAll p received).seenMessages →
      ∃ d ∈ received, ∃ event ft, p.ParseCoT d = .ok event ∧
        event.Detail.FlowTags = some ft ∧ ft.From ≠ c.config.ClientID ∧
        k = registryKey ft.From ft.MessageID ∧ v = ft.MessageID) ∧
    (∀ d ∈ received, ∀ event ft, p.ParseCoT d = .ok event →
      event.Detail.FlowTags = some ft → ft.From ≠ c.config.ClientID →
      (c.handleAll p received).seenMessages.get (registryKey ft.From ft.MessageID)
        = some ft.MessageID) := by
  have h0 : registryMatches p c.config.ClientID c.seenMessages [] := by
    rw [hempty]
    refine ⟨?_, ?_, ?_⟩
    · simp [SeenMessages.WellFormed]
    · intro k v h; simp at h
    · intro d h; simp at h
  have h := registryMatches_handleAll p received c [] h0
  rw [List.nil_append] at h
  obtain ⟨hwf, hin, hall⟩ := h
  refine ⟨hwf, hin, ?_⟩
  intro d hd event ft hp ht hf
  exact SeenMessages.get_of_mem _ _ _ hwf (hall d hd event ft hp ht hf)

/-- C5 amended, at the two foreign messages of the flow-tag test received from the
empty registry: both sequence numbers of other-client are recorded. -/
theorem C5_registry_one_entry_per_message_witness :
    ((testClient [] []).handleAll testCodec [[1, 1, 456], [1, 1, 789]]).seenMessages.get
        "other-client:456" = some 456 ∧
    ((testClient [] []).handleAll testCodec [[1, 1, 456], [1, 1, 789]]).seenMessages.get
        "other-client:789" = some 789 :=
  have h := C5_registry_one_entry_per_message testCodec (testClient [] [])
    [[1, 1, 456], [1, 1, 789]] rfl
  ⟨h.2.2 [1, 1, 456] (by simp) (testEvent 1 456) (testTag 1 456) rfl rfl (by decide),
   h.2.2 [1, 1, 789] (by simp) (testEvent 1 789) (testTag 1 789) rfl rfl (by decide)⟩

/-! ## Send -/

theorem sendRaw_ok (c : MulticastClient) (conn : mockUDPConn) (addr : UDPAddr) (b : Bytes)
    (hdl : c.config.WriteTimeout > 0 → conn.SetWriteDeadline = none)
    (hw : conn.writeError = none) :
    c.sendRaw conn addr b =
      (none, { c with conn := some { conn with writtenData := conn.writtenData ++ [b],
                                               writeAddresses := conn.writeAddresses ++ [addr] } }) := by
  have h1 : (if c.config.WriteTimeout > 0 then conn.SetWriteDeadline else none) = none := by
    by_cases h : c.config.WriteTimeout > 0
    · simp [h, hdl h]
    · simp [h]
  simp [MulticastClient.sendRaw, h1, mockUDPConn.WriteTo, hw]

theorem sendRaw_effect (c : MulticastClient) (conn : mockUDPConn) (addr : UDPAddr) (b : Bytes)
    (hconn : c.conn = some conn) :
    ((c.sendRaw conn addr b).1 = none →
      (c.sendRaw conn addr b).2 =
        { c with conn := some { conn with writtenData := conn.writtenData ++ [b],
                                          writeAddresses := conn.writeAddresses ++ [addr] } }) ∧
    ((c.sendRaw conn addr b).1 ≠ none → (c.sendRaw conn addr b).2 = c) := by
  have hc : ({ c with conn := some conn } : MulticastClient) = c := by
    cases c
    simp only [MulticastClient.mk.injEq, true_and, and_true]
    exact hconn.symm
  unfold MulticastClient.sendRaw
  cases hd : (if c.config.WriteTimeout > 0 then conn.SetWriteDeadline else none) with
  | some err => simp
  | none =>
    cases hw : conn.writeError with
    | some err => simp [mockUDPConn.WriteTo, hw, hc]
    | none => simp [mockUDPConn.WriteTo, hw]

theorem Send_of_enriched {R : Type} (p : XMLParser R) (c : MulticastClient)
    (conn : mockUDPConn) (addr : UDPAddr) (g : Nat) (now : Int) (data : Bytes)
    (event : Event R) (out : Bytes) (hconn : c.conn = some conn)
    (haddr : c.multicastAddr = some addr) (hparse : p.ParseCoT data = .ok event)
    (hser : p.SerializeCoT (enrichEvent c.config.ClientID g now event).1 = .ok out) :
    c.Send p g now data =
      ((c.sendRaw conn addr out).1, (c.sendRaw conn addr out).2,
       (enrichEvent c.config.ClientID g now event).2) := by
  simp [MulticastClient.Send, hconn, haddr, MulticastClient.enrichWithFlowTags, hparse, hser]

theorem mintAll_bounds (earlier : List (Int × String)) :
    ∀ g : Nat, g + earlier.length < uint64Mod →
      (mintAll g earlier).2 = g + earlier.length ∧
      ∀ t ∈ (mintAll g earlier).1, g < t.MessageID ∧ t.MessageID ≤ g + earlier.length := by
  induction earlier with
  | nil => intro g _; simp [mintAll]
  | cons e rest ih =>
    intro g hg
    obtain ⟨now, cid⟩ := e
    simp only [List.length_cons] at hg
    have hmod : (g + 1) % uint64Mod = g + 1 := Nat.mod_eq_of_lt (by omega)
    have hnext : (NewFlowTags g now cid).2 = g + 1 := by simp [NewFlowTags, hmod]
    have hid : (NewFlowTags g now cid).1.MessageID = g + 1 := by simp [NewFlowTags, hmod]
    obtain ⟨h1, h2⟩ := ih (g + 1) (by omega)
    simp only [mintAll, hnext, List.length_cons, List.mem_cons]
    refine ⟨by rw [h1]; omega, ?_⟩
    intro t ht
    rcases ht with ht | ht
    · rw [ht, hid]; omega
    · have := h2 t ht
      omega

/-! ## C6 -/

/-- C6, as stated, fails at the end of the uint64 range: with GlobalSequence at
2^64 - 2, sending an untagged message mints and transmits sequence number 2^64 - 1,
and the next Send of an untagged message mints and transmits sequence number 0,
which is not greater than the one minted before. -/
theorem C6_sequence_wraps_counterexample :
    (NewFlowTags 18446744073709551614 0 "test-client").1.MessageID = 18446744073709551615 ∧
    ((testClient [] []).Send testCodec 18446744073709551614 0 [0]).2.2
      = 18446744073709551615 ∧
    (NewFlowTags 18446744073709551615 0 "test-client").1.MessageID = 0 ∧
    ((testClient [] []).Send testCodec 18446744073709551615 0 [0]).1 = none ∧
    ((testClient [] []).Send testCodec 18446744073709551615 0 [0]).2.1.conn
      = some { writtenData := [[1, 11, 0]], writeAddresses := [⟨"239.2.3.1", 6969⟩] } ∧
    ((testClient [] []).Send testCodec 18446744073709551615 0 [0]).2.2 = 0 := by
  decide

/-- C6, amended: for a buffer that parses to a message without a flow tag, Send on
a connected client hands to the serializer, and transmits when the socket accepts
the write, the message with a new flow tag whose origin is the local ClientID,
whose hop list is empty and whose sequence number is GlobalSequence plus one;
GlobalSequence becomes that number.  As long as the counter has not reached
2^64 - 1 (here: the earlier mints started at g0 and g0 plus their number plus one is
below 2^64), that sequence number is strictly greater than every sequence number
minted earlier. -/
theorem C6_send_untagged_mints_tag {R : Type} (p : XMLParser R) (c : MulticastClient)
    (conn : mockUDPConn) (addr : UDPAddr) (g0 g : Nat) (earlier : List (Int × String))
    (now : Int) (data : Bytes) (event : Event R)
    (hconn : c.conn = some conn) (haddr : c.multicastAddr = some addr)
    (hparse : p.ParseCoT data = .ok event) (hnone : event.Detail.FlowTags = none)
    (hcounter : (mintAll g0 earlier).2 = g)
    (hroom : g0 + earlier.length + 1 < uint64Mod) :
    (enrichEvent c.config.ClientID g now event).1.Detail.FlowTags
      = some { Version := 0, From := c.config.ClientID, MessageID := g + 1,
               Timestamp := Int.tdiv now 1000000, Hops := [] } ∧
    (∀ t ∈ (mintAll g0 earlier).1, t.MessageID < g + 1) ∧
    (enrichEvent c.config.ClientID g now event).2 = g + 1 ∧
    ∀ out : Bytes,
      p.SerializeCoT (enrichEvent c.config.ClientID g now event).1 = .ok out →
      (c.Send p g now data
          = ((c.sendRaw conn addr out).1, (c.sendRaw conn addr out).2, g + 1) ∧
       ((c.config.WriteTimeout > 0 → conn.SetWriteDeadline = none) →
        conn.writeError = none →
        (c.Send p g now data).1 = none ∧
        ((c.Send p g now data).2.1.conn.map mockUDPConn.writtenData)
          = some (conn.writtenData ++ [out]))) := by
  obtain ⟨hlen, hbound⟩ := mintAll_bounds earlier g0 (by omega)
  rw [hcounter] at hlen
  have hmod : (g + 1) % uint64Mod = g + 1 := Nat.mod_eq_of_lt (by omega)
  have hg : (enrichEvent c.config.ClientID g now event).2 = g + 1 := by
    simp [enrichEvent, hnone, Detail.AddFlowTags, NewFlowTags, hmod]
  refine ⟨?_, ?_, hg, ?_⟩
  · simp [enrichEvent, hnone, Detail.AddFlowTags, NewFlowTags, hmod]
  · intro t ht
    have := (hbound t ht).2
    omega
  · intro out hser
    have hsend := Send_of_enriched p c conn addr g now data event out hconn haddr hparse hser
    rw [hg] at hsend
    refine ⟨hsend, ?_⟩
    intro hdl hw
    rw [hsend, sendRaw_ok c conn addr out hdl hw]
    exact ⟨rfl, rfl⟩

/-- C6 amended, at the untagged message of the flow-tag test after one earlier
mint: the tag gets sequence number 2 and the codec output is written. -/
theorem C6_send_untagged_mints_tag_witness :
    ((testClient [] []).Send testCodec 1 5000000 [0]).1 = none ∧
    (((testClient [] []).Send testCodec 1 5000000 [0]).2.1.conn.map mockUDPConn.writtenData)
      = some ([] ++ [[1, 11, 2]]) :=
  ((C6_send_untagged_mints_tag testCodec (testClient [] []) {} ⟨"239.2.3.1", 6969⟩ 0 1
    [(0, "test-client")] 5000000 [0] { Detail := {}, remainder := () }
    rfl rfl rfl rfl rfl (by decide)).2.2.2 [1, 11, 2] rfl).2 (fun _ => rfl) rfl

/-! ## C7 -/

/-- What Send hands to the serializer for a message with a foreign flow tag: the tag
with the local ClientID appended once to the hop list, version, origin, sequence
number and timestamp as they were; GlobalSequence keeps its value, and what the
serializer returns is what is written to the socket. -/
theorem Send_foreign_serializes_appended_hop {R : Type} (p : XMLParser R) (c : MulticastClient)
    (conn : mockUDPConn) (addr : UDPAddr) (g : Nat) (now : Int) (data : Bytes)
    (event : Event R) (ft : FlowTags)
    (hconn : c.conn = some conn) (haddr : c.multicastAddr = some addr)
    (hparse : p.ParseCoT data = .ok event) (htag : event.Detail.FlowTags = some ft)
    (hforeign : ft.From ≠ c.config.ClientID) :
    (enrichEvent c.config.ClientID g now event).1.Detail.FlowTags
      = some { Version := ft.Version, From := ft.From, MessageID := ft.MessageID,
               Timestamp := ft.Timestamp, Hops := ft.Hops ++ [c.config.ClientID] } ∧
    (enrichEvent c.config.ClientID g now event).1.Detail.RawXML = event.Detail.RawXML ∧
    (enrichEvent c.config.ClientID g now event).2 = g ∧
    ∀ out : Bytes,
      p.SerializeCoT (enrichEvent c.config.ClientID g now event).1 = .ok out →
      (c.Send p g now data = ((c.sendRaw conn addr out).1, (c.sendRaw conn addr out).2, g) ∧
       ((c.config.WriteTimeout > 0 → conn.SetWriteDeadline = none) →
        conn.writeError = none →
        (c.Send p g now data).1 = none ∧
        ((c.Send p g now data).2.1.conn.map mockUDPConn.writtenData)
          = some (conn.writtenData ++ [out]))) := by
  have hg : (enrichEvent c.config.ClientID g now event).2 = g := by
    simp [enrichEvent, htag, hforeign]
  refine ⟨?_, ?_, hg, ?_⟩
  · simp [enrichEvent, htag, hforeign, FlowTags.AddHop]
  · simp [enrichEvent, htag, hforeign]
  · intro out hser
    have hsend := Send_of_enriched p c conn addr g now data event out hconn haddr hparse hser
    rw [hg] at hsend
    refine ⟨hsend, ?_⟩
    intro hdl hw
    rw [hsend, sendRaw_ok c conn addr out hdl hw]
    exact ⟨rfl, rfl⟩

theorem readText_writeText (s : String) (rest : Bytes) :
    readText (writeText s ++ rest) = some (s, rest) := by
  have hlen : (s.data.map Char.toNat).length = s.length := by
    rw [List.length_map]
    rfl
  have hmap : (s.data.map Char.toNat).map Char.ofNat = s.data := by
    rw [List.map_map]
    have : (Char.ofNat ∘ Char.toNat) = id := by
      funext c
      exact Char.ofNat_toNat c
    rw [this, List.map_id]
  show readText (s.length :: (s.data.map Char.toNat ++ rest)) = some (s, rest)
  simp only [readText]
  rw [if_neg (by rw [List.length_append, hlen]; omega), List.take_left' hlen,
    List.drop_left' hlen, hmap]

theorem readTexts_writeTexts (ss : List String) (rest : Bytes) :
    readTexts ss.length (writeTexts ss ++ rest) = some (ss, rest) := by
  induction ss with
  | nil => rfl
  | cons s ss ih =>
    show readTexts (ss.length + 1) ((writeText s ++ writeTexts ss) ++ rest) = _
    rw [List.append_assoc]
    simp only [readTexts, readText_writeText, ih]

/-- One step of Unmarshal on a _flow-tags_ element that Marshal wrote. -/
theorem readChildren_writeFlowTags (fuel : Nat) (ft : FlowTags) (rest : Bytes)
    (field : Option FlowTags) (hm : ft.MessageID < 2 ^ 64) :
    readChildren (fuel + 1) (writeFlowTags ft ++ rest) field
      = readChildren fuel rest
          (some (decodeFlowTags field ft.Version ft.From ft.MessageID ft.Timestamp ft.Hops)) := by
  have hshape : writeFlowTags ft ++ rest
      = 1 :: ft.Version :: (writeText ft.From
          ++ (ft.MessageID :: (if ft.Timestamp < 0 then 1 else 0) :: ft.Timestamp.natAbs
            :: ft.Hops.length :: (writeTexts ft.Hops ++ rest))) := by
    simp [writeFlowTags]
  have hsign : (if (if ft.Timestamp < 0 then 1 else 0) = 1 then -(ft.Timestamp.natAbs : Int)
      else (ft.Timestamp.natAbs : Int)) = ft.Timestamp := by
    by_cases h : ft.Timestamp < 0
    · simp only [h, if_true]
      omega
    · simp only [h, if_false]
      rw [if_neg (by decide)]
      omega
  have hge : ¬ (ft.MessageID ≥ 2 ^ 64) := by omega
  rw [hshape]
  simp only [readChildren, readText_writeText, hge, if_false, readTexts_writeTexts, hsign]

theorem length_writeFlowTags (ft : FlowTags) : 7 ≤ (writeFlowTags ft).length := by
  simp [writeFlowTags, writeText]
  omega

/-- The datagram that Send writes for a foreign tag carries the tag twice, and a
receiver decodes the hop list of the first followed by that of the second. -/
theorem decodedTag_forwarded (ft : FlowTags) (clientID : String) (hm : ft.MessageID < 2 ^ 64) :
    decodedTag xmlDetailCodec (writeFlowTags ft) = some ft ∧
    decodedTag xmlDetailCodec (writeFlowTags (ft.AddHop clientID) ++ writeFlowTags ft)
      = some { ft with Hops := ft.Hops ++ [clientID] ++ ft.Hops } := by
  constructor
  · have h1 := length_writeFlowTags ft
    obtain ⟨k, hk⟩ : ∃ k, (writeFlowTags ft).length + 1 = k + 1 + 1 :=
      ⟨(writeFlowTags ft).length - 1, by omega⟩
    have hstep := readChildren_writeFlowTags (k + 1) ft [] none hm
    rw [List.append_nil] at hstep
    simp only [decodedTag, xmlDetailCodec]
    rw [hk, hstep]
    simp only [readChildren, decodeFlowTags]
  · have h1 := length_writeFlowTags ft
    have h2 := length_writeFlowTags (ft.AddHop clientID)
    obtain ⟨k, hk⟩ : ∃ k, (writeFlowTags (ft.AddHop clientID) ++ writeFlowTags ft).length + 1
        = k + 1 + 1 + 1 :=
      ⟨(writeFlowTags (ft.AddHop clientID) ++ writeFlowTags ft).length - 2,
        by rw [List.length_append]; omega⟩
    have hstep1 := readChildren_writeFlowTags (k + 1 + 1) (ft.AddHop clientID)
      (writeFlowTags ft) none hm
    have hstep2 := readChildren_writeFlowTags (k + 1) ft []
      (some (decodeFlowTags none (ft.AddHop clientID).Version (ft.AddHop clientID).From
        (ft.AddHop clientID).MessageID (ft.AddHop clientID).Timestamp (ft.AddHop clientID).Hops)) hm
    rw [List.append_nil] at hstep2
    simp only [decodedTag, xmlDetailCodec]
    rw [hk, hstep1, hstep2]
    simp only [readChildren, decodeFlowTags, FlowTags.AddHop]
    simp

theorem ParseCoT_writeFlowTags (ft : FlowTags) (hm : ft.MessageID < 2 ^ 64) :
    xmlDetailCodec.ParseCoT (writeFlowTags ft)
      = .ok { Detail := { FlowTags := some ft, RawXML := writeFlowTags ft }, remainder := () } := by
  have h1 := length_writeFlowTags ft
  obtain ⟨k, hk⟩ : ∃ k, (writeFlowTags ft).length + 1 = k + 1 + 1 :=
    ⟨(writeFlowTags ft).length - 1, by omega⟩
  have hstep := readChildren_writeFlowTags (k + 1) ft [] none hm
  rw [List.append_nil] at hstep
  simp only [xmlDetailCodec]
  rw [hk, hstep]
  simp only [readChildren, decodeFlowTags]

/-- For every foreign flow tag: Send writes the tag with the local ClientID appended
followed by the original tag, mints nothing, and a receiver decodes from the
datagram the hop list original, local ClientID, original. -/
theorem Send_forwarded_repeats_hops (c : MulticastClient) (conn : mockUDPConn) (addr : UDPAddr)
    (g : Nat) (now : Int) (ft : FlowTags)
    (hconn : c.conn = some conn) (haddr : c.multicastAddr = some addr)
    (hforeign : ft.From ≠ c.config.ClientID) (hm : ft.MessageID < 2 ^ 64)
    (hdl : c.config.WriteTimeout > 0 → conn.SetWriteDeadline = none)
    (hw : conn.writeError = none) :
    (c.Send xmlDetailCodec g now (writeFlowTags ft)).1 = none ∧
    (c.Send xmlDetailCodec g now (writeFlowTags ft)).2.2 = g ∧
    ((c.Send xmlDetailCodec g now (writeFlowTags ft)).2.1.conn.map mockUDPConn.writtenData)
      = some (conn.writtenData
          ++ [writeFlowTags (ft.AddHop c.config.ClientID) ++ writeFlowTags ft]) ∧
    decodedTag xmlDetailCodec (writeFlowTags (ft.AddHop c.config.ClientID) ++ writeFlowTags ft)
      = some { ft with Hops := ft.Hops ++ [c.config.ClientID] ++ ft.Hops } := by
  have hparse := ParseCoT_writeFlowTags ft hm
  obtain ⟨h1, h2, h3, h4⟩ := Send_foreign_serializes_appended_hop xmlDetailCodec c conn addr g now
    (writeFlowTags ft) _ ft hconn haddr hparse rfl hforeign
  have hser : xmlDetailCodec.SerializeCoT
      (enrichEvent c.config.ClientID g now
        { Detail := { FlowTags := some ft, RawXML := writeFlowTags ft }, remainder := () }).1
      = .ok (writeFlowTags (ft.AddHop c.config.ClientID) ++ writeFlowTags ft) := by
    simp only [xmlDetailCodec, h1, h2, FlowTags.AddHop]
  obtain ⟨h5, h6⟩ := h4 _ hser
  obtain ⟨h7, h8⟩ := h6 hdl hw
  refine ⟨h7, ?_, h8, (decodedTag_forwarded ft c.config.ClientID hm).2⟩
  rw [h5]

/-- C7: the message that Send transmits for a foreign flow tag does not carry the
original hop list with one entry appended.  The event handed to the serializer has
the local ClientID appended once, but the serializer writes the raw inner XML of
detail after the tag, and that holds the original tag.  For the tag of third-client
with the hops relay-a and relay-b, sent by test-client: the datagram written to the
socket is the tag with relay-a, relay-b, test-client followed by the original tag,
and a receiver decodes from it the hops relay-a, relay-b, test-client, relay-a,
relay-b.  Origin, sequence number and timestamp are unchanged and GlobalSequence
keeps its value 7.  With an empty original hop list the decoded list is
test-client alone. -/
theorem C7_forwarded_datagram_repeats_hops :
    decodedTag xmlDetailCodec (writeFlowTags relayedTag) = some relayedTag ∧
    ((testClient [] []).Send xmlDetailCodec 7 5000000 (writeFlowTags relayedTag)).1 = none ∧
    ((testClient [] []).Send xmlDetailCodec 7 5000000 (writeFlowTags relayedTag)).2.2 = 7 ∧
    ((testClient [] []).Send xmlDetailCodec 7 5000000 (writeFlowTags relayedTag)).2.1.conn.map
        mockUDPConn.writtenData
      = some [writeFlowTags (relayedTag.AddHop "test-client") ++ writeFlowTags relayedTag] ∧
    decodedTag xmlDetailCodec
        (writeFlowTags (relayedTag.AddHop "test-client") ++ writeFlowTags relayedTag)
      = some { From := "third-client", MessageID := 555, Timestamp := 1000,
               Hops := ["relay-a", "relay-b", "test-client", "relay-a", "relay-b"] } ∧
    relayedTag.Hops ++ ["test-client"] = ["relay-a", "relay-b", "test-client"] ∧
    decodedTag xmlDetailCodec
        (writeFlowTags (FlowTags.AddHop { relayedTag with Hops := [] } "test-client")
          ++ writeFlowTags { relayedTag with Hops := [] })
      = some { From := "third-client", MessageID := 555, Timestamp := 1000,
               Hops := ["test-client"] } := by
  decide

/-! ## C8 -/

/-- C9: for a buffer on which ParseCoT fails, on a connected client, Send does
what sendRaw does with the input bytes: when it returns no error the socket has
recorded exactly the input bytes as one more write, which happens whenever the
deadline and the write succeed, and when it returns an error the client is as
before; a Receive whose read delivers that buffer returns exactly those bytes with
no error; the registry and GlobalSequence are unchanged in both cases. -/
theorem C9_malformed_passes_through {R : Type} (p : XMLParser R) (c : MulticastClient)
    (conn : mockUDPConn) (addr : UDPAddr) (g : Nat) (now : Int) (data : Bytes)
    (err : GoError)
    (hconn : c.conn = some conn) (haddr : c.multicastAddr = some addr)
    (hfail : p.ParseCoT data = .error err) :
    c.Send p g now data = ((c.sendRaw conn addr data).1, (c.sendRaw conn addr data).2, g) ∧
    ((c.Send p g now data).1 = none →
      (c.Send p g now data).2.1 =
        { c with conn := some { conn with writtenData := conn.writtenData ++ [data],
                                          writeAddresses := conn.writeAddresses ++ [addr] } }) ∧
    ((c.Send p g now data).1 ≠ none → (c.Send p g now data).2.1 = c) ∧
    ((c.config.WriteTimeout > 0 → conn.SetWriteDeadline = none) → conn.writeError = none →
      (c.Send p g now data).1 = none) ∧
    (c.Send p g now data).2.1.seenMessages = c.seenMessages ∧
    (c.Send p g now data).2.2 = g ∧
    ((c.config.ReadTimeout > 0 → conn.SetReadDeadline = none) →
      conn.ReadFromUDP receiveBufferSize = .ok data →
      c.Receive p = ((some data, none), c)) := by
  have hsend : c.Send p g now data
      = ((c.sendRaw conn addr data).1, (c.sendRaw conn addr data).2, g) := by
    simp [MulticastClient.Send, hconn, haddr, MulticastClient.enrichWithFlowTags, hfail]
  have heff := sendRaw_effect c conn addr data hconn
  refine ⟨hsend, ?_, ?_, ?_, ?_, ?_, ?_⟩
  · rw [hsend]; exact heff.1
  · rw [hsend]; exact heff.2
  · intro hdl hw
    rw [hsend, sendRaw_ok c conn addr data hdl hw]
  · rw [hsend]
    by_cases h : (c.sendRaw conn addr data).1 = none
    · show (c.sendRaw conn addr data).2.seenMessages = c.seenMessages
      rw [heff.1 h]
    · show (c.sendRaw conn addr data).2.seenMessages = c.seenMessages
      rw [heff.2 h]
  · rw [hsend]
  · intro hdl hrd
    rw [Receive_of_read p c conn data hconn hdl hrd]
    simp [MulticastClient.handleMessage, hfail]

/-- C9 at the buffer of the invalid-XML test (here the bytes 84 104 105 115, which
the codec rejects): Send writes them as they are and Receive returns them. -/
theorem C9_malformed_passes_through_witness :
    ((testClient [84, 104, 105, 115] []).Send testCodec 7 0 [84, 104, 105, 115]).1 = none ∧
    (testClient [84, 104, 105, 115] []).Receive testCodec
      = ((some [84, 104, 105, 115], none), testClient [84, 104, 105, 115] []) :=
  have h := C9_malformed_passes_through testCodec (testClient [84, 104, 105, 115] [])
    { readData := [84, 104, 105, 115] } ⟨"239.2.3.1", 6969⟩ 7 0 [84, 104, 105, 115]
    (.other "EOF") rfl rfl rfl
  ⟨h.2.2.2.1 (fun _ => rfl) rfl, h.2.2.2.2.2.2 (fun _ => rfl) rfl⟩

/-! ## C10 -/

/-- C10: one tick of the pruning task replaces the registry by the empty registry
when it holds more than 1000 entries, so that its size is 0 right afterwards, and
touches nothing else; it leaves the client unchanged when the registry holds 1000
entries or fewer. -/
theorem C10_prune_tick (c : MulticastClient) :
    (1000 < c.seenMessages.len →
      c.pruneTick = { c with seenMessages := [] } ∧ c.pruneTick.seenMessages.len = 0) ∧
    (c.seenMessages.len ≤ 1000 → c.pruneTick = c) := by
  constructor
  · intro h
    have h2 : c.seenMessages.len > pruneThreshold := h
    have h3 : c.pruneTick = { c with seenMessages := [] } := by
      unfold MulticastClient.pruneTick
      rw [if_pos h2]
    rw [h3]
    exact ⟨rfl, rfl⟩
  · intro h
    have h2 : ¬ c.seenMessages.len > pruneThreshold := by
      show ¬ 1000 < c.seenMessages.len
      omega
    unfold MulticastClient.pruneTick
    rw [if_neg h2]

/-- C10 on both sides of the threshold: a registry of 1001 entries is emptied by
one tick and a registry of 1000 entries is kept. -/
theorem C10_prune_tick_witness :
    (testClient [] (registryOfSize 1001)).pruneTick.seenMessages.len = 0 ∧
    (testClient [] (registryOfSize 1000)).pruneTick = testClient [] (registryOfSize 1000) :=
  ⟨((C10_prune_tick (testClient [] (registryOfSize 1001))).1
      (by simp [testClient, registryOfSize, SeenMessages.len])).2,
   (C10_prune_tick (testClient [] (registryOfSize 1000))).2
      (by simp [testClient, registryOfSize, SeenMessages.len])⟩

/-! ## Construction leaves the transport without a connection -/

theorem NewTLSClient_conn (env : CertEnv) (config : ClientConfig) (c : TLSClient)
    (h : (NewTLSClient env config).1 = .ok c) : c.conn = none := by
  unfold NewTLSClient at h
  split at h
  · simp only [Except.ok.injEq] at h
    rw [← h]
  · split at h
    · cases h
    · split at h
      · split at h
        · cases h
        · simp only [Except.ok.injEq] at h
          rw [← h]
      · split at h
        · simp only [Except.ok.injEq] at h
          rw [← h]
        · cases h

theorem NewMulticastClient_fresh (config : ClientConfig) (c : MulticastClient)
    (h : NewMulticastClient config = .ok c) :
    c.conn = none ∧ c.multicastAddr = none ∧ c.connTypedNil = false ∧ c.seenMessages = [] := by
  unfold NewMulticastClient at h
  simp only [Except.ok.injEq] at h
  rw [← h]
  exact ⟨rfl, rfl, rfl, rfl⟩

/-! ## C11 -/

/-- C11: on a freshly constructed, never-connected transport of each of the four
variants (TCP, TLS, UDP, Multicast), Send, for every buffer, and Receive fail with
the not-connected error, Receive returns no data, the transport is exactly as it
was (no socket exists and none is touched; for the multicast variant the registry
and GlobalSequence are untouched as well), and IsConnected is false. -/
theorem C11_never_connected_fails {R : Type} (p : XMLParser R) (env : CertEnv)
    (config : ClientConfig) (data : Bytes) (g : Nat) (now : Int) :
    (∀ c : TCPClient, NewTCPClient config = .ok c →
      c.Send data = (some .notConnected, c) ∧
      c.Receive = ((none, some .notConnected), c) ∧ c.IsConnected = false) ∧
    (∀ c : TLSClient, (NewTLSClient env config).1 = .ok c →
      c.Send data = (some .notConnected, c) ∧
      c.Receive = ((none, some .notConnected), c) ∧ c.IsConnected = false) ∧
    (∀ c : UDPClient, NewUDPClient config = .ok c →
      c.Send data = (some .notConnected, c) ∧
      c.Receive = ((none, some .notConnected), c) ∧ c.IsConnected = false) ∧
    (∀ c : MulticastClient, NewMulticastClient config = .ok c →
      c.Send p g now data = (some .notConnected, c, g) ∧
      c.Receive p = ((none, some .notConnected), c) ∧ c.IsConnected = false) := by
  refine ⟨?_, ?_, ?_, ?_⟩
  · intro c h
    have hc : c.conn = none := by
      simp only [NewTCPClient, Except.ok.injEq] at h
      rw [← h]
    simp [TCPClient.Send, TCPClient.Receive, TCPClient.IsConnected, hc]
  · intro c h
    have hc : c.conn = none := NewTLSClient_conn env config c h
    simp [TLSClient.Send, TLSClient.Receive, TLSClient.IsConnected, hc]
  · intro c h
    have hc : c.conn = none := by
      simp only [NewUDPClient, Except.ok.injEq] at h
      rw [← h]
    simp [UDPClient.Send, UDPClient.Receive, UDPClient.IsConnected, hc]
  · intro c h
    obtain ⟨hc, ha, hn, _⟩ := NewMulticastClient_fresh config c h
    simp [MulticastClient.Send, MulticastClient.Receive, MulticastClient.IsConnected, hc, ha, hn]

/-- C11 at the TLS client and the multicast client built from a skip-verify
configuration: Send and Receive fail with the not-connected error. -/
theorem C11_never_connected_fails_witness :
    freshTLSClient.Send [1, 2, 3] = (some .notConnected, freshTLSClient) ∧
    freshMulticastClient.Receive testCodec = ((none, some .notConnected), freshMulticastClient) :=
  have h := C11_never_connected_fails testCodec testCertEnv skipVerifyConfig [1, 2, 3] 0 0
  have h1 := h.2.1 freshTLSClient rfl
  have h2 := h.2.2.2 freshMulticastClient rfl
  ⟨h1.1, h2.2.1⟩

/-! ## C12 -/

theorem TCPClient_connect_ok (env : NetEnv) (c c1 : TCPClient)
    (h : c.Connect env = (none, c1)) : ∃ conn, c1.conn = some conn := by
  unfold TCPClient.Connect at h
  split at h
  · simp at h
  · split at h
    · simp at h
    · split at h
      · simp at h
      · simp only [Prod.mk.injEq, true_and] at h
        exact ⟨_, by rw [← h]⟩

theorem TLSClient_connect_ok (env : NetEnv) (c c1 : TLSClient)
    (h : c.Connect env = (none, c1)) : ∃ conn, c1.conn = some conn := by
  unfold TLSClient.Connect at h
  split at h
  · simp at h
  · split at h
    · simp at h
    · split at h
      · simp at h
      · simp only [Prod.mk.injEq, true_and] at h
        exact ⟨_, by rw [← h]⟩

theorem UDPClient_connect_ok (env : NetEnv) (c c1 : UDPClient)
    (h : c.Connect env = (none, c1)) :
    ∃ conn addr, c1.conn = some conn ∧ c1.serverAddr = some addr := by
  unfold UDPClient.Connect at h
  split at h
  · simp at h
  · split at h
    · simp at h
    · split at h
      · simp at h
      · split at h
        · simp at h
        · split at h
          · simp at h
          · split at h
            · simp at h
            · simp only [Prod.mk.injEq, true_and] at h
              exact ⟨_, _, by rw [← h], by rw [← h]⟩

theorem MulticastClient.setDeadlines_client (c : MulticastClient) (conn : mockUDPConn) :
    (c.setDeadlines conn).2 = c := by
  unfold MulticastClient.setDeadlines
  split
  · rfl
  · split <;> rfl

theorem MulticastClient_connect_ok (env : NetEnv) (c c1 : MulticastClient)
    (h : c.Connect env = (none, c1)) :
    ∃ conn addr, c1.conn = some conn ∧ c1.multicastAddr = some addr := by
  unfold MulticastClient.Connect at h
  split at h
  · simp at h
  · split at h
    · simp at h
    · split at h
      · simp at h
      · split at h
        · simp [errNoSuitableInterface] at h
        · split at h
          · simp at h
          · rename_i conn _
            have h2 : (MulticastClient.setDeadlines _ conn).2 = c1 := congrArg Prod.snd h
            rw [MulticastClient.setDeadlines_client] at h2
            exact ⟨conn, _, by rw [← h2], by rw [← h2]⟩

/-- C12: for each of the four variants, when Connect has succeeded, a further
Connect with no Disconnect in between fails with the already-connected error
whatever the network would answer (so no dial and no socket call decides anything),
and the client, with its socket handle, is exactly as it was. -/
theorem C12_connect_twice_fails (env env2 : NetEnv) :
    (∀ c c1 : TCPClient, c.Connect env = (none, c1) →
      c1.Connect env2 = (some .alreadyConnected, c1) ∧ c1.IsConnected = true) ∧
    (∀ c c1 : TLSClient, c.Connect env = (none, c1) →
      c1.Connect env2 = (some .alreadyConnected, c1) ∧ c1.IsConnected = true) ∧
    (∀ c c1 : UDPClient, c.Connect env = (none, c1) →
      c1.Connect env2 = (some .alreadyConnected, c1) ∧ c1.IsConnected = true) ∧
    (∀ c c1 : MulticastClient, c.Connect env = (none, c1) →
      c1.Connect env2 = (some .alreadyConnected, c1) ∧ c1.IsConnected = true) := by
  refine ⟨?_, ?_, ?_, ?_⟩
  · intro c c1 h
    obtain ⟨conn, hc⟩ := TCPClient_connect_ok env c c1 h
    simp [TCPClient.Connect, TCPClient.IsConnected, hc]
  · intro c c1 h
    obtain ⟨conn, hc⟩ := TLSClient_connect_ok env c c1 h
    simp [TLSClient.Connect, TLSClient.IsConnected, hc]
  · intro c c1 h
    obtain ⟨conn, addr, hc, ha⟩ := UDPClient_connect_ok env c c1 h
    simp [UDPClient.Connect, UDPClient.IsConnected, hc, ha]
  · intro c c1 h
    obtain ⟨conn, addr, hc, ha⟩ := MulticastClient_connect_ok env c c1 h
    simp [MulticastClient.Connect, MulticastClient.IsConnected, hc, ha]

/-- C12 at a TCP client and a multicast client connected in a network where every
call succeeds: the second Connect is refused and the socket stays. -/
theorem C12_connect_twice_fails_witness :
    (TCPClient.mk {} (some {})).Connect (testNetEnv {} [] (.error (.other "down")))
      = (some .alreadyConnected, TCPClient.mk {} (some {})) ∧
    (MulticastClient.mk {} (some {}) (some ⟨":0", 0⟩) [] false).Connect
        (testNetEnv {} [] (.error (.other "down")))
      = (some .alreadyConnected, MulticastClient.mk {} (some {}) (some ⟨":0", 0⟩) [] false) :=
  have h := C12_connect_twice_fails (testNetEnv {} testInterfaces (.ok {}))
    (testNetEnv {} [] (.error (.other "down")))
  ⟨(h.1 (TCPClient.mk {} none) _ rfl).1,
   (h.2.2.2 (MulticastClient.mk {} none none [] false) _ rfl).1⟩

/-! ## C13 -/

/-- C13: Disconnect on a transport with no connection returns nil for the TLS
variant and the not-connected error for the TCP, UDP and Multicast variants, and
the transport is exactly as it was, with IsConnected false.  In particular a second
Disconnect after a successful one is accepted by the TLS variant and refused with
the not-connected error by the three others. -/
theorem C13_disconnect_when_not_connected :
    (∀ c : TLSClient, c.conn = none →
      c.Disconnect = (none, c) ∧ c.IsConnected = false) ∧
    (∀ c : TCPClient, c.conn = none →
      c.Disconnect = (some .notConnected, c) ∧ c.IsConnected = false) ∧
    (∀ c : UDPClient, c.conn = none →
      c.Disconnect = (some .notConnected, c) ∧ c.IsConnected = false) ∧
    (∀ c : MulticastClient, c.conn = none → c.connTypedNil = false →
      c.Disconnect = (some .notConnected, c) ∧ c.IsConnected = false) ∧
    (∀ c c1 : TLSClient, c.Disconnect = (none, c1) → c1.Disconnect = (none, c1)) ∧
    (∀ c c1 : TCPClient, c.Disconnect = (none, c1) →
      c1.Disconnect = (some .notConnected, c1)) ∧
    (∀ c c1 : UDPClient, c.Disconnect = (none, c1) →
      c1.Disconnect = (some .notConnected, c1)) ∧
    (∀ c c1 : MulticastClient, c.Disconnect = (none, c1) →
      c1.Disconnect = (some .notConnected, c1)) := by
  refine ⟨?_, ?_, ?_, ?_, ?_, ?_, ?_, ?_⟩
  · intro c hc
    simp [TLSClient.Disconnect, TLSClient.IsConnected, hc]
  · intro c hc
    simp [TCPClient.Disconnect, TCPClient.IsConnected, hc]
  · intro c hc
    simp [UDPClient.Disconnect, UDPClient.IsConnected, hc]
  · intro c hc hn
    simp [MulticastClient.Disconnect, MulticastClient.IsConnected, hc, hn]
  · intro c c1 h
    have hc : c1.conn = none := by
      unfold TLSClient.Disconnect at h
      split at h
      · rename_i hn
        simp only [Prod.mk.injEq, true_and] at h
        rw [← h]; exact hn
      · split at h
        · simp only [Prod.mk.injEq, true_and] at h
          rw [← h]
        · simp at h
    simp [TLSClient.Disconnect, hc]
  · intro c c1 h
    have hc : c1.conn = none := by
      unfold TCPClient.Disconnect at h
      split at h
      · simp at h
      · split at h
        · simp only [Prod.mk.injEq, true_and] at h
          rw [← h]
        · simp at h
    simp [TCPClient.Disconnect, hc]
  · intro c c1 h
    have hc : c1.conn = none := by
      unfold UDPClient.Disconnect at h
      split at h
      · simp at h
      · split at h
        · simp only [Prod.mk.injEq, true_and] at h
          rw [← h]
        · simp at h
    simp [UDPClient.Disconnect, hc]
  · intro c c1 h
    have hc : c1.conn = none ∧ c1.connTypedNil = false := by
      unfold MulticastClient.Disconnect at h
      split at h
      · split at h <;> simp at h
      · rename_i conn hconn
        split at h
        · simp only [Prod.mk.injEq, true_and] at h
          rw [← h]
          exact ⟨rfl, rfl⟩
        · simp at h
    simp [MulticastClient.Disconnect, hc.1, hc.2]


/-- C13 at clients with no connection: the TLS client accepts Disconnect, the TCP
client refuses it, and a TLS client disconnected once accepts a second call. -/
theorem C13_disconnect_when_not_connected_witness :
    freshTLSClient.Disconnect = (none, freshTLSClient) ∧
    (TCPClient.mk {} none).Disconnect = (some .notConnected, TCPClient.mk {} none) ∧
    (TLSClient.mk {} none).Disconnect = (none, TLSClient.mk {} none) :=
  ⟨(C13_disconnect_when_not_connected.1 freshTLSClient rfl).1,
   (C13_disconnect_when_not_connected.2.1 (TCPClient.mk {} none) rfl).1,
   C13_disconnect_when_not_connected.2.2.2.2.1 (TLSClient.mk {} (some {})) (TLSClient.mk {} none)
     rfl⟩

/-! ## C14 -/

/-- C14, as stated, fails: a connected TLS client whose connection returns an error
from Close gets that error back from Disconnect, keeps its socket handle, and
IsConnected is still true. -/
theorem C14_close_error_counterexample :
    (TLSClient.mk skipVerifyConfig (some { closeError := some (.other "close failed") })).Disconnect
      = (some (.other "close failed"),
         TLSClient.mk skipVerifyConfig
           (some { closeError := some (.other "close failed"), closed := true })) ∧
    (TLSClient.mk skipVerifyConfig
      (some { closeError := some (.other "close failed") })).Disconnect.2.IsConnected = true := by
  decide

/-- C14, amended: for the TLS variant, Disconnect on a connected transport whose
underlying close returns an error returns that error unchanged and keeps the socket
handle, so IsConnected is still true afterwards; when the close returns nil,
Disconnect returns nil and clears the handle, so IsConnected is false. -/
theorem C14_tls_disconnect_close (c : TLSClient) (conn : netConn) (hconn : c.conn = some conn) :
    (∀ err, conn.closeError = some err →
      (c.Disconnect).1 = some err ∧ (c.Disconnect).2.IsConnected = true ∧
      (c.Disconnect).2.config = c.config) ∧
    (conn.closeError = none →
      c.Disconnect = (none, { c with conn := none }) ∧ (c.Disconnect).2.IsConnected = false) := by
  constructor
  · intro err herr
    simp [TLSClient.Disconnect, hconn, netConn.Close, herr, TLSClient.IsConnected]
  · intro hnone
    simp [TLSClient.Disconnect, hconn, netConn.Close, hnone, TLSClient.IsConnected]

/-- C14 amended, at a connection whose Close fails: Disconnect returns the error
and the client stays connected. -/
theorem C14_tls_disconnect_close_witness :
    (TLSClient.mk skipVerifyConfig
      (some { closeError := some (.other "close failed") })).Disconnect.1
      = some (.other "close failed") ∧
    (TLSClient.mk skipVerifyConfig
      (some { closeError := some (.other "close failed") })).Disconnect.2.IsConnected = true :=
  have h := (C14_tls_disconnect_close
    (TLSClient.mk skipVerifyConfig (some { closeError := some (.other "close failed") }))
    { closeError := some (.other "close failed") } rfl).1 (.other "close failed") rfl
  ⟨h.1, h.2.1⟩

/-! ## C15 -/

theorem TCPClient_connect_error_disconnected (env : NetEnv) (c c1 : TCPClient) (err : GoError)
    (hconn : c.conn = none) (h : c.Connect env = (some err, c1)) : c1.IsConnected = false := by
  unfold TCPClient.Connect at h
  rw [hconn] at h
  simp only at h
  split at h
  · simp only [Prod.mk.injEq] at h
    rw [← h.2]
    simp [TCPClient.IsConnected, hconn]
  · split at h
    · simp only [Prod.mk.injEq] at h
      rw [← h.2]
      simp [TCPClient.IsConnected, hconn]
    · simp at h

theorem TLSClient_connect_error_disconnected (env : NetEnv) (c c1 : TLSClient) (err : GoError)
    (hconn : c.conn = none) (h : c.Connect env = (some err, c1)) : c1.IsConnected = false := by
  unfold TLSClient.Connect at h
  rw [hconn] at h
  simp only at h
  split at h
  · simp only [Prod.mk.injEq] at h
    rw [← h.2]
    simp [TLSClient.IsConnected, hconn]
  · split at h
    · simp only [Prod.mk.injEq] at h
      rw [← h.2]
      simp [TLSClient.IsConnected, hconn]
    · simp at h


/-- C15 fails on the code.  A UDP client and a multicast client with a read timeout,
in a network where everything succeeds except setting the deadline on the new socket:
Connect returns the deadline error and IsConnected is true afterwards.  A multicast
client whose socket creation fails: Connect returns that error, the interface field
holds the nil pointer, and IsConnected is true afterwards. -/
theorem C15_connect_error_still_connected :
    ((UDPClient.mk { ReadTimeout := 1000000000 } none none).Connect
      (testNetEnv { deadlineError := some (.other "set deadline") } [] (.ok {}))).1
      = some (.other "set deadline") ∧
    ((UDPClient.mk { ReadTimeout := 1000000000 } none none).Connect
      (testNetEnv { deadlineError := some (.other "set deadline") } [] (.ok {}))).2.IsConnected
      = true ∧
    ((MulticastClient.mk { ReadTimeout := 1000000000 } none none [] false).Connect
      (testNetEnv {} testInterfaces (.ok { deadlineError := some (.other "set deadline") }))).1
      = some (.other "set deadline") ∧
    ((MulticastClient.mk { ReadTimeout := 1000000000 } none none [] false).Connect
      (testNetEnv {} testInterfaces
        (.ok { deadlineError := some (.other "set deadline") }))).2.IsConnected = true ∧
    ((MulticastClient.mk {} none none [] false).Connect
      (testNetEnv {} testInterfaces (.error (.other "listen failed")))).1
      = some (.other "listen failed") ∧
    ((MulticastClient.mk {} none none [] false).Connect
      (testNetEnv {} testInterfaces (.error (.other "listen failed")))).2.IsConnected = true := by
  decide

/-! ## C16 -/

/-- C16, as stated, fails for NewTLSClient: a configuration with SkipTLSVerify
false and an empty CertFile that carries a pre-built TLSConfig is accepted, and the
client is returned with that TLSConfig. -/
theorem C16_prebuilt_config_counterexample :
    NewTLSClient testCertEnv { SkipTLSVerify := false, CertFile := "", TLSConfig := some {} }
      = (.ok (TLSClient.mk { SkipTLSVerify := false, CertFile := "", TLSConfig := some {} } none),
         []) := by
  rfl

/-- C16, amended: for every configuration with SkipTLSVerify false and an empty
CertFile, NewClient with connection kind TLS returns a configuration error and no
client, and so does NewTLSClient when the configuration carries no pre-built
TLSConfig; both read no file (and no constructor touches the network).  With a
pre-built TLSConfig, NewTLSClient returns a client that keeps the configuration. -/
theorem C16_no_certificate_no_skip_verify (env : CertEnv) (config : ClientConfig)
    (hskip : config.SkipTLSVerify = false) (hcert : config.CertFile = "") :
    (config.ConnectionType = "tls" →
      NewClient env config = (.error (.errorsNew
        "TLS connection requires either a certificate file or skip-verify option"), [])) ∧
    (config.TLSConfig = none →
      NewTLSClient env config = (.error (.errorsNew
        "TLS connection requires either a certificate or skip-verify option"), [])) ∧
    (∀ t, config.TLSConfig = some t → NewTLSClient env config = (.ok { config := config }, [])) := by
  refine ⟨?_, ?_, ?_⟩
  · intro hkind
    simp [NewClient, hkind, hcert, hskip]
  · intro hnone
    simp [NewTLSClient, hnone, hcert, hskip]
  · intro t ht
    simp [NewTLSClient, ht]

/-- C16 amended, at the configuration of the test "no cert file and no skip
verify": both constructors refuse it and read nothing. -/
theorem C16_no_certificate_no_skip_verify_witness :
    NewClient testCertEnv { Address := "127.0.0.1", Port := 8089, ConnectionType := "tls" }
      = (.error (.errorsNew
        "TLS connection requires either a certificate file or skip-verify option"), []) ∧
    NewTLSClient testCertEnv { Address := "127.0.0.1", Port := 8089, ConnectionType := "tls" }
      = (.error (.errorsNew
        "TLS connection requires either a certificate or skip-verify option"), []) :=
  have h := C16_no_certificate_no_skip_verify testCertEnv
    { Address := "127.0.0.1", Port := 8089, ConnectionType := "tls" } rfl rfl
  ⟨h.1 rfl, h.2.1 rfl⟩

/-! ## C17 -/

theorem lowerChar_p12 : (".p12".data.map lowerChar) = ".p12".data := by decide

theorem lowerChar_pfx : (".pfx".data.map lowerChar) = ".pfx".data := by decide

theorem autoIsP12_clientIsPKCS12 (certFile : String) (h : autoIsP12 certFile = true) :
    clientIsPKCS12 certFile = true := by
  unfold autoIsP12 at h
  simp only [Bool.and_eq_true, decide_eq_true_eq, Bool.or_eq_true] at h
  obtain ⟨hlen, hext⟩ := h
  unfold clientIsPKCS12
  rw [if_pos hlen]
  rcases hext with h1 | h1
  · simp only [h1, lowerChar_p12]
    decide
  · simp only [h1, lowerChar_pfx]
    decide

/-- C17, as stated, fails for NewTLSClient: a configuration with a PEM certificate
path and an empty key path that carries a pre-built TLSConfig is accepted. -/
theorem C17_prebuilt_config_counterexample :
    clientIsPKCS12 "testdata/client.crt" = false ∧
    autoIsP12 "testdata/client.crt" = false ∧
    NewTLSClient testCertEnv { CertFile := "testdata/client.crt", KeyFile := "", TLSConfig := some {} }
      = (.ok (TLSClient.mk
          { CertFile := "testdata/client.crt", KeyFile := "", TLSConfig := some {} } none), []) := by
  refine ⟨by decide, by decide, rfl⟩

/-- C17, amended: LoadTLSConfig returns a configuration error whenever keyFile is
empty, before any file is read.  For a configuration with an empty key path and a
certificate path that is not a PKCS#12 path, NewClient with connection kind TLS
returns a configuration error, and so does NewTLSClient when the configuration
carries no pre-built TLSConfig; neither reads a file, so the failure comes at
construction time. -/
theorem C17_pem_requires_key (env : CertEnv) (config : ClientConfig)
    (hkey : config.KeyFile = "") (hcert : config.CertFile ≠ "") :
    (∀ certFile caFile skipVerify,
      LoadTLSConfig env certFile "" caFile skipVerify
        = (.error (.errorsNew "PEM certificate format requires a key file"), [])) ∧
    (config.ConnectionType = "tls" → clientIsPKCS12 config.CertFile = false →
      NewClient env config
        = (.error (.errorsNew "PEM certificate format requires a key file"), [])) ∧
    (config.TLSConfig = none → autoIsP12 config.CertFile = false →
      NewTLSClient env config
        = (.error (.wrapped "failed to load TLS configuration"
            (.errorsNew "PEM certificate format requires a key file")), [])) := by
  refine ⟨?_, ?_, ?_⟩
  · intro certFile caFile skipVerify
    simp [LoadTLSConfig]
  · intro hkind hpem
    simp [NewClient, hkind, hcert, hpem, hkey]
  · intro hnone hpem
    simp [NewTLSClient, hnone, hcert, LoadTLSConfigAuto, hpem, hkey, LoadTLSConfig]

/-- C17 amended, at the configuration of the test "PEM cert without key file". -/
theorem C17_pem_requires_key_witness :
    NewClient testCertEnv { ConnectionType := "tls", CertFile := "testdata/client.crt" }
      = (.error (.errorsNew "PEM certificate format requires a key file"), []) ∧
    NewTLSClient testCertEnv { ConnectionType := "tls", CertFile := "testdata/client.crt" }
      = (.error (.wrapped "failed to load TLS configuration"
          (.errorsNew "PEM certificate format requires a key file")), []) :=
  have h := C17_pem_requires_key testCertEnv
    { ConnectionType := "tls", CertFile := "testdata/client.crt" } rfl (by decide)
  ⟨h.2.1 rfl (by decide), h.2.2 rfl (by decide)⟩

/-! ## C18 -/

/-- C18 fails on the code.  NewClient takes client.P12 and A.PFX for PKCS#12
bundles; LoadTLSConfigAuto compares the extension as written, takes client.P12 for
PEM and hands it to LoadTLSConfig, which refuses it for its missing key file; so a
TLS configuration with the bundle client.P12 passes the check in NewClient and then
fails in NewTLSClient, while client.p12 is loaded as a bundle. -/
theorem C18_auto_detection_case_sensitive :
    clientIsPKCS12 "client.P12" = true ∧ autoIsP12 "client.P12" = false ∧
    clientIsPKCS12 "A.PFX" = true ∧ autoIsP12 "A.PFX" = false ∧
    LoadTLSConfigAuto testCertEnv "client.P12" "" "secret" "" false
      = LoadTLSConfig testCertEnv "client.P12" "" "" false ∧
    LoadTLSConfigAuto testCertEnv "client.P12" "" "secret" "" false
      = (.error (.errorsNew "PEM certificate format requires a key file"), []) ∧
    NewClient testCertEnv { ConnectionType := "tls", CertFile := "client.P12", P12Password := "secret" }
      = (.error (.wrapped "failed to load TLS configuration"
          (.errorsNew "PEM certificate format requires a key file")), []) ∧
    autoIsP12 "client.p12" = true ∧
    LoadTLSConfigAuto testCertEnv "client.p12" "" "secret" "" false
      = LoadTLSConfigFromP12 testCertEnv "client.p12" "secret" "" false := by
  refine ⟨by decide, by decide, by decide, by decide, rfl, rfl, rfl, by decide, rfl⟩

/-! ## C19 -/

theorem p12_fold (blocks : List PemBlock) :
    ∀ acc : P12Parts,
      (blocks.foldl p12Step acc).certDERBlock
        = (match acc.certDERBlock with
           | some d => some d
           | none => (certificateDERs blocks).head?) ∧
      (blocks.foldl p12Step acc).caCertDERBlocks
        = acc.caCertDERBlocks ++
          (match acc.certDERBlock with
           | some _ => certificateDERs blocks
           | none => (certificateDERs blocks).tail) ∧
      (blocks.foldl p12Step acc).keyDERBlock.isSome
        = (acc.keyDERBlock.isSome || hasPrivateKey blocks) := by
  induction blocks with
  | nil =>
    rintro ⟨c, k, ca⟩
    cases c <;> simp [certificateDERs, hasPrivateKey]
  | cons b rest ih =>
    rintro ⟨c, k, ca⟩
    simp only [List.foldl_cons]
    by_cases hb : b.blockType = "CERTIFICATE"
    · have hk : isPrivateKeyType "CERTIFICATE" = false := by decide
      cases c with
      | none =>
        have hstep : p12Step ⟨none, k, ca⟩ b = ⟨some b.Bytes, k, ca⟩ := by
          simp [p12Step, hb]
        rw [hstep]
        obtain ⟨h1, h2, h3⟩ := ih ⟨some b.Bytes, k, ca⟩
        rw [h1, h2, h3]
        simp [certificateDERs, hasPrivateKey, hb, hk]
      | some d =>
        have hstep : p12Step ⟨some d, k, ca⟩ b = ⟨some d, k, ca ++ [b.Bytes]⟩ := by
          simp [p12Step, hb]
        rw [hstep]
        obtain ⟨h1, h2, h3⟩ := ih ⟨some d, k, ca ++ [b.Bytes]⟩
        rw [h1, h2, h3]
        simp [certificateDERs, hasPrivateKey, hb, hk]
    · by_cases hk : isPrivateKeyType b.blockType = true
      · have hstep : p12Step ⟨c, k, ca⟩ b = ⟨c, some b.Bytes, ca⟩ := by
          simp [p12Step, hb, hk]
        rw [hstep]
        obtain ⟨h1, h2, h3⟩ := ih ⟨c, some b.Bytes, ca⟩
        rw [h1, h2, h3]
        cases c <;> simp [certificateDERs, hasPrivateKey, hb, hk]
      · have hk2 : isPrivateKeyType b.blockType = false := by simpa using hk
        have hstep : p12Step ⟨c, k, ca⟩ b = ⟨c, k, ca⟩ := by
          simp [p12Step, hb, hk2]
        rw [hstep]
        obtain ⟨h1, h2, h3⟩ := ih ⟨c, k, ca⟩
        rw [h1, h2, h3]
        cases c <;> simp [certificateDERs, hasPrivateKey, hb, hk2]

theorem extractP12Parts_eq (blocks : List PemBlock) :
    (extractP12Parts blocks).certDERBlock = (certificateDERs blocks).head? ∧
    (extractP12Parts blocks).caCertDERBlocks = (certificateDERs blocks).tail ∧
    (extractP12Parts blocks).keyDERBlock.isSome = hasPrivateKey blocks := by
  have h := p12_fold blocks {}
  simpa [extractP12Parts] using h

theorem CertPool.mem_AddCert_self (pool : CertPool) (cert : X509Cert) :
    cert ∈ CertPool.AddCert pool cert := by
  unfold CertPool.AddCert
  split
  · assumption
  · simp

theorem CertPool.mem_AddCert_of_mem (pool : CertPool) (cert x : X509Cert) (h : x ∈ pool) :
    x ∈ CertPool.AddCert pool cert := by
  unfold CertPool.AddCert
  split
  · exact h
  · exact List.mem_append_left _ h

theorem CertPool.mem_foldl_AddCert (certs : List X509Cert) :
    ∀ (pool : CertPool) (x : X509Cert), x ∈ pool → x ∈ certs.foldl CertPool.AddCert pool := by
  induction certs with
  | nil => intro pool x h; exact h
  | cons c rest ih =>
    intro pool x h
    exact ih _ x (CertPool.mem_AddCert_of_mem pool c x h)

theorem addCACerts_ok (env : CertEnv) (ders : List Bytes) :
    ∀ (pool pool1 : CertPool), addCACerts env pool ders = .ok pool1 →
      (∀ x ∈ pool, x ∈ pool1) ∧
      (∀ der ∈ ders, ∃ ca, env.ParseCertificate der = .ok ca ∧ ca ∈ pool1) := by
  induction ders with
  | nil =>
    intro pool pool1 h
    simp only [addCACerts, Except.ok.injEq] at h
    subst h
    exact ⟨fun x hx => hx, fun der hder => by simp at hder⟩
  | cons d rest ih =>
    intro pool pool1 h
    unfold addCACerts at h
    cases hp : env.ParseCertificate d with
    | error err => simp [hp] at h
    | ok ca =>
      simp only [hp] at h
      obtain ⟨h1, h2⟩ := ih _ _ h
      refine ⟨fun x hx => h1 x (CertPool.mem_AddCert_of_mem pool ca x hx), ?_⟩
      intro der hder
      rcases List.mem_cons.mp hder with hd | hd
      · subst hd
        exact ⟨ca, hp, h1 ca (CertPool.mem_AddCert_self pool ca)⟩
      · exact h2 der hd

theorem configFromP12Blocks_ok (env : CertEnv) (blocks : List PemBlock) (caFile : String)
    (skipVerify : Bool) (cfg : TLSConfig)
    (h : (configFromP12Blocks env blocks caFile skipVerify).1 = .ok cfg) :
    ∃ certDER leaf pool0 pool cert,
      (extractP12Parts blocks).certDERBlock = some certDER ∧
      env.ParseCertificate certDER = .ok leaf ∧
      addCACerts env (CertPool.AddCert [] leaf) (extractP12Parts blocks).caCertDERBlocks
        = .ok pool0 ∧
      cfg.Certificates = [cert] ∧ cert.Leaf = some leaf ∧
      cfg.RootCAs = some pool ∧ ∀ x ∈ pool0, x ∈ pool := by
  unfold configFromP12Blocks at h
  split at h
  · cases h
  · split at h
    · rename_i certDER keyDER hcert hkey
      split at h
      · cases h
      · rename_i cert hpair
        split at h
        · cases h
        · rename_i leaf hleaf
          split at h
          · cases h
          · rename_i pool0 hpool
            by_cases hca : caFile = ""
            · simp only [hca, ne_eq, not_true_eq_false, if_false, Except.ok.injEq] at h
              exact ⟨certDER, leaf, pool0, pool0, { cert with Leaf := some leaf }, hcert, hleaf,
                hpool, by rw [← h], rfl, by rw [← h], fun x hx => hx⟩
            · simp only [ne_eq, hca, not_false_eq_true, if_true] at h
              cases hr : env.ReadFile caFile with
              | error e => simp [hr] at h
              | ok caCert =>
                simp only [hr] at h
                by_cases hok : (CertPool.AppendCertsFromPEM env pool0 caCert).1 = true
                · simp only [hok, if_true, Except.ok.injEq] at h
                  refine ⟨certDER, leaf, pool0, _, { cert with Leaf := some leaf }, hcert, hleaf,
                    hpool, by rw [← h], rfl, by rw [← h], ?_⟩
                  intro x hx
                  exact CertPool.mem_foldl_AddCert _ _ x hx
                · simp [hok] at h
    · cases h

theorem configFromP12Blocks_missing (env : CertEnv) (blocks : List PemBlock) (caFile : String)
    (skipVerify : Bool)
    (h : (extractP12Parts blocks).certDERBlock = none ∨
         (extractP12Parts blocks).keyDERBlock = none) :
    ∃ err, (configFromP12Blocks env blocks caFile skipVerify).1 = .error err := by
  unfold configFromP12Blocks
  split
  · exact ⟨_, rfl⟩
  · split
    · rename_i hc hk
      rcases h with h | h
      · rw [h] at hc; cases hc
      · rw [h] at hk; cases hk
    · exact ⟨_, rfl⟩

/-- C19: in LoadTLSConfigFromP12, for every ordered list of blocks that the bundle
decodes to, the loop takes the first block of type CERTIFICATE as the client
certificate and every later block of type CERTIFICATE, in order, as a CA
certificate; loading fails when the list has no block of type CERTIFICATE or no
private-key block; and when loading succeeds, the one certificate of the
configuration has the parsed first certificate as its leaf and the trust pool holds
that leaf and the parsed certificate of every later CERTIFICATE block. -/
theorem C19_p12_leaf_and_chain (env : CertEnv) (p12File password caFile : String)
    (skipVerify : Bool) (data : Bytes) (blocks : List PemBlock)
    (hread : env.ReadFile p12File = .ok data)
    (hpem : env.ToPEM data password = .ok blocks) :
    (extractP12Parts blocks).certDERBlock = (certificateDERs blocks).head? ∧
    (extractP12Parts blocks).caCertDERBlocks = (certificateDERs blocks).tail ∧
    (certificateDERs blocks = [] ∨ hasPrivateKey blocks = false →
      ∃ err, (LoadTLSConfigFromP12 env p12File password caFile skipVerify).1 = .error err) ∧
    (∀ cfg, (LoadTLSConfigFromP12 env p12File password caFile skipVerify).1 = .ok cfg →
      ∃ leafDER leaf pool cert,
        (certificateDERs blocks).head? = some leafDER ∧
        env.ParseCertificate leafDER = .ok leaf ∧
        cfg.Certificates = [cert] ∧ cert.Leaf = some leaf ∧
        cfg.RootCAs = some pool ∧ leaf ∈ pool ∧
        ∀ der ∈ (certificateDERs blocks).tail,
          ∃ ca, env.ParseCertificate der = .ok ca ∧ ca ∈ pool) := by
  obtain ⟨hc, hca, hk⟩ := extractP12Parts_eq blocks
  have hload : (LoadTLSConfigFromP12 env p12File password caFile skipVerify).1
      = (configFromP12Blocks env blocks caFile skipVerify).1 := by
    simp [LoadTLSConfigFromP12, hread, hpem]
  refine ⟨hc, hca, ?_, ?_⟩
  · intro h
    rw [hload]
    apply configFromP12Blocks_missing
    rcases h with h | h
    · left
      rw [hc, h]
      rfl
    · right
      rw [h] at hk
      cases hkey : (extractP12Parts blocks).keyDERBlock with
      | none => rfl
      | some k => rw [hkey] at hk; simp at hk
  · intro cfg hcfg
    rw [hload] at hcfg
    obtain ⟨certDER, leaf, pool0, pool, cert, h1, h2, h3, h4, h5, h6, h7⟩ :=
      configFromP12Blocks_ok env blocks caFile skipVerify cfg hcfg
    obtain ⟨hp1, hp2⟩ := addCACerts_ok env _ _ _ h3
    refine ⟨certDER, leaf, pool, cert, by rw [← hc]; exact h1, h2, h4, h5, h6, ?_, ?_⟩
    · exact h7 leaf (hp1 leaf (CertPool.mem_AddCert_self [] leaf))
    · intro der hder
      rw [← hca] at hder
      obtain ⟨ca, hca1, hca2⟩ := hp2 der hder
      exact ⟨ca, hca1, h7 ca hca2⟩

/-- C19 at the test bundle, whose blocks are a certificate, a key and two more
certificates: the first certificate is the leaf, the two others are the chain, and
the pool holds all three. -/
theorem C19_p12_leaf_and_chain_witness :
    (extractP12Parts [⟨"CERTIFICATE", [10]⟩, ⟨"PRIVATE KEY", [20]⟩, ⟨"CERTIFICATE", [11]⟩,
        ⟨"CERTIFICATE", [12]⟩]).certDERBlock
      = (certificateDERs [⟨"CERTIFICATE", [10]⟩, ⟨"PRIVATE KEY", [20]⟩, ⟨"CERTIFICATE", [11]⟩,
        ⟨"CERTIFICATE", [12]⟩]).head? ∧
    (LoadTLSConfigFromP12 testCertEnv "client.p12" "secret" "" false).1
      = .ok { InsecureSkipVerify := false,
              Certificates := [{ Chain := [[10]], PrivateKey := [20], Leaf := some ⟨[10]⟩ }],
              RootCAs := some [⟨[10]⟩, ⟨[11]⟩, ⟨[12]⟩] } :=
  ⟨(C19_p12_leaf_and_chain testCertEnv "client.p12" "secret" "" false [1, 2, 3] _ rfl rfl).1,
   rfl⟩

/-! ## C20 -/

theorem and_one_ne_zero (n : Nat) : (n &&& 1 != 0) = n.testBit 0 := by
  have h := Nat.and_two_pow n 0
  simp only [pow_zero, mul_one] at h
  rw [h]
  cases n.testBit 0 <;> rfl

theorem and_sixteen_ne_zero (n : Nat) : (n &&& 16 != 0) = n.testBit 4 := by
  have h := Nat.and_two_pow n 4
  norm_num at h
  rw [h]
  cases n.testBit 4 <;> rfl

theorem and_four_eq_zero (n : Nat) : (n &&& 4 == 0) = !n.testBit 2 := by
  have h := Nat.and_two_pow n 2
  norm_num at h
  rw [h]
  cases n.testBit 2 <;> rfl

theorem Interface.suitable_eq (i : Interface) : i.suitable = i.upMulticastNotLoopback := by
  unfold Interface.suitable Interface.upMulticastNotLoopback FlagUp FlagMulticast FlagLoopback
  rw [and_one_ne_zero, and_sixteen_ne_zero, and_four_eq_zero]

theorem selectInterface_eq_find (interfaces : List Interface) :
    selectInterface interfaces = interfaces.find? Interface.upMulticastNotLoopback := by
  induction interfaces with
  | nil => rfl
  | cons i rest ih =>
    unfold selectInterface
    rw [List.find?_cons, ← Interface.suitable_eq]
    cases h : i.suitable <;> simp [ih]

/-- C20: for every ordered list of network interfaces, the interface loop of the
multicast Connect selects the first interface of the list whose flags have Up set,
Multicast set and Loopback clear.  On a client with no connection, once the group
address is resolved and the interfaces are listed: when no interface qualifies,
Connect fails with the no-suitable-interface error, creates no socket and leaves
the client disconnected; when one qualifies, Connect goes on with the socket
created on the first such interface, and, the errors of the socket calls being
other values than the no-suitable-interface error, it does not fail with that
error. -/
theorem C20_first_suitable_interface (env : NetEnv) (c : MulticastClient) (addr : UDPAddr)
    (interfaces : List Interface)
    (hconn : c.conn = none) (hnil : c.connTypedNil = false)
    (haddr : env.ResolveUDPAddr
      (c.config.MulticastAddr ++ ":" ++ toString c.config.MulticastPort) = .ok addr)
    (hifs : env.Interfaces = .ok interfaces)
    (hlisten : ∀ i a err, env.ListenMulticastUDP i a = .error err → err ≠ errNoSuitableInterface)
    (hsock : ∀ i a conn, env.ListenMulticastUDP i a = .ok conn →
      conn.deadlineError ≠ some errNoSuitableInterface) :
    selectInterface interfaces = interfaces.find? Interface.upMulticastNotLoopback ∧
    ((∀ i ∈ interfaces, i.upMulticastNotLoopback = false) →
      c.Connect env = (some errNoSuitableInterface, { c with multicastAddr := some addr }) ∧
      (c.Connect env).2.IsConnected = false) ∧
    (∀ iface, interfaces.find? Interface.upMulticastNotLoopback = some iface →
      c.Connect env =
        (match env.ListenMulticastUDP iface addr with
         | .error err =>
           (some err, { c with multicastAddr := some addr, conn := none, connTypedNil := true })
         | .ok conn =>
           MulticastClient.setDeadlines
             { c with multicastAddr := some addr, conn := some conn, connTypedNil := false }
             conn)) ∧
    ((c.Connect env).1 = some errNoSuitableInterface ↔
      ∀ i ∈ interfaces, i.upMulticastNotLoopback = false) := by
  have hsel := selectInterface_eq_find interfaces
  have hnone : (∀ i ∈ interfaces, i.upMulticastNotLoopback = false) →
      c.Connect env = (some errNoSuitableInterface, { c with multicastAddr := some addr }) := by
    intro hall
    have hf : selectInterface interfaces = none := by
      rw [hsel, List.find?_eq_none]
      intro i hi
      simp [hall i hi]
    simp [MulticastClient.Connect, hconn, hnil, haddr, hifs, hf]
  have hsome : ∀ iface, interfaces.find? Interface.upMulticastNotLoopback = some iface →
      c.Connect env =
        (match env.ListenMulticastUDP iface addr with
         | .error err =>
           (some err, { c with multicastAddr := some addr, conn := none, connTypedNil := true })
         | .ok conn =>
           MulticastClient.setDeadlines
             { c with multicastAddr := some addr, conn := some conn, connTypedNil := false }
             conn) := by
    intro iface hfind
    have hf : selectInterface interfaces = some iface := by rw [hsel, hfind]
    simp [MulticastClient.Connect, hconn, hnil, haddr, hifs, hf]
  refine ⟨hsel, ?_, hsome, ?_⟩
  · intro hall
    refine ⟨hnone hall, ?_⟩
    rw [hnone hall]
    simp [MulticastClient.IsConnected, hconn, hnil]
  · constructor
    · intro herr
      by_contra hex
      have hfind : ∃ iface, interfaces.find? Interface.upMulticastNotLoopback = some iface := by
        cases hfi : interfaces.find? Interface.upMulticastNotLoopback with
        | some iface => exact ⟨iface, rfl⟩
        | none =>
          exfalso
          apply hex
          intro i hi
          have := List.find?_eq_none.mp hfi i hi
          simpa using this
      obtain ⟨iface, hfi⟩ := hfind
      rw [hsome iface hfi] at herr
      cases hl : env.ListenMulticastUDP iface addr with
      | error err =>
        rw [hl] at herr
        simp only [Option.some.injEq] at herr
        exact hlisten iface addr err hl herr
      | ok conn =>
        rw [hl] at herr
        have hd := hsock iface addr conn hl
        simp only [MulticastClient.setDeadlines, mockUDPConn.SetReadDeadline,
          mockUDPConn.SetWriteDeadline] at herr
        split at herr
        · rename_i e he
          split at he
          · rw [he] at hd
            exact hd (by rw [← herr])
          · cases he
        · split at herr
          · rename_i e he
            split at he
            · rw [he] at hd
              exact hd (by rw [← herr])
            · cases he
          · cases herr
    · intro hall
      rw [hnone hall]

/-- C20 at three interfaces, loopback (up, multicast, loopback), a link that is
down and a link that is up: the third is selected; and at the loopback alone:
Connect fails with the no-suitable-interface error and stays disconnected. -/
theorem C20_first_suitable_interface_witness :
    selectInterface testInterfaces = some ⟨"eth1", 19⟩ ∧
    ((MulticastClient.mk {} none none [] false).Connect
      (testNetEnv {} [⟨"lo", 21⟩] (.ok {}))).1 = some errNoSuitableInterface ∧
    ((MulticastClient.mk {} none none [] false).Connect
      (testNetEnv {} [⟨"lo", 21⟩] (.ok {}))).2.IsConnected = false :=
  have h := C20_first_suitable_interface (testNetEnv {} [⟨"lo", 21⟩] (.ok {}))
    (MulticastClient.mk {} none none [] false) ⟨":0", 0⟩ [⟨"lo", 21⟩] rfl rfl rfl rfl
    (fun _ _ _ hl => by cases hl) (fun _ _ _ hl => by cases hl; decide)
  have hall : ∀ i ∈ [(⟨"lo", 21⟩ : Interface)], i.upMulticastNotLoopback = false := by
    intro i hi
    simp only [List.mem_singleton] at hi
    subst hi
    decide
  ⟨by decide, by rw [(h.2.1 hall).1], (h.2.1 hall).2⟩

/-! ## C21 -/

/-- C25: the registry key, origin then a colon then the decimal sequence number, is
injective: equal keys come from equal origins and equal sequence numbers, also when
an origin contains a colon or ends in digits.  Hence a message with a different
(origin, sequence) pair never changes whether the registry suppresses a given
message: after any datagram whose tag differs from a tag in origin or sequence
number, that tag is covered by the registry exactly when it was before. -/
theorem C25_registry_key_injective :
    (∀ (o1 o2 : String) (s1 s2 : Nat),
      registryKey o1 s1 = registryKey o2 s2 → o1 = o2 ∧ s1 = s2) ∧
    (∀ {R : Type} (p : XMLParser R) (c : MulticastClient) (data : Bytes) (event : Event R)
      (ft other : FlowTags), p.ParseCoT data = .ok event → event.Detail.FlowTags = some ft →
      (other.From ≠ ft.From ∨ other.MessageID ≠ ft.MessageID) →
      ((c.handleMessage p data).2.seenMessages.covers other ↔ c.seenMessages.covers other)) := by
  refine ⟨registryKey_injective, ?_⟩
  intro R p c data event ft other hp ht hne
  have hkey : registryKey ft.From ft.MessageID ≠ registryKey other.From other.MessageID := by
    intro h
    obtain ⟨h1, h2⟩ := registryKey_injective _ _ _ _ h
    rcases hne with hne | hne
    · exact hne h1.symm
    · exact hne h2.symm
  have hget : (c.handleMessage p data).2.seenMessages.get
      (registryKey other.From other.MessageID)
      = c.seenMessages.get (registryKey other.From other.MessageID) := by
    apply handleMessage_get_other
    intro e f he hf
    rw [hp] at he
    cases he
    rw [ht] at hf
    cases hf
    exact hkey
  unfold SeenMessages.covers
  rw [hget]

/-- C25 at two origins of which one contains a colon and ends in a digit: the keys
a:1 with 23 and a with 123 are equal only if origins and numbers are. -/
theorem C25_registry_key_injective_witness :
    registryKey "a:1" 23 = registryKey "a:1" 23 ∧ ("a:1" = "a:1" ∧ 23 = 23) ∧
    registryKey "a:1" 23 ≠ registryKey "a" 123 :=
  ⟨rfl, C25_registry_key_injective.1 "a:1" "a:1" 23 23 rfl,
   fun h => absurd (C25_registry_key_injective.1 "a:1" "a" 23 123 h).2 (by decide)⟩

/-! ## C26 -/

theorem keyed_handleMessage {R : Type} (p : XMLParser R) (c : MulticastClient) (data : Bytes)
    (h : c.seenMessages.keyed) : (c.handleMessage p data).2.seenMessages.keyed := by
  cases hp : p.ParseCoT data with
  | error err => simpa [MulticastClient.handleMessage, hp] using h
  | ok event =>
    cases ht : event.Detail.FlowTags with
    | none => simpa [MulticastClient.handleMessage, hp, ht] using h
    | some ft =>
      by_cases hs : ft.From = c.config.ClientID
      · rw [handleMessage_self p c data event ft hp ht hs]
        exact h
      · by_cases hc : c.seenMessages.covers ft
        · rw [handleMessage_covered p c data event ft hp ht hs hc]
          exact h
        · rw [handleMessage_fresh p c data event ft hp ht hs hc]
          intro k v hkv
          rcases SeenMessages.mem_set _ _ _ _ hkv with h1 | h1
          · exact h k v h1
          · cases h1
            exact ⟨ft.From, rfl⟩

theorem keyed_pruneTick (c : MulticastClient) (h : c.seenMessages.keyed) :
    c.pruneTick.seenMessages.keyed := by
  unfold MulticastClient.pruneTick
  split
  · intro k v hkv
    simp at hkv
  · exact h

theorem keyed_runSteps {R : Type} (p : XMLParser R) (steps : List RegistryStep) :
    ∀ c : MulticastClient, c.seenMessages.keyed → (c.runSteps p steps).seenMessages.keyed := by
  induction steps with
  | nil => intro c h; exact h
  | cons s rest ih =>
    intro c h
    cases s with
    | receive data => exact ih _ (keyed_handleMessage p c data h)
    | tick => exact ih _ (keyed_pruneTick c h)

/-- C26: starting from the empty registry, after any sequence of handleMessage calls
and pruning ticks, every registry entry has a key of the form origin:s and the value
s for the same s; consequently, for every incoming flow tag, the suppression test
(an entry exists under the tag's key and its value is at least the tag's sequence
number) is true exactly when an entry exists under the tag's key. -/
theorem C26_registry_values_match_keys {R : Type} (p : XMLParser R) (c : MulticastClient)
    (steps : List RegistryStep) (hempty : c.seenMessages = []) :
    (∀ k v, (k, v) ∈ (c.runSteps p steps).seenMessages → ∃ origin, k = registryKey origin v) ∧
    (∀ ft : FlowTags, (c.runSteps p steps).seenMessages.covers ft ↔
      ∃ v, (c.runSteps p steps).seenMessages.get (registryKey ft.From ft.MessageID) = some v) := by
  have h0 : c.seenMessages.keyed := by
    rw [hempty]
    intro k v hkv
    simp at hkv
  have hk := keyed_runSteps p steps c h0
  refine ⟨hk, ?_⟩
  intro ft
  constructor
  · rintro ⟨v, hv, _⟩
    exact ⟨v, hv⟩
  · rintro ⟨v, hv⟩
    obtain ⟨origin, ho⟩ := hk _ _ (SeenMessages.mem_of_get _ _ _ hv)
    have hs := (registryKey_injective _ _ _ _ ho).2
    exact ⟨v, hv, by rw [hs]⟩

/-- C26 at a run of two receives, a tick and a third receive from the empty
registry: the entry of (other-client, 456) exists, so the suppression test holds. -/
theorem C26_registry_values_match_keys_witness :
    SeenMessages.covers ((testClient [] []).runSteps testCodec
      [.receive [1, 1, 456], .receive [1, 2, 7], .tick, .receive [7]]).seenMessages
      (testTag 1 456) :=
  ((C26_registry_values_match_keys testCodec (testClient [] [])
    [.receive [1, 1, 456], .receive [1, 2, 7], .tick, .receive [7]] rfl).2 (testTag 1 456)).mpr
    ⟨456, by decide⟩

/-! ## C27 -/

/-- C27: for every optional flow tag, client identifier and registry,
cot.ShouldProcess returns the decision and the updated registry that
MulticastClient.handleMessage produces for a datagram that parses to a message with
that tag, on a client with that ClientID and that registry; handleMessage returns no
error there and changes nothing but the registry. -/
theorem C27_shouldProcess_agrees {R : Type} (p : XMLParser R) (c : MulticastClient)
    (data : Bytes) (event : Event R) (tag : Option FlowTags) (clientID : String)
    (registry : SeenMessages)
    (hparse : p.ParseCoT data = .ok event) (htag : event.Detail.FlowTags = tag)
    (hid : c.config.ClientID = clientID) (hreg : c.seenMessages = registry) :
    ShouldProcess tag clientID registry
      = ((c.handleMessage p data).1.1, (c.handleMessage p data).2.seenMessages) ∧
    (c.handleMessage p data).1.2 = none ∧
    (c.handleMessage p data).2 = { c with seenMessages := (ShouldProcess tag clientID registry).2 } := by
  subst htag hid hreg
  unfold ShouldProcess MulticastClient.handleMessage
  rw [hparse]
  simp only
  cases event.Detail.FlowTags with
  | none => exact ⟨rfl, rfl, rfl⟩
  | some ft =>
    simp only
    by_cases hs : ft.From = c.config.ClientID
    · simp only [hs, if_true]
      simp
    · simp only [hs, if_false]
      cases c.seenMessages.get (registryKey ft.From ft.MessageID) with
      | none => exact ⟨rfl, rfl, rfl⟩
      | some v =>
        simp only
        by_cases hv : v ≥ ft.MessageID
        · simp only [hv, if_true]
          simp
        · simp only [hv, if_false]
          simp

/-- C27 at the second foreign message of the flow-tag test on a registry that holds
the first. -/
theorem C27_shouldProcess_agrees_witness :
    ShouldProcess (some (testTag 1 789)) "test-client" [("other-client:456", 456)]
      = (true, [("other-client:456", 456), ("other-client:789", 789)]) :=
  (C27_shouldProcess_agrees testCodec (testClient [] [("other-client:456", 456)]) [1, 1, 789]
    (testEvent 1 789) (some (testTag 1 789)) "test-client" [("other-client:456", 456)]
    rfl rfl rfl rfl).1.trans (by decide)

/-! ## C29 -/

/-- C29: Point.String is not total: on every point built by NewPoint(lat, lon) it
dereferences the nil pointer Hae and panics, and in general it returns a string
exactly when Hae, Ce and Le are all present. -/
theorem C29_string_dereferences_nil {F : Type} (fmtF : F → String) :
    (∀ lat lon : F, (NewPoint lat lon).String fmtF = .error .nilPointerPanic) ∧
    (∀ p : Point F, (∃ s, p.String fmtF = .ok s) ↔
      (p.Hae.isSome = true ∧ p.Ce.isSome = true ∧ p.Le.isSome = true)) := by
  refine ⟨fun lat lon => rfl, ?_⟩
  intro p
  rcases p with ⟨lat, lon, hae, ce, le⟩
  cases hae <;> cases ce <;> cases le <;> simp [Point.String, derefPointer]

/-! ## Characters and digits -/

/-- A property of all ASCII characters is checked on the codes below 128. -/
theorem ascii_cases (P : Char → Prop) (h : ∀ n, n < 128 → P (Char.ofNat n)) (c : Char)
    (hc : c.toNat < 128) : P c := by
  have := h c.toNat hc
  rwa [Char.ofNat_toNat] at this

theorem or_32_ge (n : Nat) (h : 128 ≤ n) : 128 ≤ n ||| 32 := by
  by_contra hlt
  have hlt2 : n ||| 32 < 2 ^ 7 := by omega
  obtain ⟨i, hi, hbit⟩ := Nat.ge_two_pow_implies_high_bit_true (show n ≥ 2 ^ 7 by omega)
  have hlt3 : n ||| 32 < 2 ^ i := lt_of_lt_of_le hlt2 (Nat.pow_le_pow_right (by decide) hi)
  have := Nat.testBit_lt_two_pow hlt3
  rw [Nat.testBit_or, hbit] at this
  simp at this

theorem parseUintDigit_of_not_ascii (c : Char) (hc : ¬ c.toNat < 128) :
    parseUintDigit c = none := by
  have h1 := or_32_ge c.toNat (by omega)
  unfold parseUintDigit
  rw [if_neg (by omega), if_neg (by omega)]

theorem isHexRune_ascii (c : Char) (h : isHexRune c = true) : c.toNat < 128 := by
  unfold isHexRune at h
  simp only [Bool.or_eq_true, Bool.and_eq_true, decide_eq_true_eq] at h
  omega

theorem parseUintDigit_hex (c : Char) (h : isHexRune c = true) :
    parseUintDigit c = some (hexDigitValue c) ∧ hexDigitValue c < 16 := by
  have hc := isHexRune_ascii c h
  revert h
  refine ascii_cases
    (fun c => isHexRune c = true → parseUintDigit c = some (hexDigitValue c) ∧ hexDigitValue c < 16)
    ?_ c hc
  decide

theorem isHexRune_of_parseUintDigit (c : Char) (d : Nat) (h : parseUintDigit c = some d)
    (hd : d < 16) : isHexRune c = true := by
  by_cases hc : c.toNat < 128
  · revert d
    refine ascii_cases
      (fun c => ∀ d, parseUintDigit c = some d → d < 16 → isHexRune c = true) ?_ c hc
    intro n hn d h hd
    have key : ∀ n, n < 128 → ∀ d, d < 16 → parseUintDigit (Char.ofNat n) = some d →
        isHexRune (Char.ofNat n) = true := by decide
    exact key n hn d hd h
  · rw [parseUintDigit_of_not_ascii c hc] at h
    cases h

theorem utf8Size_ascii (c : Char) (hc : c.toNat < 128) : c.utf8Size = 1 := by
  refine ascii_cases (fun c => c.utf8Size = 1) ?_ c hc
  decide

theorem goLen_hex (s : List Char) (h : s.all isHexRune = true) : goLen s = s.length := by
  induction s with
  | nil => rfl
  | cons c rest ih =>
    simp only [List.all_cons, Bool.and_eq_true] at h
    have h1 := utf8Size_ascii c (isHexRune_ascii c h.1)
    have h2 := ih h.2
    unfold goLen at h2 ⊢
    simp only [List.map_cons, List.sum_cons, List.length_cons, h1, h2]
    omega

/-! ## HexToInt -/

theorem hexFold_shift (ds : List Char) :
    ∀ a : Nat, ds.foldl (fun a c => a * 16 + hexDigitValue c) a
      = a * 16 ^ ds.length + hexValue ds := by
  unfold hexValue
  induction ds with
  | nil => intro a; simp
  | cons c rest ih =>
    intro a
    simp only [List.foldl_cons, List.length_cons]
    rw [ih (a * 16 + hexDigitValue c), ih (0 * 16 + hexDigitValue c)]
    ring

theorem hexValue_lt (ds : List Char) (h : ds.all isHexRune = true) :
    hexValue ds < 16 ^ ds.length := by
  induction ds with
  | nil => simp [hexValue]
  | cons c rest ih =>
    simp only [List.all_cons, Bool.and_eq_true] at h
    have h1 := (parseUintDigit_hex c h.1).2
    have h2 := ih h.2
    have h3 := hexFold_shift rest (0 * 16 + hexDigitValue c)
    unfold hexValue at h3 ⊢
    simp only [List.foldl_cons, List.length_cons]
    rw [h3]
    have h4 : hexDigitValue c * 16 ^ rest.length + 16 ^ rest.length ≤ 16 * 16 ^ rest.length := by
      have : (hexDigitValue c + 1) * 16 ^ rest.length ≤ 16 * 16 ^ rest.length :=
        Nat.mul_le_mul_right _ (by omega)
      linarith
    have h5 : 16 ^ (rest.length + 1) = 16 * 16 ^ rest.length := by ring
    unfold hexValue at h2
    simp only [Nat.zero_mul, Nat.zero_add]
    omega

/-- The digit loop on hexadecimal digits that fit into 32 bits. -/
theorem parseUintLoop_hex (ds : List Char) :
    ∀ (n k : Nat), ds.all isHexRune = true → n < 16 ^ k → k + ds.length = 8 →
      parseUintLoop 16 (2 ^ 32 - 1) ((2 ^ 64 - 1) / 16 + 1) n ds
        = .ok (ds.foldl (fun a c => a * 16 + hexDigitValue c) n) := by
  induction ds with
  | nil => intro n k _ _ _; rfl
  | cons c rest ih =>
    intro n k h hn hk
    simp only [List.all_cons, Bool.and_eq_true] at h
    obtain ⟨hd, hlt⟩ := parseUintDigit_hex c h.1
    simp only [List.length_cons] at hk
    have hk7 : k ≤ 7 := by omega
    have hpow : 16 ^ k ≤ 16 ^ 7 := Nat.pow_le_pow_right (by decide) hk7
    have hnext : n * 16 + hexDigitValue c < 16 ^ (k + 1) := by
      have : 16 ^ (k + 1) = 16 * 16 ^ k := by ring
      omega
    have hpow2 : 16 ^ (k + 1) ≤ 16 ^ 8 := Nat.pow_le_pow_right (by decide) (by omega)
    unfold parseUintLoop
    rw [hd]
    simp only [List.foldl_cons]
    rw [if_neg (by omega), if_neg (by norm_num at hpow ⊢; omega),
      if_neg (by norm_num at hpow2 ⊢; omega)]
    exact ih _ (k + 1) h.2 hnext (by omega)

/-- The digit loop in base 16 accepts hexadecimal digits only. -/
theorem parseUintLoop_ok_hex (maxVal cutoff : Nat) (ds : List Char) :
    ∀ (n v : Nat), parseUintLoop 16 maxVal cutoff n ds = .ok v → ds.all isHexRune = true := by
  induction ds with
  | nil => intro n v _; rfl
  | cons c rest ih =>
    intro n v h
    unfold parseUintLoop at h
    cases hd : parseUintDigit c with
    | none => rw [hd] at h; cases h
    | some d =>
      rw [hd] at h
      simp only at h
      by_cases h16 : d ≥ 16
      · rw [if_pos h16] at h; cases h
      · rw [if_neg h16] at h
        by_cases h2 : n ≥ cutoff
        · rw [if_pos h2] at h; cases h
        · rw [if_neg h2] at h
          by_cases h3 : n * 16 + d > maxVal
          · rw [if_pos h3] at h; cases h
          · rw [if_neg h3] at h
            simp only [List.all_cons, Bool.and_eq_true]
            exact ⟨isHexRune_of_parseUintDigit c d hd (by omega), ih _ _ h⟩

theorem HexToInt_six (hexColor : String) (h6 : (trimHash hexColor.data).length = 6)
    (hall : (trimHash hexColor.data).all isHexRune = true) :
    HexToInt hexColor = (0xFF000000 ||| hexValue (trimHash hexColor.data), none) := by
  have hlen : goLen (trimHash hexColor.data) = 6 := by rw [goLen_hex _ hall, h6]
  have hF : isHexRune 'F' = true := by decide
  have hall2 : ('F' :: 'F' :: trimHash hexColor.data).all isHexRune = true := by
    simp only [List.all_cons, hF, hall, Bool.and_self]
  have hloop := parseUintLoop_hex _ 0 0 hall2 (by decide) (by simp [h6])
  have hv := hexValue_lt _ hall
  rw [h6] at hv
  have hval : ('F' :: 'F' :: trimHash hexColor.data).foldl (fun a c => a * 16 + hexDigitValue c) 0
      = 0xFF000000 ||| hexValue (trimHash hexColor.data) := by
    simp only [List.foldl_cons]
    rw [hexFold_shift, h6]
    have hFv : hexDigitValue 'F' = 15 := by decide
    rw [hFv]
    have := Nat.mul_add_lt_is_or (show hexValue (trimHash hexColor.data) < 2 ^ 24 by
      norm_num at hv ⊢; exact hv) 255
    norm_num at this ⊢
    rw [← this]
  unfold HexToInt
  simp only [hlen, if_true]
  unfold ParseUint
  rw [if_neg (by simp), hloop, hval]
  simp only
  have hlt : 0xFF000000 ||| hexValue (trimHash hexColor.data) < 2 ^ 32 :=
    Nat.or_lt_two_pow (by norm_num) (lt_trans hv (by norm_num))
  rw [Nat.mod_eq_of_lt hlt]

theorem HexToInt_eight (hexColor : String) (h8 : (trimHash hexColor.data).length = 8)
    (hall : (trimHash hexColor.data).all isHexRune = true) :
    HexToInt hexColor = (hexValue (trimHash hexColor.data), none) := by
  have hlen : goLen (trimHash hexColor.data) = 8 := by rw [goLen_hex _ hall, h8]
  have hloop := parseUintLoop_hex _ 0 0 hall (by decide) (by simp [h8])
  have hv := hexValue_lt _ hall
  rw [h8] at hv
  have hne : trimHash hexColor.data ≠ [] := by
    intro h
    rw [h] at h8
    cases h8
  unfold HexToInt
  simp only [hlen, if_true, show ¬ (8 = 6) by decide, if_false]
  unfold ParseUint
  rw [if_neg hne, hloop]
  simp only
  have hlt : hexValue (trimHash hexColor.data) < 2 ^ 32 := lt_of_lt_of_le hv (by norm_num)
  unfold hexValue at hlt ⊢
  rw [Nat.mod_eq_of_lt hlt]

theorem HexToInt_error (hexColor : String)
    (h : ¬ (((trimHash hexColor.data).length = 6 ∨ (trimHash hexColor.data).length = 8) ∧
      (trimHash hexColor.data).all isHexRune = true)) :
    (HexToInt hexColor).1 = 0 ∧ (HexToInt hexColor).2.isSome = true := by
  unfold HexToInt
  simp only
  by_cases h6 : goLen (trimHash hexColor.data) = 6
  · rw [if_pos h6]
    simp only
    cases hp : ParseUint ('F' :: 'F' :: trimHash hexColor.data) 16 32 with
    | error e => exact ⟨rfl, rfl⟩
    | ok v =>
      exfalso
      unfold ParseUint at hp
      rw [if_neg (by simp)] at hp
      have hall := parseUintLoop_ok_hex _ _ _ _ _ hp
      simp only [List.all_cons, Bool.and_eq_true] at hall
      have hall2 : (trimHash hexColor.data).all isHexRune = true := hall.2.2
      exact h ⟨Or.inl (by rw [← goLen_hex _ hall2, h6]), hall2⟩
  · rw [if_neg h6]
    by_cases h8 : goLen (trimHash hexColor.data) = 8
    · rw [if_pos h8]
      simp only
      cases hp : ParseUint (trimHash hexColor.data) 16 32 with
      | error e => exact ⟨rfl, rfl⟩
      | ok v =>
        exfalso
        unfold ParseUint at hp
        split at hp
        · cases hp
        · have hall := parseUintLoop_ok_hex _ _ _ _ _ hp
          exact h ⟨Or.inr (by rw [← goLen_hex _ hall, h8]), hall⟩
    · rw [if_neg h8]
      exact ⟨rfl, rfl⟩

/-! ## C22 -/

/-- C22: HexToInt accepts exactly the forms #RRGGBB, #AARRGGBB, RRGGBB and AARRGGBB.
With hex the text after removing one leading #: if hex is six hexadecimal digits of
value v the result is 0xFF000000 | v without error; if it is eight hexadecimal digits
of value v the result is v without error; for any other length or any character
that is no hexadecimal digit the result is 0 with an error. -/
theorem C22_hexToInt_formats (hexColor : String) :
    ((trimHash hexColor.data).length = 6 → (trimHash hexColor.data).all isHexRune = true →
      HexToInt hexColor = (0xFF000000 ||| hexValue (trimHash hexColor.data), none)) ∧
    ((trimHash hexColor.data).length = 8 → (trimHash hexColor.data).all isHexRune = true →
      HexToInt hexColor = (hexValue (trimHash hexColor.data), none)) ∧
    (¬ (((trimHash hexColor.data).length = 6 ∨ (trimHash hexColor.data).length = 8) ∧
        (trimHash hexColor.data).all isHexRune = true) →
      (HexToInt hexColor).1 = 0 ∧ (HexToInt hexColor).2.isSome = true) :=
  ⟨HexToInt_six hexColor, HexToInt_eight hexColor, HexToInt_error hexColor⟩

/-- C22 at the inputs of TestHexToInt: #FF0000 gives 0xFFFF0000, 880000FF gives
0x880000FF, and #12345 and #GGGGGG give 0 and an error. -/
theorem C22_hexToInt_formats_witness :
    HexToInt "#FF0000" = (0xFFFF0000, none) ∧ HexToInt "880000FF" = (0x880000FF, none) ∧
    ((HexToInt "#12345").1 = 0 ∧ (HexToInt "#12345").2.isSome = true) ∧
    ((HexToInt "#GGGGGG").1 = 0 ∧ (HexToInt "#GGGGGG").2.isSome = true) :=
  ⟨((C22_hexToInt_formats "#FF0000").1 (by decide) (by decide)).trans (by decide),
   ((C22_hexToInt_formats "880000FF").2.1 (by decide) (by decide)).trans (by decide),
   (C22_hexToInt_formats "#12345").2.2 (by decide),
   (C22_hexToInt_formats "#GGGGGG").2.2 (by decide)⟩

/-! ## The values of ParseColor are 32-bit values -/

theorem uint8_lt (v : Int) : uint8 v < 256 := by
  unfold uint8
  have h1 : 0 ≤ v % 256 := Int.emod_nonneg _ (by norm_num)
  have h2 : v % 256 < 256 := Int.emod_lt_of_pos _ (by norm_num)
  omega

theorem RGBToInt_lt (r g b : Nat) (hr : r < 256) (hg : g < 256) (hb : b < 256) :
    RGBToInt r g b < 2 ^ 32 := by
  unfold RGBToInt
  simp only [Nat.shiftLeft_eq]
  exact Nat.or_lt_two_pow (Nat.or_lt_two_pow (Nat.or_lt_two_pow (by norm_num) (by omega))
    (by omega)) (by omega)

theorem RGBAToInt_lt (r g b a : Nat) (hr : r < 256) (hg : g < 256) (hb : b < 256)
    (ha : a < 256) : RGBAToInt r g b a < 2 ^ 32 := by
  unfold RGBAToInt
  simp only [Nat.shiftLeft_eq]
  exact Nat.or_lt_two_pow (Nat.or_lt_two_pow (Nat.or_lt_two_pow (by omega) (by omega))
    (by omega)) (by omega)

theorem HexToInt_lt (hexColor : String) : (HexToInt hexColor).1 < 2 ^ 32 := by
  unfold HexToInt
  simp only
  split
  · norm_num
  · split
    · norm_num
    · exact Nat.mod_lt _ (by norm_num)

theorem NameToInt_lt (colorName : String) : (NameToInt colorName).1 < 2 ^ 32 := by
  unfold NameToInt
  simp only
  split
  · rename_i val h
    have hall : ∀ e ∈ StandardColors, e.2 < 2 ^ 32 := by decide
    have hmem : ∀ (l : List (String × Nat)) (k : String) (v : Nat),
        l.lookup k = some v → (k, v) ∈ l := by
      intro l
      induction l with
      | nil => intro k v h; cases h
      | cons e rest ih =>
        intro k v h
        rcases e with ⟨k1, v1⟩
        rw [List.lookup_cons] at h
        by_cases hk : (k == k1) = true
        · rw [hk] at h
          simp only [Option.some.injEq] at h
          have : k = k1 := by simpa using hk
          rw [this, ← h]
          exact List.mem_cons_self _ _
        · have hk2 : (k == k1) = false := by simpa using hk
          rw [hk2] at h
          exact List.mem_cons_of_mem _ (ih k v h)
    exact hall _ (hmem _ _ _ h)
  · norm_num

theorem parseRGB_lt (s : List Char) (v : Nat) (h : parseRGB s = some v) : v < 2 ^ 32 := by
  unfold parseRGB at h
  split at h
  · split at h
    · split at h
      · simp only [Option.some.injEq] at h
        rw [← h]
        exact RGBToInt_lt _ _ _ (uint8_lt _) (uint8_lt _) (uint8_lt _)
      · cases h
    · cases h
  · cases h

theorem parseRGBA_lt (s : List Char) (v : Nat) (h : parseRGBA s = some v) : v < 2 ^ 32 := by
  unfold parseRGBA at h
  split at h
  · split at h
    · split at h
      · simp only [Option.some.injEq] at h
        rw [← h]
        exact RGBAToInt_lt _ _ _ _ (uint8_lt _) (uint8_lt _) (uint8_lt _) (uint8_lt _)
      · cases h
    · cases h
  · cases h

/-- ParseColor returns a uint32. -/
theorem ParseColor_lt (colorStr : String) : (ParseColor colorStr).1 < 2 ^ 32 := by
  unfold ParseColor
  simp only
  split
  · norm_num
  · split
    · rename_i val h
      have := NameToInt_lt (String.mk (TrimSpace colorStr.data))
      rw [h] at this
      exact this
    · split
      · exact HexToInt_lt _
      · split
        · rename_i val h
          exact parseRGB_lt _ _ h
        · split
          · rename_i val h
            exact parseRGBA_lt _ _ h
          · norm_num

/-! ## C23 -/

theorem formatDecimal_UintToInt (v : Nat) (hv : v < 2 ^ 32) :
    formatDecimal (UintToInt v) = signedDecimal v := by
  unfold formatDecimal UintToInt signedDecimal
  by_cases h : v < 2 ^ 31
  · rw [if_pos h, if_pos h, if_neg (by omega)]
    rfl
  · rw [if_neg h, if_neg h]
    have hneg : (v : Int) - 2 ^ 32 < 0 := by
      have : (v : Int) < 2 ^ 32 := by exact_mod_cast hv
      omega
    rw [if_pos hneg]
    have habs : ((v : Int) - 2 ^ 32).natAbs = 2 ^ 32 - v := by
      have : (v : Int) < 2 ^ 32 := by exact_mod_cast hv
      omega
    rw [habs]

theorem RGBAToInt_eq (r g b a : Nat) (hr : r < 256) (hg : g < 256) (hb : b < 256) :
    RGBAToInt r g b a = a * 2 ^ 24 + r * 2 ^ 16 + g * 2 ^ 8 + b := by
  unfold RGBAToInt
  simp only [Nat.shiftLeft_eq]
  have h1 : 2 ^ 8 * g + b = 2 ^ 8 * g ||| b := Nat.mul_add_lt_is_or (by omega) g
  have h2 : 2 ^ 16 * r + (g * 2 ^ 8 + b) = 2 ^ 16 * r ||| (g * 2 ^ 8 + b) :=
    Nat.mul_add_lt_is_or (by omega) r
  have h3 : 2 ^ 24 * a + (r * 2 ^ 16 + (g * 2 ^ 8 + b)) = 2 ^ 24 * a ||| (r * 2 ^ 16 + (g * 2 ^ 8 + b)) :=
    Nat.mul_add_lt_is_or (by omega) a
  rw [Nat.or_assoc, Nat.or_assoc]
  rw [Nat.mul_comm g, ← h1, Nat.mul_comm r, Nat.mul_comm (2 ^ 8) g, ← h2, Nat.mul_comm a,
    Nat.mul_comm (2 ^ 16) r, ← h3]
  ring

/-- C23: ConvertToCoTColor does not return the eight hexadecimal digits AARRGGBB.
On the inputs of TestConvertToCoTColor it returns the decimal text of the value
read as a signed 32-bit integer: -65536 for red (the test expects FFFF0000, which
IntToHex gives for the same value), -16711936 for #00FF00 (FF00FF00), -16776961
for the uint32 0xFF0000FF (FF0000FF), -65281 for the int 0xFFFF00FF (FFFF00FF)
and -65536 for the opaque RGBA red (FFFF0000).  For an unsupported type and for
a text that is no colour it returns the empty string and an error, as claimed. -/
theorem C23_returns_signed_decimal_not_hex :
    ConvertToCoTColor (.string "red") = ("-65536", none) ∧
    IntToHex 0xFFFF0000 = "FFFF0000" ∧
    ConvertToCoTColor (.string "#00FF00") = ("-16711936", none) ∧
    IntToHex 0xFF00FF00 = "FF00FF00" ∧
    ConvertToCoTColor (.uint32 0xFF0000FF) = ("-16776961", none) ∧
    IntToHex 0xFF0000FF = "FF0000FF" ∧
    ConvertToCoTColor (.int 0xFFFF00FF) = ("-65281", none) ∧
    IntToHex 0xFFFF00FF = "FFFF00FF" ∧
    ConvertToCoTColor (.RGBA 255 0 0 255) = ("-65536", none) ∧
    ConvertToCoTColor (.other "float64")
      = ("", some (.errorsNew "unsupported color type: float64")) ∧
    ConvertToCoTColor (.string "notacolor")
      = ("", some (.errorsNew "unable to parse color format: notacolor")) := by
  decide

/-- For every input of a supported type ConvertToCoTColor returns the text
signedDecimal of the 32-bit colour value, and for every other input the empty
string and an error. -/
theorem ConvertToCoTColor_signedDecimal :
    (∀ (s : String) (val : Nat), ParseColor s = (val, none) →
      ConvertToCoTColor (.string s) = (signedDecimal val, none)) ∧
    (∀ v : Nat, v < 2 ^ 32 → ConvertToCoTColor (.uint32 v) = (signedDecimal v, none)) ∧
    (∀ v : Int, ConvertToCoTColor (.int v) = (signedDecimal (v % 2 ^ 32).toNat, none) ∧
      ConvertToCoTColor (.int32 v) = (signedDecimal (v % 2 ^ 32).toNat, none)) ∧
    (∀ r g b a : Nat, r < 256 → g < 256 → b < 256 → a < 256 →
      ConvertToCoTColor (.RGBA r g b a)
        = (signedDecimal (a * 2 ^ 24 + r * 2 ^ 16 + g * 2 ^ 8 + b), none) ∧
      ConvertToCoTColor (.NRGBA r g b a)
        = (signedDecimal (a * 2 ^ 24 + r * 2 ^ 16 + g * 2 ^ 8 + b), none)) ∧
    (∀ typeName : String, (ConvertToCoTColor (.other typeName)).1 = "" ∧
      (ConvertToCoTColor (.other typeName)).2.isSome = true) ∧
    (∀ (s : String) (val : Nat) (err : GoError), ParseColor s = (val, some err) →
      ConvertToCoTColor (.string s) = ("", some err)) := by
  have hmod : ∀ v : Int, (v % 2 ^ 32).toNat < 2 ^ 32 := by
    intro v
    have h1 : 0 ≤ v % 2 ^ 32 := Int.emod_nonneg _ (by norm_num)
    have h2 : v % 2 ^ 32 < 2 ^ 32 := Int.emod_lt_of_pos _ (by norm_num)
    omega
  refine ⟨?_, ?_, ?_, ?_, ?_, ?_⟩
  · intro s val h
    have hval : val < 2 ^ 32 := by
      have := ParseColor_lt s
      rw [h] at this
      exact this
    simp only [ConvertToCoTColor, h, formatDecimal_UintToInt val hval]
  · intro v hv
    simp only [ConvertToCoTColor, formatDecimal_UintToInt v hv]
  · intro v
    simp only [ConvertToCoTColor, uint32, formatDecimal_UintToInt _ (hmod v), and_self]
  · intro r g b a hr hg hb ha
    have hlt : a * 2 ^ 24 + r * 2 ^ 16 + g * 2 ^ 8 + b < 2 ^ 32 := by omega
    simp only [ConvertToCoTColor, RGBAToInt_eq r g b a hr hg hb,
      formatDecimal_UintToInt _ hlt, and_self]
  · intro typeName
    exact ⟨rfl, rfl⟩
  · intro s val err h
    simp only [ConvertToCoTColor, h]

/-! ## Decimal texts and Atoi -/

theorem digitChar_decimal (k : Nat) (hk : k < 10) :
    48 ≤ (Nat.digitChar k).toNat ∧ (Nat.digitChar k).toNat ≤ 57 := by
  interval_cases k <;> decide

theorem toDigitsCore_decimal (fuel : Nat) :
    ∀ (n : Nat) (ds : List Char), (∀ c ∈ ds, 48 ≤ c.toNat ∧ c.toNat ≤ 57) →
      ∀ c ∈ Nat.toDigitsCore 10 fuel n ds, 48 ≤ c.toNat ∧ c.toNat ≤ 57 := by
  induction fuel with
  | zero => intro n ds h; simpa [Nat.toDigitsCore] using h
  | succ fuel ih =>
    intro n ds h
    have hc : ∀ c ∈ Nat.digitChar (n % 10) :: ds, 48 ≤ c.toNat ∧ c.toNat ≤ 57 := by
      intro c hm
      rcases List.mem_cons.mp hm with h1 | h1
      · rw [h1]
        exact digitChar_decimal _ (Nat.mod_lt _ (by decide))
      · exact h c h1
    unfold Nat.toDigitsCore
    by_cases h0 : n / 10 = 0
    · simpa only [h0, if_true] using hc
    · simpa only [h0, if_false] using ih _ _ hc

theorem toDigits_decimal (n : Nat) : ∀ c ∈ Nat.toDigits 10 n, 48 ≤ c.toNat ∧ c.toNat ≤ 57 :=
  toDigitsCore_decimal _ _ _ (by simp)

theorem toDigitsCore_ne_nil (fuel : Nat) :
    ∀ (n : Nat) (ds : List Char), (0 < fuel ∨ ds ≠ []) → Nat.toDigitsCore 10 fuel n ds ≠ [] := by
  induction fuel with
  | zero =>
    intro n ds h
    rcases h with h | h
    · omega
    · simpa [Nat.toDigitsCore] using h
  | succ fuel ih =>
    intro n ds _
    unfold Nat.toDigitsCore
    by_cases h0 : n / 10 = 0
    · simp [h0]
    · simp only [h0, if_false]
      exact ih _ _ (Or.inr (by simp))

theorem toDigits_ne_nil (n : Nat) : Nat.toDigits 10 n ≠ [] :=
  toDigitsCore_ne_nil _ _ _ (Or.inl (by omega))

theorem parseUintDigit_decimal (c : Char) (h : 48 ≤ c.toNat ∧ c.toNat ≤ 57) :
    parseUintDigit c = some (digitValue c) ∧ digitValue c < 10 := by
  unfold parseUintDigit digitValue
  rw [if_pos h]
  exact ⟨rfl, by omega⟩

theorem le_decodeDigits (ds : List Char) : ∀ a : Nat, a ≤ decodeDigits a ds := by
  induction ds with
  | nil => intro a; exact Nat.le_refl _
  | cons c rest ih =>
    intro a
    have h := ih (10 * a + digitValue c)
    have hstep : decodeDigits a (c :: rest) = decodeDigits (10 * a + digitValue c) rest := rfl
    rw [hstep]
    omega

/-- The digit loop in base 10 on decimal digits whose value fits into 64 bits. -/
theorem parseUintLoop_decimal (ds : List Char) :
    ∀ n : Nat, (∀ c ∈ ds, 48 ≤ c.toNat ∧ c.toNat ≤ 57) → decodeDigits n ds ≤ 2 ^ 64 - 1 →
      parseUintLoop 10 (2 ^ 64 - 1) ((2 ^ 64 - 1) / 10 + 1) n ds = .ok (decodeDigits n ds) := by
  induction ds with
  | nil => intro n _ _; rfl
  | cons c rest ih =>
    intro n h hle
    obtain ⟨hd, hlt⟩ := parseUintDigit_decimal c (h c (List.mem_cons_self _ _))
    have hstep : decodeDigits n (c :: rest) = decodeDigits (10 * n + digitValue c) rest := rfl
    have hmono := le_decodeDigits rest (10 * n + digitValue c)
    rw [hstep] at hle ⊢
    unfold parseUintLoop
    rw [hd]
    simp only
    norm_num at hle ⊢
    rw [if_neg (by omega), if_neg (by omega), if_neg (by omega), Nat.mul_comm n 10]
    exact ih _ (fun c hc => h c (List.mem_cons_of_mem _ hc)) (by norm_num; exact hle)

theorem ParseUint_toDigits (n : Nat) (h : n < 2 ^ 64) :
    ParseUint (Nat.toDigits 10 n) 10 64 = .ok n := by
  unfold ParseUint
  rw [if_neg (toDigits_ne_nil n)]
  have := parseUintLoop_decimal (Nat.toDigits 10 n) 0 (toDigits_decimal n)
    (by rw [decodeDigits_toDigits]; omega)
  rw [decodeDigits_toDigits] at this
  exact this

/-- Atoi reads the decimal text of every integer of the int range back. -/
theorem Atoi_decimalText (x : Int) (h1 : -2 ^ 63 ≤ x) (h2 : x < 2 ^ 63) :
    Atoi (decimalText x) = .ok x := by
  have habs : x.natAbs < 2 ^ 64 := by omega
  have hp := ParseUint_toDigits x.natAbs habs
  unfold Atoi ParseInt decimalText
  by_cases hx : x < 0
  · rw [if_pos hx]
    simp only [true_or, or_true, if_true, hp, decide_True, Bool.not_true, Bool.false_and,
      Bool.true_and, decide_eq_true_eq]
    rw [if_neg (by simp), if_neg (by omega)]
    congr 1
    omega
  · rw [if_neg hx]
    cases hds : Nat.toDigits 10 x.natAbs with
    | nil => exact absurd hds (toDigits_ne_nil _)
    | cons c rest =>
      have hc := toDigits_decimal x.natAbs c (by rw [hds]; exact List.mem_cons_self _ _)
      have hplus : c ≠ '+' := by
        intro h
        rw [h] at hc
        exact absurd hc (by decide)
      have hminus : c ≠ '-' := by
        intro h
        rw [h] at hc
        exact absurd hc (by decide)
      rw [hds] at hp
      simp only [hplus, hminus, or_self, if_false, hp, decide_False, Bool.not_false,
        Bool.true_and, Bool.false_and, decide_eq_true_eq]
      rw [if_neg (by omega), if_neg (by simp)]
      simp only [Bool.false_eq_true, if_false]
      congr 1
      omega

/-! ## ParseColor on the text rgb(r,g,b) -/

theorem dropWhile_of_all_false {α : Type} (p : α → Bool) (l : List α)
    (h : ∀ c ∈ l, p c = false) : l.dropWhile p = l := by
  cases l with
  | nil => rfl
  | cons c rest => simp [List.dropWhile, h c (List.mem_cons_self _ _)]

theorem TrimSpace_of_no_space (s : List Char) (h : ∀ c ∈ s, isSpace c = false) :
    TrimSpace s = s := by
  unfold TrimSpace
  rw [dropWhile_of_all_false isSpace s h,
    dropWhile_of_all_false isSpace s.reverse (fun c hc => h c (List.mem_reverse.mp hc)),
    List.reverse_reverse]

/-- A printable ASCII character is no white space. -/
theorem isSpace_printable (c : Char) (h : 33 ≤ c.toNat ∧ c.toNat ≤ 126) : isSpace c = false := by
  unfold isSpace
  simp only [Bool.or_eq_false_iff, Bool.and_eq_false_iff, decide_eq_false_iff_not]
  omega

theorem decimalText_chars (x : Int) :
    ∀ c ∈ decimalText x, 45 ≤ c.toNat ∧ c.toNat ≤ 57 := by
  intro c hc
  unfold decimalText at hc
  split at hc
  · rcases List.mem_cons.mp hc with h | h
    · rw [h]
      decide
    · have := toDigits_decimal _ c h
      omega
  · have := toDigits_decimal _ c hc
    omega

theorem decimalText_no_space (x : Int) : ∀ c ∈ decimalText x, isSpace c = false := by
  intro c hc
  have := decimalText_chars x c hc
  exact isSpace_printable c (by omega)

theorem decimalText_no_comma (x : Int) : ',' ∉ decimalText x := by
  intro h
  have := decimalText_chars x ',' h
  exact absurd this (by decide)

theorem splitComma_no_comma (a : List Char) (h : ',' ∉ a) : splitComma a = [a] := by
  induction a with
  | nil => rfl
  | cons c rest ih =>
    have hc : c ≠ ',' := fun e => h (by rw [e]; exact List.mem_cons_self _ _)
    have hr : ',' ∉ rest := fun e => h (List.mem_cons_of_mem _ e)
    unfold splitComma
    rw [if_neg hc, ih hr]

theorem splitComma_append (a rest : List Char) (h : ',' ∉ a) :
    splitComma (a ++ ',' :: rest) = a :: splitComma rest := by
  induction a with
  | nil => simp [splitComma]
  | cons c a ih =>
    have hc : c ≠ ',' := fun e => h (by rw [e]; exact List.mem_cons_self _ _)
    have hr : ',' ∉ a := fun e => h (List.mem_cons_of_mem _ e)
    rw [List.cons_append]
    simp only [splitComma, if_neg hc, ih hr]

theorem lookup_of_bracket (k : String) (hk : '(' ∈ k.data) :
    ∀ l : List (String × Nat), (∀ e ∈ l, '(' ∉ e.1.data) → l.lookup k = none := by
  intro l
  induction l with
  | nil => intro _; rfl
  | cons e rest ih =>
    intro h
    rcases e with ⟨k1, v1⟩
    rw [List.lookup_cons]
    have hne : (k == k1) = false := by
      rw [beq_eq_false_iff_ne]
      intro e
      exact h (k1, v1) (List.mem_cons_self _ _) (by rw [← e]; exact hk)
    rw [hne]
    exact ih (fun e he => h e (List.mem_cons_of_mem _ he))

/-- A text with an opening bracket is no colour name. -/
theorem NameToInt_of_bracket (s : String) (h : '(' ∈ ToLower (TrimSpace s.data)) :
    ∃ e, NameToInt s = (0, some e) := by
  unfold NameToInt
  simp only
  have hl := lookup_of_bracket (String.mk (ToLower (TrimSpace s.data))) h StandardColors
    (by decide)
  rw [hl]
  exact ⟨_, rfl⟩

theorem parseRGB_decimal (r g b : Int) (hr : -2 ^ 63 ≤ r ∧ r < 2 ^ 63)
    (hg : -2 ^ 63 ≤ g ∧ g < 2 ^ 63) (hb : -2 ^ 63 ≤ b ∧ b < 2 ^ 63) :
    parseRGB (rgbText r g b).data = some (RGBToInt (uint8 r) (uint8 g) (uint8 b)) := by
  have hlast : (rgbText r g b).data.getLast? = some ')' := by
    have : (rgbText r g b).data = ('r' :: 'g' :: 'b' :: '(' ::
        (decimalText r ++ ',' :: (decimalText g ++ ',' :: decimalText b))) ++ [')'] := by
      simp [rgbText]
    rw [this, List.getLast?_concat]
  have hbody : ((rgbText r g b).data.drop 4).dropLast
      = decimalText r ++ ',' :: (decimalText g ++ ',' :: decimalText b) := by
    show (decimalText r ++ ',' :: (decimalText g ++ ',' :: (decimalText b ++ [')']))).dropLast
      = decimalText r ++ ',' :: (decimalText g ++ ',' :: decimalText b)
    have : decimalText r ++ ',' :: (decimalText g ++ ',' :: (decimalText b ++ [')']))
        = (decimalText r ++ ',' :: (decimalText g ++ ',' :: decimalText b)) ++ [')'] := by
      simp
    rw [this, List.dropLast_concat]
  have hsplit : splitComma (decimalText r ++ ',' :: (decimalText g ++ ',' :: decimalText b))
      = [decimalText r, decimalText g, decimalText b] := by
    rw [splitComma_append _ _ (decimalText_no_comma r),
      splitComma_append _ _ (decimalText_no_comma g),
      splitComma_no_comma _ (decimalText_no_comma b)]
  unfold parseRGB
  rw [if_pos ⟨rfl, hlast⟩, hbody, hsplit]
  simp only
  rw [TrimSpace_of_no_space _ (decimalText_no_space r),
    TrimSpace_of_no_space _ (decimalText_no_space g),
    TrimSpace_of_no_space _ (decimalText_no_space b),
    Atoi_decimalText r hr.1 hr.2, Atoi_decimalText g hg.1 hg.2, Atoi_decimalText b hb.1 hb.2]

theorem rgbText_no_space (r g b : Int) : ∀ c ∈ (rgbText r g b).data, isSpace c = false := by
  intro c hc
  have hc2 : c ∈ 'r' :: 'g' :: 'b' :: '(' ::
      (decimalText r ++ ',' :: (decimalText g ++ ',' :: (decimalText b ++ [')']))) := hc
  simp only [List.mem_cons, List.mem_append, List.mem_singleton] at hc2
  have h1 := decimalText_no_space r c
  have h2 := decimalText_no_space g c
  have h3 := decimalText_no_space b c
  rcases hc2 with h | h | h | h | h | h | h | h | h | h
  · rw [h]; decide
  · rw [h]; decide
  · rw [h]; decide
  · rw [h]; decide
  · exact h1 h
  · rw [h]; decide
  · exact h2 h
  · rw [h]; decide
  · exact h3 h
  · rcases h with h | h
    · rw [h]; decide
    · cases h

theorem ParseColor_rgbText (r g b : Int) (hr : -2 ^ 63 ≤ r ∧ r < 2 ^ 63)
    (hg : -2 ^ 63 ≤ g ∧ g < 2 ^ 63) (hb : -2 ^ 63 ≤ b ∧ b < 2 ^ 63) :
    ParseColor (rgbText r g b) = (RGBToInt (uint8 r) (uint8 g) (uint8 b), none) := by
  have htrim := TrimSpace_of_no_space _ (rgbText_no_space r g b)
  have hmk : String.mk (rgbText r g b).data = rgbText r g b := rfl
  have hne : (rgbText r g b).data ≠ [] := by
    intro h
    have : ('r' :: 'g' :: 'b' :: '(' ::
      (decimalText r ++ ',' :: (decimalText g ++ ',' :: (decimalText b ++ [')'])))) = [] := h
    cases this
  have hbr : '(' ∈ ToLower (TrimSpace (rgbText r g b).data) := by
    rw [htrim]
    show '(' ∈ List.map goToLower ('r' :: 'g' :: 'b' :: '(' ::
      (decimalText r ++ ',' :: (decimalText g ++ ',' :: (decimalText b ++ [')']))))
    simp only [List.map_cons, List.mem_cons]
    right; right; right; left
    decide
  obtain ⟨e, hname⟩ := NameToInt_of_bracket (rgbText r g b) hbr
  have hhash : ¬ ((rgbText r g b).data.take 1 = ['#'] ∨ isHexString (rgbText r g b).data = true) := by
    intro h
    rcases h with h | h
    · have : ['r'] = ['#'] := h
      exact absurd this (by decide)
    · unfold isHexString at h
      split at h
      · cases h
      · have : (('r' :: 'g' :: 'b' :: '(' ::
          (decimalText r ++ ',' :: (decimalText g ++ ',' :: (decimalText b ++ [')'])))).all
          isHexRune) = true := h
        rw [List.all_cons] at this
        have hrune : isHexRune 'r' = false := by decide
        rw [hrune] at this
        cases this
  unfold ParseColor
  simp only [htrim, hmk]
  rw [if_neg hne, hname]
  simp only
  rw [if_neg hhash, parseRGB_decimal r g b hr hg hb]

/-- The digit loop in base 10 on decimal digits whose value does not fit into 64
bits. -/
theorem parseUintLoop_decimal_overflow (ds : List Char) :
    ∀ n : Nat, (∀ c ∈ ds, 48 ≤ c.toNat ∧ c.toNat ≤ 57) → n ≤ 2 ^ 64 - 1 →
      2 ^ 64 - 1 < decodeDigits n ds →
      parseUintLoop 10 (2 ^ 64 - 1) ((2 ^ 64 - 1) / 10 + 1) n ds = .error errOutOfRange := by
  induction ds with
  | nil =>
    intro n _ hn hgt
    have : decodeDigits n [] = n := rfl
    omega
  | cons c rest ih =>
    intro n h hn hgt
    obtain ⟨hd, hlt⟩ := parseUintDigit_decimal c (h c (List.mem_cons_self _ _))
    have hstep : decodeDigits n (c :: rest) = decodeDigits (10 * n + digitValue c) rest := rfl
    rw [hstep] at hgt
    unfold parseUintLoop
    rw [hd]
    simp only
    rw [if_neg (by omega)]
    by_cases h1 : n ≥ (2 ^ 64 - 1) / 10 + 1
    · rw [if_pos h1]
    · rw [if_neg h1]
      by_cases h2 : n * 10 + digitValue c > 2 ^ 64 - 1
      · rw [if_pos h2]
      · rw [if_neg h2, Nat.mul_comm n 10]
        exact ih _ (fun c hc => h c (List.mem_cons_of_mem _ hc)) (by omega) hgt

theorem ParseUint_toDigits_overflow (n : Nat) (h : 2 ^ 64 ≤ n) :
    ParseUint (Nat.toDigits 10 n) 10 64 = .error errOutOfRange := by
  unfold ParseUint
  rw [if_neg (toDigits_ne_nil n)]
  exact parseUintLoop_decimal_overflow (Nat.toDigits 10 n) 0 (toDigits_decimal n) (by norm_num)
    (by rw [decodeDigits_toDigits]; omega)

/-- Atoi rejects the decimal text of every integer outside the int range. -/
theorem Atoi_decimalText_out (x : Int) (h : x < -2 ^ 63 ∨ 2 ^ 63 ≤ x) :
    Atoi (decimalText x) = .error errOutOfRange := by
  unfold Atoi ParseInt decimalText
  by_cases hx : x < 0
  · rw [if_pos hx]
    simp only [true_or, or_true, if_true, decide_True, Bool.not_true, Bool.false_and,
      Bool.true_and, decide_eq_true_eq]
    by_cases hbig : 2 ^ 64 ≤ x.natAbs
    · rw [ParseUint_toDigits_overflow _ hbig]
    · rw [ParseUint_toDigits _ (by omega)]
      simp only
      rw [if_neg (by simp), if_pos (by omega)]
  · rw [if_neg hx]
    cases hds : Nat.toDigits 10 x.natAbs with
    | nil => exact absurd hds (toDigits_ne_nil _)
    | cons c rest =>
      have hc := toDigits_decimal x.natAbs c (by rw [hds]; exact List.mem_cons_self _ _)
      have hplus : c ≠ '+' := by
        intro h
        rw [h] at hc
        exact absurd hc (by decide)
      have hminus : c ≠ '-' := by
        intro h
        rw [h] at hc
        exact absurd hc (by decide)
      simp only [hplus, hminus, or_self, if_false, decide_False, Bool.not_false,
        Bool.true_and, Bool.false_and, decide_eq_true_eq]
      rw [← hds]
      by_cases hbig : 2 ^ 64 ≤ x.natAbs
      · rw [ParseUint_toDigits_overflow _ hbig]
      · rw [ParseUint_toDigits _ (by omega)]
        simp only
        rw [if_pos (by omega)]

theorem parseRGB_out_of_range (r g b : Int)
    (h : ¬ ((-2 ^ 63 ≤ r ∧ r < 2 ^ 63) ∧ (-2 ^ 63 ≤ g ∧ g < 2 ^ 63) ∧
      (-2 ^ 63 ≤ b ∧ b < 2 ^ 63))) :
    parseRGB (rgbText r g b).data = none := by
  have hlast : (rgbText r g b).data.getLast? = some ')' := by
    have : (rgbText r g b).data = ('r' :: 'g' :: 'b' :: '(' ::
        (decimalText r ++ ',' :: (decimalText g ++ ',' :: decimalText b))) ++ [')'] := by
      simp [rgbText]
    rw [this, List.getLast?_concat]
  have hbody : ((rgbText r g b).data.drop 4).dropLast
      = decimalText r ++ ',' :: (decimalText g ++ ',' :: decimalText b) := by
    show (decimalText r ++ ',' :: (decimalText g ++ ',' :: (decimalText b ++ [')']))).dropLast
      = decimalText r ++ ',' :: (decimalText g ++ ',' :: decimalText b)
    have : decimalText r ++ ',' :: (decimalText g ++ ',' :: (decimalText b ++ [')']))
        = (decimalText r ++ ',' :: (decimalText g ++ ',' :: decimalText b)) ++ [')'] := by
      simp
    rw [this, List.dropLast_concat]
  have hsplit : splitComma (decimalText r ++ ',' :: (decimalText g ++ ',' :: decimalText b))
      = [decimalText r, decimalText g, decimalText b] := by
    rw [splitComma_append _ _ (decimalText_no_comma r),
      splitComma_append _ _ (decimalText_no_comma g),
      splitComma_no_comma _ (decimalText_no_comma b)]
  unfold parseRGB
  rw [if_pos ⟨rfl, hlast⟩, hbody, hsplit]
  simp only
  rw [TrimSpace_of_no_space _ (decimalText_no_space r),
    TrimSpace_of_no_space _ (decimalText_no_space g),
    TrimSpace_of_no_space _ (decimalText_no_space b)]
  by_cases hr : -2 ^ 63 ≤ r ∧ r < 2 ^ 63
  · by_cases hg : -2 ^ 63 ≤ g ∧ g < 2 ^ 63
    · have hb : b < -2 ^ 63 ∨ 2 ^ 63 ≤ b := by
        by_contra hb
        exact h ⟨hr, hg, by omega⟩
      rw [Atoi_decimalText r hr.1 hr.2, Atoi_decimalText g hg.1 hg.2, Atoi_decimalText_out b hb]
    · rw [Atoi_decimalText r hr.1 hr.2, Atoi_decimalText_out g (by omega)]
  · rw [Atoi_decimalText_out r (by omega)]

theorem parseRGBA_rgbText (r g b : Int) : parseRGBA (rgbText r g b).data = none := by
  unfold parseRGBA
  rw [if_neg]
  intro h
  have h1 : (ToLower (rgbText r g b).data).take 5 = ['r', 'g', 'b', 'a', '('] := h.1
  have h2 : (ToLower (rgbText r g b).data).take 5
      = 'r' :: 'g' :: 'b' :: '(' :: (ToLower (decimalText r ++ ',' ::
          (decimalText g ++ ',' :: (decimalText b ++ [')'])))).take 1 := rfl
  rw [h2] at h1
  simp only [List.cons.injEq, true_and] at h1
  exact absurd h1.1 (by decide)

theorem ParseColor_rgbText_out (r g b : Int)
    (h : ¬ ((-2 ^ 63 ≤ r ∧ r < 2 ^ 63) ∧ (-2 ^ 63 ≤ g ∧ g < 2 ^ 63) ∧
      (-2 ^ 63 ≤ b ∧ b < 2 ^ 63))) :
    ParseColor (rgbText r g b)
      = (0, some (.errorsNew ("unable to parse color format: " ++ rgbText r g b))) := by
  have htrim := TrimSpace_of_no_space _ (rgbText_no_space r g b)
  have hmk : String.mk (rgbText r g b).data = rgbText r g b := rfl
  have hne : (rgbText r g b).data ≠ [] := by
    intro h
    have : ('r' :: 'g' :: 'b' :: '(' ::
      (decimalText r ++ ',' :: (decimalText g ++ ',' :: (decimalText b ++ [')'])))) = [] := h
    cases this
  have hbr : '(' ∈ ToLower (TrimSpace (rgbText r g b).data) := by
    rw [htrim]
    show '(' ∈ List.map goToLower ('r' :: 'g' :: 'b' :: '(' ::
      (decimalText r ++ ',' :: (decimalText g ++ ',' :: (decimalText b ++ [')']))))
    simp only [List.map_cons, List.mem_cons]
    right; right; right; left
    decide
  obtain ⟨e, hname⟩ := NameToInt_of_bracket (rgbText r g b) hbr
  have hhash : ¬ ((rgbText r g b).data.take 1 = ['#'] ∨ isHexString (rgbText r g b).data = true) := by
    intro h
    rcases h with h | h
    · have : ['r'] = ['#'] := h
      exact absurd this (by decide)
    · unfold isHexString at h
      split at h
      · cases h
      · have : (('r' :: 'g' :: 'b' :: '(' ::
          (decimalText r ++ ',' :: (decimalText g ++ ',' :: (decimalText b ++ [')'])))).all
          isHexRune) = true := h
        rw [List.all_cons] at this
        have hrune : isHexRune 'r' = false := by decide
        rw [hrune] at this
        cases this
  unfold ParseColor
  simp only [htrim, hmk]
  rw [if_neg hne, hname]
  simp only
  rw [if_neg hhash, parseRGB_out_of_range r g b h, parseRGBA_rgbText r g b]

/-! ## C30 -/

/-- C30, counterexample: the component 9223372036854775808 = 2^63 is a decimal
integer, and ParseColor of rgb(9223372036854775808,0,0) does not succeed: Atoi
rejects the component as out of range and ParseColor returns 0 and the error
"unable to parse color format". -/
theorem C30_component_out_of_int_range_counterexample :
    rgbText (2 ^ 63) 0 0 = "rgb(9223372036854775808,0,0)" ∧
    ParseColor "rgb(9223372036854775808,0,0)"
      = (0, some (.errorsNew "unable to parse color format: rgb(9223372036854775808,0,0)")) := by
  decide

/-- C30, amended: for all decimal integers r, g, b within the range of int
(from -2^63 to 2^63 - 1, including values outside 0..255 and negative values),
ParseColor of rgb(r,g,b) succeeds and returns RGBToInt(r mod 256, g mod 256,
b mod 256); for 0 <= r, g, b <= 255 that is 0xFF000000 | r<<16 | g<<8 | b.  When a
component is outside the range of int, ParseColor returns 0 and the error "unable
to parse color format". -/
theorem C30_rgb_components_mod_256 (r g b : Int) :
    ((-2 ^ 63 ≤ r ∧ r < 2 ^ 63) → (-2 ^ 63 ≤ g ∧ g < 2 ^ 63) → (-2 ^ 63 ≤ b ∧ b < 2 ^ 63) →
      ParseColor (rgbText r g b)
        = (RGBToInt (r % 256).toNat (g % 256).toNat (b % 256).toNat, none)) ∧
    ((0 ≤ r ∧ r ≤ 255) → (0 ≤ g ∧ g ≤ 255) → (0 ≤ b ∧ b ≤ 255) →
      ParseColor (rgbText r g b)
        = (0xFF000000 ||| (r.toNat <<< 16) ||| (g.toNat <<< 8) ||| b.toNat, none)) ∧
    (¬ ((-2 ^ 63 ≤ r ∧ r < 2 ^ 63) ∧ (-2 ^ 63 ≤ g ∧ g < 2 ^ 63) ∧ (-2 ^ 63 ≤ b ∧ b < 2 ^ 63)) →
      ParseColor (rgbText r g b)
        = (0, some (.errorsNew ("unable to parse color format: " ++ rgbText r g b)))) := by
  refine ⟨fun hr hg hb => ParseColor_rgbText r g b hr hg hb, ?_,
    fun h => ParseColor_rgbText_out r g b h⟩
  intro hr hg hb
  rw [ParseColor_rgbText r g b (by omega) (by omega) (by omega)]
  have h1 : uint8 r = r.toNat := by unfold uint8; omega
  have h2 : uint8 g = g.toNat := by unfold uint8; omega
  have h3 : uint8 b = b.toNat := by unfold uint8; omega
  rw [h1, h2, h3]
  rfl

/-- C30 amended, at rgb(256,-1,300): the components are reduced to 0, 255 and 44. -/
theorem C30_rgb_components_mod_256_witness :
    rgbText 256 (-1) 300 = "rgb(256,-1,300)" ∧
    ParseColor (rgbText 256 (-1) 300) = (0xFF00FF2C, none) :=
  ⟨by decide,
   ((C30_rgb_components_mod_256 256 (-1) 300).1 (by decide) (by decide) (by decide)).trans
    (by decide)⟩

/-! ## C24 -/

/-- C24: FormatCotTimeWithPrecision does not render exactly min(max(p, 0), 6)
decimal places.  With precision 3 the time 10:30:00.5 is rendered with one decimal
place and the time 10:30:00 with none, and for every time on a whole second and
every precision from 1 on the result has no fractional part at all: it is the
text of the layout without fraction. -/
theorem C24_precision_drops_trailing_zeros :
    FormatCotTimeWithPrecision { unixNano := 1684146600500000000 } 3 = "2023-05-15T10:30:00.5Z" ∧
    FormatCotTimeWithPrecision { unixNano := 1684146600000000000 } 3 = "2023-05-15T10:30:00Z" ∧
    FormatCotTimeWithPrecision { unixNano := 1684146600120000000 } 6 = "2023-05-15T10:30:00.12Z" ∧
    (∀ (seconds offset : Int) (p : Nat),
      FormatCotTimeWithPrecision { unixNano := seconds * 1000000000, offset := offset } (p + 1)
        = Time.Format { unixNano := seconds * 1000000000, offset := offset } .absent) := by
  refine ⟨by decide, by decide, by decide, ?_⟩
  intro seconds offset p
  have hp : ¬ ((p : Int) + 1 ≤ 0) := by omega
  have hn : (seconds * 1000000000 % 1000000000).toNat = 0 := by
    have : seconds * 1000000000 % 1000000000 = 0 := by omega
    rw [this]
    rfl
  unfold FormatCotTimeWithPrecision
  rw [if_neg hp]
  unfold Time.Format
  simp only [hn, appendNano, Bool.or_true, Bool.and_self, if_true, decide_True]

/-! ## C28 -/

/-- C28: parsing the text of FormatCotTime does not give back the instant of a time
outside UTC.  FormatCotTime writes the wall clock of the location of t followed by
the letter Z, the same text as for the UTC time that is later by the offset of t.
For 2023-05-15 12:30:00.123456789 in Europe/Stockholm (10:30:00.123456789 UTC)
the text is 2023-05-15T12:30:00.123Z, which the Unmarshal functions read as
12:30:00.123 UTC: two hours after the instant truncated to milliseconds. -/
theorem C28_round_trip_shifts_by_offset :
    (∀ t : Time, FormatCotTime t
      = FormatCotTime { unixNano := t.unixNano + t.offset * 1000000000, offset := 0 }) ∧
    MarshalCotTime stockholmTime = "2023-05-15T12:30:00.123Z" ∧
    UnmarshalCotTime (MarshalCotTime stockholmTime)
      = .ok { unixNano := 1684153800123000000, offset := 0 } ∧
    truncateMillis stockholmTime.unixNano = 1684146600123000000 ∧
    (1684153800123000000 : Int) - truncateMillis stockholmTime.unixNano = 7200 * 1000000000 ∧
    UnmarshalCotTime (MarshalCotTime stockholmTime.UTC)
      = .ok { unixNano := truncateMillis stockholmTime.unixNano, offset := 0 } := by
  refine ⟨?_, by decide, rfl, by decide, by decide, rfl⟩
  intro t
  have h1 : (t.unixNano + t.offset * 1000000000) / 1000000000 + 0
      = t.unixNano / 1000000000 + t.offset := by omega
  have h2 : (t.unixNano + t.offset * 1000000000) % 1000000000 = t.unixNano % 1000000000 := by
    omega
  unfold FormatCotTime Time.Format
  simp only [h1, h2]

end Gotak
